import Mathlib

/-!
# MetaDataReader (nuscenes2bag): metadata index over scene / sample / sample_data / ego_pose

Shallow embedding of `src/src/MetaDataReader.cpp`.

* JSON values are an inductive type; the accessors used by the reader
  (`operator[]` on a `const` value, implicit conversion to a typed value, range-for
  iteration) are total functions into `Except Failure`: a run of the model stops at its
  first event, and `Failure.manifestation` says how that event shows in the running
  program (an exception, an abort, or undefined behaviour), by build.
* `std::map<Token, V>` is an association list kept in ascending key order
  (`StdMap`), so that iteration order is the one of the C++ container.
* The reader object is the record `MetaDataReader`; `loadFromDirectory` is a state
  transformer returning the outcome together with the state the object is left in.
* `assert` depends on the build: the flag `ndebug` says whether `NDEBUG` is defined.
  `constructionOutcome` is the constructor as its caller sees it in a given build.
-/

namespace Nuscenes2bag

/-! ## Failures -/

/-- The events at which a run of the model stops without returning normally. How an event
shows in the running program depends on its kind and on the build, see
`Failure.manifestation`: only some of them are failures the program reports. -/
inductive Failure where
  /-- The call `slurpJsonFile` throws `std::runtime_error` (file cannot be opened). -/
  | unableToOpen
  /-- The stream extraction `file >> newJson` throws a parse error. -/
  | parseError
  /-- A JSON value has the wrong type for the access or the conversion. -/
  | typeError
  /-- Access `operator[]` on a `const` object with an absent key: the library asserts that
  the key is found and then dereferences the iterator. The assertion aborts the process in
  a build with assertions; with `NDEBUG` the behaviour is undefined. -/
  | missingKey
  /-- Access `operator[]` on a `const` array beyond its size: an unchecked vector access,
  undefined behaviour in every build. -/
  | outOfBounds
  /-- The call `std::stoi` throws `std::invalid_argument`. -/
  | invalidArgument
  /-- The call `std::stoi` throws `std::out_of_range`. -/
  | outOfRange
  /-- An `assert` fails in a build without `NDEBUG`. -/
  | assertionFailed
  /-- Dereference of an `end()` iterator: undefined behaviour in every build. -/
  | endIteratorDeref
  deriving DecidableEq, Repr

/-- How an event shows in the running program. -/
inductive Manifestation where
  /-- A C++ exception is thrown to the caller. -/
  | exception
  /-- A failed assertion aborts the process. -/
  | abort
  /-- Undefined behaviour: the program may do anything, including carrying on. -/
  | undefined
  deriving DecidableEq, Repr

/-- How an event of the model shows in a build with (`ndebug = false`) or without
(`ndebug = true`) assertions. -/
def Failure.manifestation (ndebug : Bool) : Failure → Manifestation
  | .unableToOpen => .exception
  | .parseError => .exception
  | .typeError => .exception
  | .missingKey => if ndebug then .undefined else .abort
  | .outOfBounds => .undefined
  | .invalidArgument => .exception
  | .outOfRange => .exception
  | .assertionFailed => .abort
  | .endIteratorDeref => .undefined

/-! ## JSON values -/

/-- A JSON number, kept as the decimal literal `mantissa * 10 ^ exponent`. The reader
never computes with numbers, it only stores them. -/
structure JsonNumber where
  mantissa : Int
  exponent : Int
  deriving DecidableEq, Repr

/-- JSON values as delivered by the JSON library. The members of an object are listed in
the iteration order of the library's container, each key once. -/
inductive Json where
  | null
  | boolean (b : Bool)
  | number (n : JsonNumber)
  | string (s : String)
  | array (elems : List Json)
  | object (members : List (String × Json))

/-- First member of an object with the given key. -/
def lookupMember (key : String) : List (String × Json) → Option Json
  | [] => none
  | (k, v) :: rest => if k = key then some v else lookupMember key rest

/-- Access `j[key]` on a `const` JSON value (every record is read through a `const`
reference). On a value that is no object the library throws. On an object without the key
the run stops at the event `missingKey`, which is an abort in a build with assertions and
undefined behaviour with `NDEBUG`: it is no exception and no reported decode error. -/
def Json.key (j : Json) (key : String) : Except Failure Json :=
  match j with
  | .object members =>
    match lookupMember key members with
    | some v => .ok v
    | none => .error .missingKey
  | _ => .error .typeError

/-- Access `j[i]` on a `const` JSON value. On a value that is no array the library throws.
On an array with no element `i` the run stops at the event `outOfBounds`, which is
undefined behaviour in every build. -/
def Json.idx (j : Json) (i : Nat) : Except Failure Json :=
  match j with
  | .array elems =>
    match elems.get? i with
    | some v => .ok v
    | none => .error .outOfBounds
  | _ => .error .typeError

/-- Conversion of a JSON value to `std::string`. -/
def Json.toStr (j : Json) : Except Failure String :=
  match j with
  | .string s => .ok s
  | _ => .error .typeError

/-- Conversion of a JSON value to an arithmetic type: a number is required. -/
def Json.toNum (j : Json) : Except Failure JsonNumber :=
  match j with
  | .number n => .ok n
  | _ => .error .typeError

/-- Conversion of a JSON value to `bool`. -/
def Json.toBool (j : Json) : Except Failure Bool :=
  match j with
  | .boolean b => .ok b
  | _ => .error .typeError

/-- The values visited by `for (const auto &x : j)`. -/
def Json.items (j : Json) : List Json :=
  match j with
  | .null => []
  | .array elems => elems
  | .object members => members.map Prod.snd
  | other => [other]

/-! ## Tokens and `std::map` -/

/-- Tokens are `std::string` values. -/
abbrev Token := String

/-- Lexicographic comparison of code sequences. -/
def codesLt : List Nat → List Nat → Bool
  | _, [] => false
  | [], _ :: _ => true
  | a :: as, b :: bs => decide (a < b) || (decide (a = b) && codesLt as bs)

/-- Code sequence of a token. -/
def Token.codes (t : Token) : List Nat := t.data.map Char.toNat

/-- The order `std::less<std::string>` used by `std::map<Token, V>`. On UTF-8 text the
byte-wise order is the order of the code point sequences. -/
def Token.lt (a b : Token) : Bool := codesLt a.codes b.codes

/-- A `std::map<Token, V>`: its entries in iteration order. -/
abbrev StdMap (ν : Type) := List (Token × ν)

/-- Member `find`: the mapped value, or `none` for `end()`. -/
def StdMap.find {ν : Type} : StdMap ν → Token → Option ν
  | [], _ => none
  | (k, v) :: rest, key => if k = key then some v else StdMap.find rest key

/-- Member `emplace`: inserts the pair unless the key is already present. -/
def StdMap.emplace {ν : Type} : StdMap ν → Token → ν → StdMap ν
  | [], key, val => [(key, val)]
  | (k, v) :: rest, key, val =>
    if Token.lt key k then (key, val) :: (k, v) :: rest
    else if k = key then (k, v) :: rest
    else (k, v) :: StdMap.emplace rest key val

/-- Member `operator[]`: the map after the access, in which the key is present
(a value-initialised entry is inserted when it was absent). The reference returned by
the C++ operator designates the entry of `key` in this map. -/
def StdMap.subscript {ν : Type} [Inhabited ν] (m : StdMap ν) (key : Token) : StdMap ν :=
  StdMap.emplace m key default

/-- Write through a reference to the entry of `key`. -/
def StdMap.modify {ν : Type} : StdMap ν → Token → (ν → ν) → StdMap ν
  | [], _, _ => []
  | (k, v) :: rest, key, f =>
    if k = key then (k, f v) :: rest else (k, v) :: StdMap.modify rest key f

/-- Modelled from the spec: the helper `getExistingOrDefault` of
`nuscenes2bag/utils.hpp`, which is not part of the sources at hand ("insert or get
existing"). The result is the map after the call; the returned reference designates
the entry of `key`. -/
def getExistingOrDefault {ν : Type} [Inhabited ν] (m : StdMap ν) (key : Token) : StdMap ν :=
  StdMap.emplace m key default

/-! ## Records -/

/-- Modelled from the spec: the record `SceneInfo` of the absent header, fields in the
order of the aggregate initialisation in `loadScenesFromFile`. -/
structure SceneInfo where
  token : Token
  sampleNumber : JsonNumber
  sceneId : Int
  name : String
  description : String
  firstSampleToken : Token
  deriving DecidableEq, Repr

/-- Modelled from the spec: the record `SampleInfo` of the absent header. -/
structure SampleInfo where
  sceneToken : Token
  token : Token
  timeStamp : JsonNumber
  deriving DecidableEq, Repr

/-- Modelled from the spec: the record `SampleDataInfo` of the absent header. -/
structure SampleDataInfo where
  token : Token
  timeStamp : JsonNumber
  egoPoseToken : Token
  calibratedSensorToken : Token
  fileFormat : String
  isKeyFrame : Bool
  fileName : String
  deriving DecidableEq, Repr

/-- Modelled from the spec: the record `EgoPoseInfo` of the absent header. -/
structure EgoPoseInfo where
  translation : JsonNumber × JsonNumber × JsonNumber
  rotation : JsonNumber × JsonNumber × JsonNumber × JsonNumber
  timeStamp : JsonNumber
  deriving DecidableEq, Repr

/-! ## Files -/

/-- What opening and parsing a file yields. -/
inductive FileContent where
  /-- The file cannot be opened. -/
  | absent
  /-- The file opens but is not valid JSON. -/
  | malformed
  /-- The file holds this JSON value. -/
  | parsed (j : Json)

/-- The file system seen by the reader: content by path. -/
abbrev FileSystem := String → FileContent

/-- What `directoryPath / name` puts in front of a relative `name`: nothing for the empty
path, the path itself when it ends with a separator, else the path and a separator. -/
def pathPrefix (directoryPath : String) : String :=
  if directoryPath.data = [] then ""
  else if directoryPath.data.getLast? = some '/' then directoryPath
  else directoryPath ++ "/"

/-- Path concatenation `directoryPath / name` for a relative `name`. -/
def joinPath (directoryPath name : String) : String :=
  pathPrefix directoryPath ++ name

/-- Member `slurpJsonFile`. -/
def slurpJsonFile (fsys : FileSystem) (filePath : String) : Except Failure Json :=
  match fsys filePath with
  | .absent => .error .unableToOpen
  | .malformed => .error .parseError
  | .parsed j => .ok j

/-! ## Scene names: `std::regex_search` with `scene-(\d+)` and `std::stoi` -/

/-- Longest run of decimal digits at the start of the input (greedy `\d+`). -/
def leadingDigits : List Char → List Char
  | [] => []
  | c :: cs => if c.isDigit then c :: leadingDigits cs else []

/-- Remainder of the input after the literal, when the input starts with it. -/
def dropLiteral : List Char → List Char → Option (List Char)
  | [], cs => some cs
  | _ :: _, [] => none
  | l :: ls, c :: cs => if l = c then dropLiteral ls cs else none

/-- Match of `scene-(\d+)` anchored at the start of the input: the captured group. -/
def matchSceneIdHere (cs : List Char) : Option (List Char) :=
  match dropLiteral "scene-".data cs with
  | none => none
  | some rest =>
    match leadingDigits rest with
    | [] => none
    | d :: ds => some (d :: ds)

/-- The call `std::regex_search(s, match, sceneIdRegex)`: group 1 of the leftmost
match, `none` when the pattern occurs nowhere. -/
def regexSearchSceneId : List Char → Option (List Char)
  | [] => none
  | c :: cs =>
    match matchSceneIdHere (c :: cs) with
    | some g => some g
    | none => regexSearchSceneId cs

/-- Decimal value of a digit string. -/
def digitsValue (ds : List Char) : Nat :=
  ds.foldl (fun acc c => 10 * acc + (c.toNat - 48)) 0

/-- The characters skipped by `std::stoi` in front of the number (`isspace`). -/
def isSpace (c : Char) : Bool :=
  c = ' ' || c = '\t' || c = '\n' || c = '\x0b' || c = '\x0c' || c = '\r'

/-- The call `std::stoi(s)` (base 10, 32-bit `int`). -/
def stoi (s : List Char) : Except Failure Int :=
  let s1 := s.dropWhile isSpace
  let signed : Bool × List Char :=
    match s1 with
    | '-' :: r => (true, r)
    | '+' :: r => (false, r)
    | r => (false, r)
  match leadingDigits signed.2 with
  | [] => .error .invalidArgument
  | d :: ds =>
    let v : Int := if signed.1 then - (digitsValue (d :: ds) : Int) else (digitsValue (d :: ds) : Int)
    if v < -2147483648 ∨ 2147483647 < v then .error .outOfRange else .ok v

/-! ## Loading -/

/-- Body of the loop of `loadScenesFromFile` (lines 62-73): one scene record. -/
def sceneJson2SceneInfo (sceneJson : Json) : Except Failure SceneInfo := do
  let sceneIdStr ← (← sceneJson.key "name").toStr
  let sceneId ← stoi ((regexSearchSceneId sceneIdStr.data).getD [])
  let token ← (← sceneJson.key "token").toStr
  let sampleNumber ← (← sceneJson.key "nbr_samples").toNum
  let name ← (← sceneJson.key "name").toStr
  let description ← (← sceneJson.key "description").toStr
  let firstSampleToken ← (← sceneJson.key "first_sample_token").toStr
  return ⟨token, sampleNumber, sceneId, name, description, firstSampleToken⟩

/-- Loop of `loadScenesFromFile` over the records still to read. -/
def loadScenesLoop : List Json → List SceneInfo → Except Failure (List SceneInfo)
  | [], sceneInfos => .ok sceneInfos
  | sceneJson :: rest, sceneInfos => do
    let sceneInfo ← sceneJson2SceneInfo sceneJson
    loadScenesLoop rest (sceneInfos ++ [sceneInfo])

/-- Member `loadScenesFromFile`. -/
def loadScenesFromFile (fsys : FileSystem) (filePath : String) :
    Except Failure (List SceneInfo) := do
  let sceneJsons ← slurpJsonFile fsys filePath
  loadScenesLoop sceneJsons.items []

/-- Loop of `loadSampleInfos` (lines 84-91). -/
def loadSampleInfosLoop :
    List Json → StdMap (List SampleInfo) → Except Failure (StdMap (List SampleInfo))
  | [], token2Samples => .ok token2Samples
  | sampleInfo :: rest, token2Samples => do
    let sampleToken ← (← sampleInfo.key "token").toStr
    let sceneToken ← (← sampleInfo.key "scene_token").toStr
    let token2Samples1 := getExistingOrDefault token2Samples sceneToken
    let timeStamp ← (← sampleInfo.key "timestamp").toNum
    loadSampleInfosLoop rest
      (token2Samples1.modify sceneToken
        (fun samples => samples ++ [⟨sceneToken, sampleToken, timeStamp⟩]))

/-- Member `loadSampleInfos`. -/
def loadSampleInfos (fsys : FileSystem) (filePath : String) :
    Except Failure (StdMap (List SampleInfo)) := do
  let sampleInfos ← slurpJsonFile fsys filePath
  loadSampleInfosLoop sampleInfos.items []

/-- Loop of `loadSampleDataInfos` (lines 101-115). -/
def loadSampleDataInfosLoop :
    List Json → StdMap (List SampleDataInfo) → Except Failure (StdMap (List SampleDataInfo))
  | [], sample2SampleData => .ok sample2SampleData
  | sampleDataJson :: rest, sample2SampleData => do
    let sampleToken ← (← sampleDataJson.key "sample_token").toStr
    let sampleDataToken ← (← sampleDataJson.key "token").toStr
    let sample2SampleData1 := getExistingOrDefault sample2SampleData sampleToken
    let timeStamp ← (← sampleDataJson.key "timestamp").toNum
    let egoPoseToken ← (← sampleDataJson.key "ego_pose_token").toStr
    let calibratedSensorToken ← (← sampleDataJson.key "calibrated_sensor_token").toStr
    let fileFormat ← (← sampleDataJson.key "fileformat").toStr
    let isKeyFrame ← (← sampleDataJson.key "is_key_frame").toBool
    let fileName ← (← sampleDataJson.key "filename").toStr
    loadSampleDataInfosLoop rest
      (sample2SampleData1.modify sampleToken
        (fun sampleDatas => sampleDatas ++
          [⟨sampleDataToken, timeStamp, egoPoseToken, calibratedSensorToken, fileFormat,
            isKeyFrame, fileName⟩]))

/-- Member `loadSampleDataInfos`. -/
def loadSampleDataInfos (fsys : FileSystem) (filePath : String) :
    Except Failure (StdMap (List SampleDataInfo)) := do
  let sampleDataJsons ← slurpJsonFile fsys filePath
  loadSampleDataInfosLoop sampleDataJsons.items []

/-- Function `egoPoseJson2EgoPoseInfo`. -/
def egoPoseJson2EgoPoseInfo (egoPoseJson : Json) : Except Failure EgoPoseInfo := do
  let t0 ← (← (← egoPoseJson.key "translation").idx 0).toNum
  let t1 ← (← (← egoPoseJson.key "translation").idx 1).toNum
  let t2 ← (← (← egoPoseJson.key "translation").idx 2).toNum
  let r0 ← (← (← egoPoseJson.key "rotation").idx 0).toNum
  let r1 ← (← (← egoPoseJson.key "rotation").idx 1).toNum
  let r2 ← (← (← egoPoseJson.key "rotation").idx 2).toNum
  let r3 ← (← (← egoPoseJson.key "rotation").idx 3).toNum
  let timeStamp ← (← egoPoseJson.key "timestamp").toNum
  return ⟨(t0, t1, t2), (r0, r1, r2, r3), timeStamp⟩

/-- Loop of `loadEgoPoseInfos` (lines 144-157). The diagnostic line written to
standard output for a token that is not found is not part of the state. -/
def loadEgoPoseInfosLoop (sampleDataToken2SceneToken : StdMap Token) :
    List Json → StdMap (List EgoPoseInfo) → Except Failure (StdMap (List EgoPoseInfo))
  | [], sceneToken2EgoPoseInfos => .ok sceneToken2EgoPoseInfos
  | egoPoseJson :: rest, sceneToken2EgoPoseInfos => do
    let sampleDataToken ← (← egoPoseJson.key "token").toStr
    match sampleDataToken2SceneToken.find sampleDataToken with
    | none => loadEgoPoseInfosLoop sampleDataToken2SceneToken rest sceneToken2EgoPoseInfos
    | some sceneToken =>
      let sceneToken2EgoPoseInfos1 := getExistingOrDefault sceneToken2EgoPoseInfos sceneToken
      let egoPoseInfo ← egoPoseJson2EgoPoseInfo egoPoseJson
      loadEgoPoseInfosLoop sampleDataToken2SceneToken rest
        (sceneToken2EgoPoseInfos1.modify sceneToken (fun egoPoses => egoPoses ++ [egoPoseInfo]))

/-- Member `loadEgoPoseInfos`. -/
def loadEgoPoseInfos (fsys : FileSystem) (filePath : String)
    (sampleDataToken2SceneToken : StdMap Token) :
    Except Failure (StdMap (List EgoPoseInfo)) := do
  let egoPoseJsons ← slurpJsonFile fsys filePath
  loadEgoPoseInfosLoop sampleDataToken2SceneToken egoPoseJsons.items []

/-! ## The reader -/

/-- The data members of `MetaDataReader`. -/
structure MetaDataReader where
  scenes : List SceneInfo
  scene2Samples : StdMap (List SampleInfo)
  sample2SampleData : StdMap (List SampleDataInfo)
  scene2EgoPose : StdMap (List EgoPoseInfo)
  loadFromDirectoryCalled : Bool

/-- A freshly constructed reader. -/
def MetaDataReader.fresh : MetaDataReader := ⟨[], [], [], [], false⟩

/-- State of the walk of lines 28-35: the local inverse map and the member
`sample2SampleData`, which `operator[]` on line 30 may extend. -/
abbrev WalkState := StdMap Token × StdMap (List SampleDataInfo)

/-- Innermost loop (lines 30-33) for one sample. -/
def walkSampleDatas (sceneToken : Token) (sampleDatas : List SampleDataInfo)
    (egoPoseToken2sceneToken : StdMap Token) : StdMap Token :=
  sampleDatas.foldl (fun acc sampleData => acc.emplace sampleData.egoPoseToken sceneToken)
    egoPoseToken2sceneToken

/-- Middle loop (lines 29-34) over the samples of one scene token. -/
def walkSamples (sceneToken : Token) : List SampleInfo → WalkState → WalkState
  | [], st => st
  | sampleInfo :: rest, st =>
    let sample2SampleData1 := st.2.subscript sampleInfo.token
    let sampleDatas := (sample2SampleData1.find sampleInfo.token).getD []
    walkSamples sceneToken rest
      (walkSampleDatas sceneToken sampleDatas st.1, sample2SampleData1)

/-- Outer loop (lines 28-35) over the entries of `scene2Samples` in key order. -/
def walkScenes : List (Token × List SampleInfo) → WalkState → WalkState
  | [], st => st
  | (sceneToken, sampleInfos) :: rest, st =>
    walkScenes rest (walkSamples sceneToken sampleInfos st)

/-- Member `loadFromDirectory`: the outcome of the call and the state it leaves. -/
def loadFromDirectory (fsys : FileSystem) (directoryPath : String) (self : MetaDataReader) :
    Except Failure Unit × MetaDataReader :=
  let sceneFile := joinPath directoryPath "scene.json"
  let sampleFile := joinPath directoryPath "sample.json"
  let sampleDataFile := joinPath directoryPath "sample_data.json"
  let egoPoseFile := joinPath directoryPath "ego_pose.json"
  match loadScenesFromFile fsys sceneFile with
  | .error e => (.error e, self)
  | .ok scenes =>
    let self1 := { self with scenes := scenes }
    match loadSampleInfos fsys sampleFile with
    | .error e => (.error e, self1)
    | .ok scene2Samples =>
      let self2 := { self1 with scene2Samples := scene2Samples }
      match loadSampleDataInfos fsys sampleDataFile with
      | .error e => (.error e, self2)
      | .ok sample2SampleData =>
        let walked := walkScenes scene2Samples ([], sample2SampleData)
        let self3 := { self2 with sample2SampleData := walked.2 }
        match loadEgoPoseInfos fsys egoPoseFile walked.1 with
        | .error e => (.error e, self3)
        | .ok scene2EgoPose =>
          (.ok (), { self3 with scene2EgoPose := scene2EgoPose,
                                loadFromDirectoryCalled := true })

/-! ## Queries -/

/-- The macro `assert(cond)`: a no-op when `NDEBUG` is defined. -/
def cassert (ndebug : Bool) (cond : Bool) : Except Failure Unit :=
  if ndebug || cond then .ok () else .error .assertionFailed

/-- Member `getAllSceneTokens`. -/
def getAllSceneTokens (ndebug : Bool) (self : MetaDataReader) : Except Failure (List Token) := do
  cassert ndebug self.loadFromDirectoryCalled
  return self.scenes.map (fun sceneInfo => sceneInfo.token)

/-- Member `getSceneInfo`. -/
def getSceneInfo (ndebug : Bool) (self : MetaDataReader) (sceneToken : Token) :
    Except Failure (Option SceneInfo) := do
  cassert ndebug self.loadFromDirectoryCalled
  return self.scenes.find? (fun sceneInfo => decide (sceneInfo.token = sceneToken))

/-- Loop of `getSceneSampleData` (lines 194-206); a sample that is no key of
`sample2SampleData` ends the call with what was collected so far (line 198). -/
def getSceneSampleDataLoop (sample2SampleData : StdMap (List SampleDataInfo)) :
    List SampleInfo → List SampleDataInfo → List SampleDataInfo
  | [], sampleDataInfos => sampleDataInfos
  | sceneSample :: rest, sampleDataInfos =>
    match sample2SampleData.find sceneSample.token with
    | none => sampleDataInfos
    | some sceneSampleDatas =>
      getSceneSampleDataLoop sample2SampleData rest
        (sceneSampleDatas.foldl (fun acc sampleData => acc ++ [sampleData]) sampleDataInfos)

/-- Member `getSceneSampleData`. -/
def getSceneSampleData (ndebug : Bool) (self : MetaDataReader) (sceneToken : Token) :
    Except Failure (List SampleDataInfo) :=
  match self.scene2Samples.find sceneToken with
  | none => do
    cassert ndebug false
    return []
  | some sceneSamples => .ok (getSceneSampleDataLoop self.sample2SampleData sceneSamples [])

/-- Member `getEgoPoseInfo`: `scene2EgoPose.find(sceneToken)->second`. -/
def getEgoPoseInfo (self : MetaDataReader) (sceneToken : Token) :
    Except Failure (List EgoPoseInfo) :=
  match self.scene2EgoPose.find sceneToken with
  | none => .error .endIteratorDeref
  | some egoPoses => .ok egoPoses

/-! ## Specification-side notions -/

/-- Representation invariant of `std::map`: keys strictly ascending. -/
def StdMap.Sorted {ν : Type} (m : StdMap ν) : Prop :=
  List.Pairwise (fun a b => Token.lt a.1 b.1 = true) m

/-- One `push_back` through the reference obtained from `getExistingOrDefault`: the
record `r.2` is appended to the group of the parent token `r.1`. -/
def pushRecord {α : Type} (m : StdMap (List α)) (r : Token × α) : StdMap (List α) :=
  (getExistingOrDefault m r.1).modify r.1 (fun l => l ++ [r.2])

/-- Grouping of a sequence of (parent token, record) pairs into a map. -/
def groupInto {α : Type} (recs : List (Token × α)) (m : StdMap (List α)) : StdMap (List α) :=
  recs.foldl pushRecord m

/-- The records of the input that reference the parent token `k`, in input order. -/
def childrenOf {α : Type} (recs : List (Token × α)) (k : Token) : List α :=
  (recs.filter (fun r => decide (r.1 = k))).map Prod.snd

/-- Decoding of every record of a collection, failing at the first record that fails. -/
def decodeAll {α : Type} (f : Json → Except Failure α) : List Json → Except Failure (List α)
  | [] => .ok []
  | j :: rest => do
    let a ← f j
    let as ← decodeAll f rest
    return a :: as

/-- The record decoded from one `sample.json` entry. -/
def decodeSample (sampleInfo : Json) : Except Failure SampleInfo := do
  let sampleToken ← (← sampleInfo.key "token").toStr
  let sceneToken ← (← sampleInfo.key "scene_token").toStr
  let timeStamp ← (← sampleInfo.key "timestamp").toNum
  return ⟨sceneToken, sampleToken, timeStamp⟩

/-- A sample paired with its parent token, the field `scene_token`. -/
def byScene (s : SampleInfo) : Token × SampleInfo := (s.sceneToken, s)

/-- The fields read from one `sample_data.json` record, keyed by its `sample_token`. -/
def decodeSampleData (sampleDataJson : Json) : Except Failure (Token × SampleDataInfo) := do
  let sampleToken ← (← sampleDataJson.key "sample_token").toStr
  let sampleDataToken ← (← sampleDataJson.key "token").toStr
  let timeStamp ← (← sampleDataJson.key "timestamp").toNum
  let egoPoseToken ← (← sampleDataJson.key "ego_pose_token").toStr
  let calibratedSensorToken ← (← sampleDataJson.key "calibrated_sensor_token").toStr
  let fileFormat ← (← sampleDataJson.key "fileformat").toStr
  let isKeyFrame ← (← sampleDataJson.key "is_key_frame").toBool
  let fileName ← (← sampleDataJson.key "filename").toStr
  return (sampleToken, ⟨sampleDataToken, timeStamp, egoPoseToken, calibratedSensorToken,
    fileFormat, isKeyFrame, fileName⟩)

/-- The own token of an `ego_pose.json` record. -/
def egoPoseTokenOf (egoPoseJson : Json) : Except Failure Token := do
  (← egoPoseJson.key "token").toStr

/-- Resolution of one `ego_pose.json` record against a closure map: `none` for a
record whose token is no key of the map, else the scene token and the decoded pose. -/
def resolveEgoPose (closure : StdMap Token) (egoPoseJson : Json) :
    Except Failure (Option (Token × EgoPoseInfo)) := do
  let sampleDataToken ← egoPoseTokenOf egoPoseJson
  match closure.find sampleDataToken with
  | none => return none
  | some sceneToken =>
    let egoPoseInfo ← egoPoseJson2EgoPoseInfo egoPoseJson
    return some (sceneToken, egoPoseInfo)

/-- The decoded scene collection of a file. -/
def readScenes (fsys : FileSystem) (filePath : String) : Except Failure (List SceneInfo) := do
  let sceneJsons ← slurpJsonFile fsys filePath
  decodeAll sceneJson2SceneInfo sceneJsons.items

/-- The decoded sample collection of a file, in file order. -/
def readSamples (fsys : FileSystem) (filePath : String) : Except Failure (List SampleInfo) := do
  let sampleInfos ← slurpJsonFile fsys filePath
  decodeAll decodeSample sampleInfos.items

/-- The decoded sample-data collection of a file, in file order, each record paired with
the `sample_token` it references. -/
def readSampleDatas (fsys : FileSystem) (filePath : String) :
    Except Failure (List (Token × SampleDataInfo)) := do
  let sampleDataJsons ← slurpJsonFile fsys filePath
  decodeAll decodeSampleData sampleDataJsons.items

/-- The ego-pose records of a file, in file order. -/
def readEgoPoseJsons (fsys : FileSystem) (filePath : String) : Except Failure (List Json) := do
  let egoPoseJsons ← slurpJsonFile fsys filePath
  return egoPoseJsons.items

/-- The inverse map (ego-pose token to scene token) that `loadFromDirectory` builds on
lines 26-35 from the two grouping indices. -/
def egoPoseToken2sceneToken (scene2Samples : StdMap (List SampleInfo))
    (sample2SampleData : StdMap (List SampleDataInfo)) : StdMap Token :=
  (walkScenes scene2Samples ([], sample2SampleData)).1

/-- The sample-data records grouped under a sample token (none when the token is no key). -/
def sampleDatasOf (sample2SampleData : StdMap (List SampleDataInfo)) (sampleToken : Token) :
    List SampleDataInfo :=
  (sample2SampleData.find sampleToken).getD []

/-- The samples grouped under a scene token (none when the token is no key). -/
def samplesOf (scene2Samples : StdMap (List SampleInfo)) (sceneToken : Token) :
    List SampleInfo :=
  (scene2Samples.find sceneToken).getD []

/-- The (ego-pose token, scene token) pairs in the order in which the walk of lines 28-35
reaches them. -/
def closurePairs (entries : List (Token × List SampleInfo))
    (sample2SampleData : StdMap (List SampleDataInfo)) : List (Token × Token) :=
  entries.flatMap (fun e => e.2.flatMap (fun s =>
    (sampleDatasOf sample2SampleData s.token).map (fun d => (d.egoPoseToken, e.1))))

/-- Successive `emplace` of a sequence of pairs. -/
def emplaceAll {ν : Type} (pairs : List (Token × ν)) (m : StdMap ν) : StdMap ν :=
  pairs.foldl (fun acc p => acc.emplace p.1 p.2) m

/-- Successive `operator[]` accesses with a sequence of keys. -/
def subscriptAll {ν : Type} [Inhabited ν] (keys : List Token) (m : StdMap ν) : StdMap ν :=
  keys.foldl (fun acc k => acc.subscript k) m

/-! ## A small data set -/

/-- JSON string. -/
def jstr (s : String) : Json := .string s

/-- JSON integer. -/
def jnum (n : Int) : Json := .number ⟨n, 0⟩

/-- A `scene.json` record. -/
def sceneRecord (token name : String) : Json :=
  .object [("token", jstr token), ("nbr_samples", jnum 2), ("name", jstr name),
    ("description", jstr "drive"), ("first_sample_token", jstr "p1")]

/-- A `sample.json` record. -/
def sampleRecord (token sceneToken : String) (timestamp : Int) : Json :=
  .object [("token", jstr token), ("scene_token", jstr sceneToken),
    ("timestamp", jnum timestamp)]

/-- A `sample_data.json` record. -/
def sampleDataRecord (token sampleToken egoPoseToken : String) (timestamp : Int) : Json :=
  .object [("token", jstr token), ("sample_token", jstr sampleToken),
    ("timestamp", jnum timestamp), ("ego_pose_token", jstr egoPoseToken),
    ("calibrated_sensor_token", jstr "cam"), ("fileformat", jstr "jpg"),
    ("is_key_frame", .boolean true), ("filename", jstr "f.jpg")]

/-- An `ego_pose.json` record. -/
def egoPoseRecord (token : String) (timestamp : Int) : Json :=
  .object [("token", jstr token), ("timestamp", jnum timestamp),
    ("translation", .array [jnum 1, jnum 2, jnum 3]),
    ("rotation", .array [jnum 1, jnum 0, jnum 0, jnum 0])]

/-- The decoded pose of `egoPoseRecord _ timestamp`. -/
def examplePose (timestamp : Int) : EgoPoseInfo :=
  ⟨(⟨1, 0⟩, ⟨2, 0⟩, ⟨3, 0⟩), (⟨1, 0⟩, ⟨0, 0⟩, ⟨0, 0⟩, ⟨0, 0⟩), ⟨timestamp, 0⟩⟩

/-- The decoded record of `sampleDataRecord token _ egoPoseToken timestamp`. -/
def exampleSampleData (token egoPoseToken : String) (timestamp : Int) : SampleDataInfo :=
  ⟨token, ⟨timestamp, 0⟩, egoPoseToken, "cam", "jpg", true, "f.jpg"⟩

/-- The decoded record of `sceneRecord token name`. -/
def exampleScene (token name : String) (sceneId : Int) : SceneInfo :=
  ⟨token, ⟨2, 0⟩, sceneId, name, "drive", "p1"⟩

/-- Directory `data`: scenes X, Y, Z; samples p1, p4, p2 under X and p3 under Y; sample
data a, b under p1, c under p2, d under p3, none under p4; the ego-pose file holds the
given records. -/
def exampleFs (egoPoses : List Json) : FileSystem := fun path =>
  if path = "data/scene.json" then
    .parsed (.array [sceneRecord "X" "scene-0061", sceneRecord "Y" "scene-0103",
      sceneRecord "Z" "scene-0200"])
  else if path = "data/sample.json" then
    .parsed (.array [sampleRecord "p1" "X" 10, sampleRecord "p3" "Y" 30,
      sampleRecord "p4" "X" 15, sampleRecord "p2" "X" 20])
  else if path = "data/sample_data.json" then
    .parsed (.array [sampleDataRecord "a" "p1" "Ea" 11, sampleDataRecord "d" "p3" "Ed" 31,
      sampleDataRecord "b" "p1" "Eb" 12, sampleDataRecord "c" "p2" "Ec" 21])
  else if path = "data/ego_pose.json" then .parsed (.array egoPoses)
  else .absent

/-- One ego pose per sample-data record. -/
def examplePoses : List Json :=
  [egoPoseRecord "Ec" 21, egoPoseRecord "Ea" 11, egoPoseRecord "Ed" 31, egoPoseRecord "Eb" 12]

/-- The reader constructed from the directory `data`. -/
def exampleReader : MetaDataReader :=
  (loadFromDirectory (exampleFs examplePoses) "data" MetaDataReader.fresh).2

/-- The decoded sample collection of the directory `data`. -/
def exampleSamples : List SampleInfo :=
  [⟨"X", "p1", ⟨10, 0⟩⟩, ⟨"Y", "p3", ⟨30, 0⟩⟩, ⟨"X", "p4", ⟨15, 0⟩⟩, ⟨"X", "p2", ⟨20, 0⟩⟩]

/-- The decoded sample-data collection of the directory `data`. -/
def exampleSampleDatas : List (Token × SampleDataInfo) :=
  [("p1", exampleSampleData "a" "Ea" 11), ("p3", exampleSampleData "d" "Ed" 31),
    ("p1", exampleSampleData "b" "Eb" 12), ("p2", exampleSampleData "c" "Ec" 21)]

/-- Whether the own token of an ego-pose record is mapped by the closure to `sceneToken`. -/
def tokenMapsTo (closure : StdMap Token) (sceneToken : Token) (egoPoseJson : Json) : Bool :=
  match egoPoseTokenOf egoPoseJson with
  | .ok t => decide (closure.find t = some sceneToken)
  | .error _ => false

/-- The file system in which the file at `path` has the given content. -/
def withFile (fsys : FileSystem) (path : String) (content : FileContent) : FileSystem :=
  fun p => if p = path then content else fsys p

/-- The inverse map of the directory `data`. -/
def exampleClosure : StdMap Token :=
  [("Ea", "X"), ("Eb", "X"), ("Ec", "X"), ("Ed", "Y")]

/-- The ego-pose records of `examplePoses` preceded and followed by a record referenced by
no sample data; the second one has no pose fields at all. -/
def examplePosesWithOrphans : List Json :=
  egoPoseRecord "E2" 99 :: examplePoses ++ [.object [("token", jstr "E3")]]

/-- The field `timestamp` of an ego-pose record. -/
def egoPoseTimestampOf (egoPoseJson : Json) : Except Failure JsonNumber := do
  (← egoPoseJson.key "timestamp").toNum

/-- The decoded scene collection of the directory `data`. -/
def exampleScenes : List SceneInfo :=
  [exampleScene "X" "scene-0061" 61, exampleScene "Y" "scene-0103" 103,
    exampleScene "Z" "scene-0200" 200]

/-- The index `scene2Samples` of the directory `data`. -/
def exampleScene2Samples : StdMap (List SampleInfo) :=
  [("X", [⟨"X", "p1", ⟨10, 0⟩⟩, ⟨"X", "p4", ⟨15, 0⟩⟩, ⟨"X", "p2", ⟨20, 0⟩⟩]),
    ("Y", [⟨"Y", "p3", ⟨30, 0⟩⟩])]

/-- The index `sample2SampleData` of the directory `data`. -/
def exampleSample2SampleData : StdMap (List SampleDataInfo) :=
  [("p1", [exampleSampleData "a" "Ea" 11, exampleSampleData "b" "Eb" 12]),
    ("p2", [exampleSampleData "c" "Ec" 21]), ("p3", [exampleSampleData "d" "Ed" 31])]

/-- The own tokens of the records of `examplePoses`. -/
def examplePoseTokens : List Token := ["Ec", "Ea", "Ed", "Eb"]

/-! ## A data set with a shared ego-pose token -/

/-- Directory `dup`: scenes B and A (in file order); sample q2 under B and q1 under A;
sample data y under q1 and x under q2, which both carry the ego-pose token E. -/
def duplicateFs : FileSystem := fun path =>
  if path = "dup/scene.json" then
    .parsed (.array [sceneRecord "B" "scene-0002", sceneRecord "A" "scene-0001"])
  else if path = "dup/sample.json" then
    .parsed (.array [sampleRecord "q2" "B" 2, sampleRecord "q1" "A" 1])
  else if path = "dup/sample_data.json" then
    .parsed (.array [sampleDataRecord "y" "q1" "E" 1, sampleDataRecord "x" "q2" "E" 2])
  else if path = "dup/ego_pose.json" then .parsed (.array [egoPoseRecord "E" 5])
  else .absent

/-- The index `scene2Samples` of the directory `dup`. -/
def duplicateScene2Samples : StdMap (List SampleInfo) :=
  [("A", [⟨"A", "q1", ⟨1, 0⟩⟩]), ("B", [⟨"B", "q2", ⟨2, 0⟩⟩])]

/-- The index `sample2SampleData` of the directory `dup`. -/
def duplicateSample2SampleData : StdMap (List SampleDataInfo) :=
  [("q1", [exampleSampleData "y" "E" 1]), ("q2", [exampleSampleData "x" "E" 2])]

/-- The ego-pose token `e` is carried by a sample-data record that references a sample of
the scene token `X`. -/
def carriedUnder (samples : List SampleInfo) (sds : List (Token × SampleDataInfo))
    (e X : Token) : Prop :=
  ∃ s ∈ samples, s.sceneToken = X ∧ ∃ d, (s.token, d) ∈ sds ∧ d.egoPoseToken = e

/-- The inverse map built from a sample collection and a sample-data collection. -/
def closureOf (samples : List SampleInfo) (sds : List (Token × SampleDataInfo)) :
    StdMap Token :=
  egoPoseToken2sceneToken (groupInto (samples.map byScene) []) (groupInto sds [])

/-- The decoded sample collection of the directory `dup`. -/
def duplicateSamples : List SampleInfo :=
  [⟨"B", "q2", ⟨2, 0⟩⟩, ⟨"A", "q1", ⟨1, 0⟩⟩]

/-- The decoded sample-data collection of the directory `dup`. -/
def duplicateSampleDatas : List (Token × SampleDataInfo) :=
  [("q1", exampleSampleData "y" "E" 1), ("q2", exampleSampleData "x" "E" 2)]

/-- The directory `data` without its sample file. -/
def noSampleFs : FileSystem :=
  withFile (exampleFs examplePoses) "data/sample.json" FileContent.absent

/-- The state in which the failed construction from `noSampleFs` leaves a fresh reader. -/
def noSampleReader : MetaDataReader :=
  (loadFromDirectory noSampleFs "data" MetaDataReader.fresh).2

/-! ## Specification-side notions for scene names -/

/-- The text `scene-` immediately followed by a decimal digit occurs somewhere in the
input: the pattern `scene-(\d+)` has a match. -/
def containsSceneId (cs : List Char) : Prop :=
  ∃ pre d rest, cs = pre ++ ("scene-".data ++ d :: rest) ∧ d.isDigit = true

/-- The field `name` of a scene record. -/
def sceneNameOf (sceneJson : Json) : Except Failure String := do
  (← sceneJson.key "name").toStr

/-- Directory `odd`: one scene whose name has text before `scene-` and after the digits;
and directory `bad`: one scene whose name holds no `scene-` followed by a digit. -/
def oddNameFs : FileSystem := fun path =>
  if path = "odd/scene.json" then .parsed (.array [sceneRecord "T" "subscene-12x"])
  else if path = "bad/scene.json" then .parsed (.array [sceneRecord "U" "scene-x1"])
  else .absent

/-- The decimal value of a digit string: the number whose base-10 digits, most significant
first, are the characters of the string. -/
def decimalValue (d : List Char) : Nat :=
  Nat.ofDigits 10 (d.reverse.map (fun c => c.toNat - '0'.toNat))

/-! ## Specification-side notions for required fields -/

/-- The record has no member `field` that `operator[]` could return. -/
def lacksField (j : Json) (field : String) : Prop :=
  ∀ v, j.key field ≠ Except.ok v

/-- The fields read from a scene record. -/
def sceneFields : List String :=
  ["name", "token", "nbr_samples", "description", "first_sample_token"]

/-- The fields read from a sample record. -/
def sampleFields : List String := ["token", "scene_token", "timestamp"]

/-- The fields read from a sample-data record. -/
def sampleDataFields : List String :=
  ["sample_token", "token", "timestamp", "ego_pose_token", "calibrated_sensor_token",
    "fileformat", "is_key_frame", "filename"]

/-- The pose fields read from an ego-pose record by `egoPoseJson2EgoPoseInfo`. -/
def egoPoseFields : List String := ["translation", "rotation", "timestamp"]

/-- The records of a file: the values the loaders iterate over; none when the file cannot
be read. -/
def recordsOf (fsys : FileSystem) (filePath : String) : List Json :=
  match slurpJsonFile fsys filePath with
  | .ok j => j.items
  | .error _ => []

/-- An ego-pose record that has a token and nothing else. -/
def tokenOnlyRecord (token : String) : Json := .object [("token", jstr token)]

/-- The four files a construction reads. -/
def inputFiles : List String := ["scene.json", "sample.json", "sample_data.json", "ego_pose.json"]

/-- Directory `twin`: two scene records with the same token and no other records. -/
def twinFs : FileSystem := fun path =>
  if path = "twin/scene.json" then
    .parsed (.array [sceneRecord "X" "scene-0001", sceneRecord "X" "scene-0002"])
  else if path = "twin/sample.json" then .parsed (.array [])
  else if path = "twin/sample_data.json" then .parsed (.array [])
  else if path = "twin/ego_pose.json" then .parsed (.array [])
  else .absent

/-- The decoded scene collection of the directory `twin`. -/
def twinScenes : List SceneInfo :=
  [exampleScene "X" "scene-0001" 1, exampleScene "X" "scene-0002" 2]

/-- The reader constructed from the directory `twin`. -/
def twinReader : MetaDataReader :=
  (loadFromDirectory twinFs "twin" MetaDataReader.fresh).2

/-- Whether the own token of an ego-pose record is a key of the closure. -/
def tokenFound (closure : StdMap Token) (egoPoseJson : Json) : Bool :=
  match egoPoseTokenOf egoPoseJson with
  | .ok t => (closure.find t).isSome
  | .error _ => false

/-- The sum of the lengths of all sequences of a map. -/
def totalLength {α : Type} (m : StdMap (List α)) : Nat :=
  (m.map (fun entry => entry.2.length)).sum

/-- The reader constructed from the directory `data` with the ego-pose records of
`examplePosesWithOrphans`. -/
def orphanReader : MetaDataReader :=
  (loadFromDirectory (exampleFs examplePosesWithOrphans) "data" MetaDataReader.fresh).2

/-! ## Outcome of a construction by build -/

/-- What a run of the constructor shows to its caller. -/
inductive RunOutcome where
  /-- The constructor returns; the reader is in the given state. -/
  | completed (state : MetaDataReader)
  /-- The constructor ends with a C++ exception raised at the given event; the members
  already assigned are in the given state. -/
  | threw (event : Failure) (state : MetaDataReader)
  /-- A failed assertion aborts the process. -/
  | aborted
  /-- The run reaches undefined behaviour: nothing is known about what follows. -/
  | undefined

/-- The constructor `MetaDataReader(directoryPath)` (one call of `loadFromDirectory`) in a
build with (`ndebug = false`) or without (`ndebug = true`) assertions: the first event of
the run, if any, shown as `Failure.manifestation` says. -/
def constructionOutcome (ndebug : Bool) (fsys : FileSystem) (directoryPath : String)
    (self : MetaDataReader) : RunOutcome :=
  match loadFromDirectory fsys directoryPath self with
  | (.ok _, state) => .completed state
  | (.error e, state) =>
    match e.manifestation ndebug with
    | .exception => .threw e state
    | .abort => .aborted
    | .undefined => .undefined

/-- The run ends without completing, in a defined way: an exception or an abort. -/
def RunOutcome.fails : RunOutcome → Bool
  | .threw _ _ => true
  | .aborted => true
  | .completed _ => false
  | .undefined => false

/-! ## Properties of the token order -/

theorem codesLt_irrefl (l : List Nat) : codesLt l l = false := by
  induction l with
  | nil => rfl
  | cons a as ih => simp [codesLt, ih]

theorem codesLt_trans : ∀ (a b c : List Nat), codesLt a b = true → codesLt b c = true →
    codesLt a c = true
  | _, [], _, h, _ => by simp [codesLt] at h
  | _, _ :: _, [], _, h => by simp [codesLt] at h
  | [], _ :: _, _ :: _, _, _ => by simp [codesLt]
  | a :: as, b :: bs, c :: cs, h1, h2 => by
    simp only [codesLt, Bool.or_eq_true, Bool.and_eq_true, decide_eq_true_eq] at h1 h2 ⊢
    rcases h1 with h1 | ⟨h1, h1r⟩
    · rcases h2 with h2 | ⟨h2, _⟩
      · exact Or.inl (lt_trans h1 h2)
      · exact Or.inl (h2 ▸ h1)
    · rcases h2 with h2 | ⟨h2, h2r⟩
      · exact Or.inl (h1 ▸ h2)
      · exact Or.inr ⟨h1.trans h2, codesLt_trans as bs cs h1r h2r⟩

theorem codesLt_total : ∀ (a b : List Nat), codesLt a b = false → a ≠ b → codesLt b a = true
  | [], [], _, h => absurd rfl h
  | [], _ :: _, h, _ => by simp [codesLt] at h
  | _ :: _, [], _, _ => by simp [codesLt]
  | a :: as, b :: bs, h, hne => by
    simp only [codesLt, Bool.or_eq_false_iff, Bool.and_eq_false_imp, decide_eq_false_iff_not,
      decide_eq_true_eq] at h
    simp only [codesLt, Bool.or_eq_true, Bool.and_eq_true, decide_eq_true_eq]
    rcases Nat.lt_trichotomy a b with hab | hab | hab
    · exact absurd hab h.1
    · subst hab
      refine Or.inr ⟨rfl, codesLt_total as bs (h.2 rfl) ?_⟩
      intro heq
      exact hne (by rw [heq])
    · exact Or.inl hab

theorem Token.codes_injective (a b : Token) (h : a.codes = b.codes) : a = b := by
  have hinj : Function.Injective Char.toNat := by
    intro x y hxy
    have := congrArg Char.ofNat hxy
    simpa using this
  have hd : a.data = b.data := List.map_injective_iff.mpr hinj h
  cases a; cases b; simp_all

theorem Token.lt_irrefl (a : Token) : Token.lt a a = false :=
  codesLt_irrefl _

theorem Token.lt_trans {a b c : Token} (h1 : Token.lt a b = true) (h2 : Token.lt b c = true) :
    Token.lt a c = true :=
  codesLt_trans _ _ _ h1 h2

theorem Token.lt_total {a b : Token} (h : Token.lt a b = false) (hne : a ≠ b) :
    Token.lt b a = true :=
  codesLt_total _ _ h (fun hc => hne (Token.codes_injective a b hc))

theorem Token.lt_ne {a b : Token} (h : Token.lt a b = true) : a ≠ b := by
  intro heq
  subst heq
  rw [Token.lt_irrefl] at h
  exact Bool.false_ne_true h

/-! ## Properties of `StdMap` -/

theorem StdMap.find_eq_none_of_forall_ne {ν : Type} (m : StdMap ν) (key : Token)
    (h : ∀ e ∈ m, e.1 ≠ key) : StdMap.find m key = none := by
  induction m with
  | nil => rfl
  | cons e rest ih =>
    obtain ⟨k, v⟩ := e
    have hk : k ≠ key := h (k, v) (List.mem_cons_self _ _)
    simp only [StdMap.find, hk, if_false]
    exact ih (fun e he => h e (List.mem_cons_of_mem _ he))

theorem StdMap.find_eq_none_of_lt {ν : Type} (m : StdMap ν) (key k : Token) (v : ν)
    (hs : StdMap.Sorted ((k, v) :: m)) (hlt : Token.lt key k = true) :
    StdMap.find m key = none := by
  apply StdMap.find_eq_none_of_forall_ne
  intro e he heq
  have h1 : Token.lt k e.1 = true := (List.pairwise_cons.mp hs).1 e he
  have h2 := Token.lt_trans hlt h1
  rw [heq, Token.lt_irrefl] at h2
  exact Bool.false_ne_true h2

theorem StdMap.find_emplace {ν : Type} (m : StdMap ν) (hs : StdMap.Sorted m) (key : Token)
    (val : ν) (q : Token) :
    StdMap.find (StdMap.emplace m key val) q =
      if q = key then some ((StdMap.find m key).getD val) else StdMap.find m q := by
  induction m with
  | nil =>
    by_cases hq : q = key
    · simp [StdMap.emplace, StdMap.find, hq]
    · simp [StdMap.emplace, StdMap.find, hq, Ne.symm hq]
  | cons e rest ih =>
    obtain ⟨k, v⟩ := e
    have hrest : StdMap.Sorted rest := (List.pairwise_cons.mp hs).2
    simp only [StdMap.emplace]
    by_cases hlt : Token.lt key k = true
    · have hne : k ≠ key := fun h => Token.lt_ne hlt h.symm
      have hnone := StdMap.find_eq_none_of_lt rest key k v hs hlt
      simp only [hlt, if_true]
      by_cases hq : q = key
      · subst hq
        simp [StdMap.find, hne, hnone]
      · simp [StdMap.find, hq, Ne.symm hq]
    · simp only [hlt, Bool.false_eq_true, if_false]
      by_cases hk : k = key
      · subst hk
        by_cases hq : q = k
        · subst hq
          simp [StdMap.find]
        · simp [StdMap.find, hq, Ne.symm hq]
      · simp only [hk, if_false, StdMap.find]
        by_cases hq : q = key
        · subst hq
          simp only [hk, if_false, if_true]
          rw [ih hrest]
          simp
        · by_cases hkq : k = q
          · simp [hkq, hq]
          · simp only [hkq, if_false, hq]
            rw [ih hrest]
            simp [hq]

theorem StdMap.mem_emplace {ν : Type} (m : StdMap ν) (key : Token) (val : ν) (e : Token × ν)
    (he : e ∈ StdMap.emplace m key val) : e ∈ m ∨ e = (key, val) := by
  induction m with
  | nil =>
    simp only [StdMap.emplace, List.mem_singleton] at he
    exact Or.inr he
  | cons e0 rest ih =>
    obtain ⟨k, v⟩ := e0
    simp only [StdMap.emplace] at he
    split at he
    · rcases List.mem_cons.mp he with h | h
      · exact Or.inr h
      · exact Or.inl h
    · split at he
      · exact Or.inl he
      · rcases List.mem_cons.mp he with h | h
        · exact Or.inl (h ▸ List.mem_cons_self _ _)
        · rcases ih h with h2 | h2
          · exact Or.inl (List.mem_cons_of_mem _ h2)
          · exact Or.inr h2

theorem StdMap.sorted_emplace {ν : Type} (m : StdMap ν) (hs : StdMap.Sorted m) (key : Token)
    (val : ν) : StdMap.Sorted (StdMap.emplace m key val) := by
  induction m with
  | nil => simp [StdMap.emplace, StdMap.Sorted]
  | cons e rest ih =>
    obtain ⟨k, v⟩ := e
    have hc := List.pairwise_cons.mp hs
    simp only [StdMap.emplace]
    by_cases hlt : Token.lt key k = true
    · simp only [hlt, if_true]
      refine List.pairwise_cons.mpr ⟨?_, hs⟩
      intro e he
      rcases List.mem_cons.mp he with h | h
      · rw [h]; exact hlt
      · exact Token.lt_trans hlt (hc.1 e h)
    · simp only [hlt, Bool.false_eq_true, if_false]
      by_cases hk : k = key
      · simp only [hk, if_true]
        exact hk ▸ hs
      · simp only [hk, if_false]
        refine List.pairwise_cons.mpr ⟨?_, ih hc.2⟩
        intro e he
        rcases StdMap.mem_emplace rest key val e he with h | h
        · exact hc.1 e h
        · rw [h]
          exact Token.lt_total (by simpa using hlt) (Ne.symm hk)

theorem StdMap.find_modify {ν : Type} (m : StdMap ν) (key : Token) (f : ν → ν) (q : Token) :
    StdMap.find (StdMap.modify m key f) q =
      if q = key then (StdMap.find m key).map f else StdMap.find m q := by
  induction m with
  | nil => simp [StdMap.modify, StdMap.find]
  | cons e rest ih =>
    obtain ⟨k, v⟩ := e
    simp only [StdMap.modify]
    by_cases hk : k = key
    · subst hk
      by_cases hq : q = k
      · subst hq
        simp [StdMap.find]
      · simp [StdMap.find, hq, Ne.symm hq]
    · simp only [hk, if_false, StdMap.find]
      by_cases hkq : k = q
      · subst hkq
        simp [hk]
      · simp only [hkq, if_false]
        exact ih

theorem StdMap.keys_modify {ν : Type} (m : StdMap ν) (key : Token) (f : ν → ν) :
    (StdMap.modify m key f).map Prod.fst = m.map Prod.fst := by
  induction m with
  | nil => rfl
  | cons e rest ih =>
    obtain ⟨k, v⟩ := e
    simp only [StdMap.modify]
    split
    · rfl
    · simp [ih]

theorem StdMap.sorted_iff_keys {ν : Type} (m : StdMap ν) :
    StdMap.Sorted m ↔ List.Pairwise (fun a b => Token.lt a b = true) (m.map Prod.fst) := by
  unfold StdMap.Sorted
  rw [List.pairwise_map]

theorem StdMap.sorted_modify {ν : Type} (m : StdMap ν) (hs : StdMap.Sorted m) (key : Token)
    (f : ν → ν) : StdMap.Sorted (StdMap.modify m key f) := by
  rw [StdMap.sorted_iff_keys] at hs ⊢
  rw [StdMap.keys_modify]
  exact hs

/-! ## Grouping -/

theorem find_pushRecord {α : Type} (m : StdMap (List α)) (hs : StdMap.Sorted m)
    (r : Token × α) (q : Token) :
    StdMap.find (pushRecord m r) q =
      if q = r.1 then some ((StdMap.find m r.1).getD [] ++ [r.2]) else StdMap.find m q := by
  unfold pushRecord getExistingOrDefault
  rw [StdMap.find_modify]
  by_cases hq : q = r.1
  · simp only [hq, if_true, StdMap.find_emplace m hs, Option.map_some']
    rfl
  · simp only [hq, if_false, StdMap.find_emplace m hs]

theorem sorted_pushRecord {α : Type} (m : StdMap (List α)) (hs : StdMap.Sorted m)
    (r : Token × α) : StdMap.Sorted (pushRecord m r) :=
  StdMap.sorted_modify _ (StdMap.sorted_emplace m hs _ _) _ _

theorem sorted_groupInto {α : Type} (recs : List (Token × α)) (m : StdMap (List α))
    (hs : StdMap.Sorted m) : StdMap.Sorted (groupInto recs m) := by
  induction recs generalizing m with
  | nil => exact hs
  | cons r rest ih => exact ih (pushRecord m r) (sorted_pushRecord m hs r)

theorem childrenOf_cons {α : Type} (r : Token × α) (rest : List (Token × α)) (k : Token) :
    childrenOf (r :: rest) k = if r.1 = k then r.2 :: childrenOf rest k else childrenOf rest k := by
  unfold childrenOf
  by_cases h : r.1 = k
  · simp [List.filter_cons, h]
  · simp [List.filter_cons, h]

theorem find_groupInto {α : Type} (recs : List (Token × α)) (m : StdMap (List α))
    (hs : StdMap.Sorted m) (k : Token) :
    StdMap.find (groupInto recs m) k =
      if (childrenOf recs k).isEmpty then StdMap.find m k
      else some ((StdMap.find m k).getD [] ++ childrenOf recs k) := by
  induction recs generalizing m with
  | nil => simp [groupInto, childrenOf]
  | cons r rest ih =>
    have hstep : groupInto (r :: rest) m = groupInto rest (pushRecord m r) := rfl
    rw [hstep, ih (pushRecord m r) (sorted_pushRecord m hs r), find_pushRecord m hs,
      childrenOf_cons]
    by_cases hk : r.1 = k
    · subst hk
      by_cases hc : (childrenOf rest r.1).isEmpty = true
      · have hc2 : childrenOf rest r.1 = [] := List.isEmpty_iff.mp hc
        simp [hc2]
      · simp [hc]
    · have hk2 : ¬ k = r.1 := fun h => hk h.symm
      simp only [hk, hk2, if_false]

theorem find_groupInto_nil {α : Type} (recs : List (Token × α)) (k : Token) :
    StdMap.find (groupInto recs []) k =
      if (childrenOf recs k).isEmpty then none else some (childrenOf recs k) := by
  rw [find_groupInto recs [] List.Pairwise.nil]
  simp [StdMap.find]

theorem getD_find_groupInto_nil {α : Type} (recs : List (Token × α)) (k : Token) :
    (StdMap.find (groupInto recs []) k).getD [] = childrenOf recs k := by
  rw [find_groupInto_nil]
  by_cases h : (childrenOf recs k).isEmpty = true
  · have h2 : childrenOf recs k = [] := List.isEmpty_iff.mp h
    simp [h2]
  · simp [h]

/-! ## The loaders as decode-then-group -/

theorem loadSampleInfosLoop_eq (js : List Json) (m : StdMap (List SampleInfo)) :
    loadSampleInfosLoop js m =
      (fun recs => groupInto (recs.map byScene) m) <$> decodeAll decodeSample js := by
  induction js generalizing m with
  | nil => rfl
  | cons j rest ih =>
    simp only [loadSampleInfosLoop, decodeAll, decodeSample, ih, bind_assoc, pure_bind,
      map_bind, map_pure]
    rfl

theorem loadSampleDataInfosLoop_eq (js : List Json) (m : StdMap (List SampleDataInfo)) :
    loadSampleDataInfosLoop js m =
      (fun recs => groupInto recs m) <$> decodeAll decodeSampleData js := by
  induction js generalizing m with
  | nil => rfl
  | cons j rest ih =>
    simp only [loadSampleDataInfosLoop, decodeAll, decodeSampleData, ih, bind_assoc, pure_bind,
      map_bind, map_pure]
    rfl

theorem loadEgoPoseInfosLoop_eq (c : StdMap Token) (js : List Json)
    (m : StdMap (List EgoPoseInfo)) :
    loadEgoPoseInfosLoop c js m =
      (fun rs => groupInto (rs.filterMap id) m) <$> decodeAll (resolveEgoPose c) js := by
  induction js generalizing m with
  | nil => rfl
  | cons j rest ih =>
    simp only [loadEgoPoseInfosLoop, decodeAll, resolveEgoPose, egoPoseTokenOf, ih, bind_assoc,
      pure_bind, map_bind, map_pure]
    refine bind_congr (fun v => bind_congr (fun tok => ?_))
    cases c.find tok with
    | none => simp only [pure_bind, List.filterMap_cons, id, map_eq_pure_bind]
    | some sceneToken =>
      simp only [bind_assoc, pure_bind, List.filterMap_cons, id]
      rfl

theorem loadScenesLoop_eq (js : List Json) (acc : List SceneInfo) :
    loadScenesLoop js acc = (fun recs => acc ++ recs) <$> decodeAll sceneJson2SceneInfo js := by
  induction js generalizing acc with
  | nil => simp [loadScenesLoop, decodeAll]
  | cons j rest ih =>
    simp only [loadScenesLoop, decodeAll, ih, bind_assoc, pure_bind, map_bind, map_pure]
    refine bind_congr (fun s => ?_)
    simp only [map_eq_pure_bind, List.append_assoc, List.singleton_append]

theorem loadSampleInfos_eq (fsys : FileSystem) (p : String) :
    loadSampleInfos fsys p =
      (fun recs => groupInto (recs.map byScene) []) <$> readSamples fsys p := by
  simp only [loadSampleInfos, readSamples, loadSampleInfosLoop_eq, map_bind]

theorem loadSampleDataInfos_eq (fsys : FileSystem) (p : String) :
    loadSampleDataInfos fsys p = (fun recs => groupInto recs []) <$> readSampleDatas fsys p := by
  simp only [loadSampleDataInfos, readSampleDatas, loadSampleDataInfosLoop_eq, map_bind]

theorem loadScenesFromFile_eq (fsys : FileSystem) (p : String) :
    loadScenesFromFile fsys p = readScenes fsys p := by
  simp only [loadScenesFromFile, readScenes, loadScenesLoop_eq, List.nil_append]
  refine bind_congr (fun j => ?_)
  exact id_map _

theorem loadEgoPoseInfos_eq (fsys : FileSystem) (p : String) (c : StdMap Token) :
    loadEgoPoseInfos fsys p c =
      (readEgoPoseJsons fsys p >>= fun js =>
        (fun rs => groupInto (rs.filterMap id) []) <$> decodeAll (resolveEgoPose c) js) := by
  simp only [loadEgoPoseInfos, readEgoPoseJsons, loadEgoPoseInfosLoop_eq, bind_assoc, pure_bind]

theorem Except.map_eq_ok {ε α β : Type} (f : α → β) (x : Except ε α) (b : β)
    (h : f <$> x = Except.ok b) : ∃ a, x = Except.ok a ∧ b = f a := by
  cases x with
  | error e => cases h
  | ok a =>
    refine ⟨a, rfl, ?_⟩
    injection h with h
    exact h.symm

theorem Except.bind_eq_ok {ε α β : Type} (x : Except ε α) (f : α → Except ε β) (b : β)
    (h : x >>= f = Except.ok b) : ∃ a, x = Except.ok a ∧ f a = Except.ok b := by
  cases x with
  | error e => cases h
  | ok a => exact ⟨a, rfl, h⟩

/-! ## Successful construction -/

theorem loadFromDirectory_ok (fsys : FileSystem) (dir : String) (r0 r : MetaDataReader)
    (h : loadFromDirectory fsys dir r0 = (Except.ok (), r)) :
    ∃ scenes samples sds poses,
      readScenes fsys (joinPath dir "scene.json") = Except.ok scenes ∧
      readSamples fsys (joinPath dir "sample.json") = Except.ok samples ∧
      readSampleDatas fsys (joinPath dir "sample_data.json") = Except.ok sds ∧
      loadEgoPoseInfos fsys (joinPath dir "ego_pose.json")
        (egoPoseToken2sceneToken (groupInto (samples.map byScene) []) (groupInto sds []))
          = Except.ok poses ∧
      r = ⟨scenes, groupInto (samples.map byScene) [],
            (walkScenes (groupInto (samples.map byScene) []) ([], groupInto sds [])).2,
            poses, true⟩ := by
  unfold loadFromDirectory at h
  simp only [loadScenesFromFile_eq, loadSampleInfos_eq, loadSampleDataInfos_eq] at h
  cases h1 : readScenes fsys (joinPath dir "scene.json") with
  | error e => simp [h1] at h
  | ok scenes =>
    cases h2 : readSamples fsys (joinPath dir "sample.json") with
    | error e => simp [h1, h2] at h
    | ok samples =>
      cases h3 : readSampleDatas fsys (joinPath dir "sample_data.json") with
      | error e => simp [h1, h2, h3] at h
      | ok sds =>
        simp only [h1, h2, h3, Except.map_ok] at h
        cases h4 : loadEgoPoseInfos fsys (joinPath dir "ego_pose.json")
            (walkScenes (groupInto (samples.map byScene) []) ([], groupInto sds [])).1 with
        | error e => simp [h4] at h
        | ok poses =>
          simp only [h4] at h
          refine ⟨scenes, samples, sds, poses, rfl, rfl, rfl, h4, ?_⟩
          exact (congrArg Prod.snd h).symm

/-! ## The closure walk -/

theorem StdMap.find_of_mem {ν : Type} (m : StdMap ν) (hs : StdMap.Sorted m) (k : Token) (v : ν)
    (h : (k, v) ∈ m) : StdMap.find m k = some v := by
  induction m with
  | nil => cases h
  | cons e rest ih =>
    obtain ⟨k0, v0⟩ := e
    have hc := List.pairwise_cons.mp hs
    rcases List.mem_cons.mp h with h1 | h1
    · injection h1 with hk hv
      simp [StdMap.find, hk, hv]
    · have hne : k0 ≠ k := Token.lt_ne (hc.1 (k, v) h1)
      simp only [StdMap.find, hne, if_false]
      exact ih hc.2 h1

theorem StdMap.mem_of_find {ν : Type} (m : StdMap ν) (k : Token) (v : ν)
    (h : StdMap.find m k = some v) : (k, v) ∈ m := by
  induction m with
  | nil => cases h
  | cons e rest ih =>
    obtain ⟨k0, v0⟩ := e
    simp only [StdMap.find] at h
    split at h
    · rename_i hk
      injection h with hv
      rw [← hk, ← hv]
      exact List.mem_cons_self _ _
    · exact List.mem_cons_of_mem _ (ih h)

theorem StdMap.find_isSome_of_mem {ν : Type} (m : StdMap ν) (k : Token) (v : ν)
    (h : (k, v) ∈ m) : (StdMap.find m k).isSome = true := by
  induction m with
  | nil => cases h
  | cons e rest ih =>
    obtain ⟨k0, v0⟩ := e
    simp only [StdMap.find]
    split
    · rfl
    · rename_i hk
      rcases List.mem_cons.mp h with h1 | h1
      · injection h1 with hk1 _
        exact absurd hk1.symm hk
      · exact ih h1

theorem sorted_emplaceAll {ν : Type} (pairs : List (Token × ν)) (m : StdMap ν)
    (hs : StdMap.Sorted m) : StdMap.Sorted (emplaceAll pairs m) := by
  induction pairs generalizing m with
  | nil => exact hs
  | cons p rest ih => exact ih _ (StdMap.sorted_emplace m hs p.1 p.2)

theorem find_emplaceAll {ν : Type} (pairs : List (Token × ν)) (m : StdMap ν)
    (hs : StdMap.Sorted m) (q : Token) :
    StdMap.find (emplaceAll pairs m) q =
      match StdMap.find m q with
      | some v => some v
      | none => StdMap.find pairs q := by
  induction pairs generalizing m with
  | nil =>
    simp only [emplaceAll, List.foldl_nil, StdMap.find]
    cases StdMap.find m q <;> rfl
  | cons p rest ih =>
    obtain ⟨k, v⟩ := p
    have hstep : emplaceAll ((k, v) :: rest) m = emplaceAll rest (m.emplace k v) := rfl
    rw [hstep, ih _ (StdMap.sorted_emplace m hs k v), StdMap.find_emplace m hs]
    by_cases hq : q = k
    · subst hq
      cases hf : StdMap.find m q with
      | none => simp [StdMap.find]
      | some w => simp
    · have hq2 : ¬ k = q := fun h => hq h.symm
      simp only [hq, if_false, StdMap.find, hq2]

theorem find_emplaceAll_nil {ν : Type} (pairs : List (Token × ν)) (q : Token) :
    StdMap.find (emplaceAll pairs []) q = StdMap.find pairs q :=
  find_emplaceAll pairs [] List.Pairwise.nil q

theorem StdMap.sorted_subscript {ν : Type} [Inhabited ν] (m : StdMap ν) (hs : StdMap.Sorted m)
    (k : Token) : StdMap.Sorted (m.subscript k) :=
  StdMap.sorted_emplace m hs k default

theorem StdMap.find_subscript (m : StdMap (List SampleDataInfo)) (hs : StdMap.Sorted m)
    (k q : Token) :
    StdMap.find (m.subscript k) q =
      if q = k then some (sampleDatasOf m k) else StdMap.find m q :=
  StdMap.find_emplace m hs k default q

theorem sampleDatasOf_subscript (m : StdMap (List SampleDataInfo)) (hs : StdMap.Sorted m)
    (k : Token) : sampleDatasOf (m.subscript k) = sampleDatasOf m := by
  funext q
  unfold sampleDatasOf
  rw [StdMap.find_subscript m hs]
  by_cases hq : q = k
  · subst hq
    simp [sampleDatasOf]
  · simp [hq]

theorem sorted_subscriptAll (keys : List Token) (m : StdMap (List SampleDataInfo))
    (hs : StdMap.Sorted m) : StdMap.Sorted (subscriptAll keys m) := by
  induction keys generalizing m with
  | nil => exact hs
  | cons k rest ih => exact ih _ (StdMap.sorted_subscript m hs k)

theorem find_subscriptAll (keys : List Token) (m : StdMap (List SampleDataInfo))
    (hs : StdMap.Sorted m) (q : Token) :
    StdMap.find (subscriptAll keys m) q =
      match StdMap.find m q with
      | some l => some l
      | none => if q ∈ keys then some [] else none := by
  induction keys generalizing m with
  | nil =>
    simp only [subscriptAll, List.foldl_nil, List.not_mem_nil, if_false]
    cases StdMap.find m q <;> rfl
  | cons k rest ih =>
    have hstep : subscriptAll (k :: rest) m = subscriptAll rest (m.subscript k) := rfl
    rw [hstep, ih _ (StdMap.sorted_subscript m hs k), StdMap.find_subscript m hs]
    by_cases hq : q = k
    · subst hq
      cases hf : StdMap.find m q with
      | none => simp [sampleDatasOf, hf]
      | some l => simp [sampleDatasOf, hf]
    · simp only [hq, if_false, List.mem_cons, false_or]

theorem sampleDatasOf_subscriptAll (keys : List Token) (m : StdMap (List SampleDataInfo))
    (hs : StdMap.Sorted m) : sampleDatasOf (subscriptAll keys m) = sampleDatasOf m := by
  induction keys generalizing m with
  | nil => rfl
  | cons k rest ih =>
    have hstep : subscriptAll (k :: rest) m = subscriptAll rest (m.subscript k) := rfl
    rw [hstep, ih _ (StdMap.sorted_subscript m hs k), sampleDatasOf_subscript m hs]

theorem walkSamples_eq (sceneToken : Token) (ss : List SampleInfo) (c : StdMap Token)
    (m : StdMap (List SampleDataInfo)) (hs : StdMap.Sorted m) :
    walkSamples sceneToken ss (c, m) =
      (emplaceAll (ss.flatMap (fun s =>
          (sampleDatasOf m s.token).map (fun d => (d.egoPoseToken, sceneToken)))) c,
        subscriptAll (ss.map (fun s => s.token)) m) := by
  induction ss generalizing c m with
  | nil => rfl
  | cons s rest ih =>
    have hview : (sampleDatasOf (m.subscript s.token)) = sampleDatasOf m :=
      sampleDatasOf_subscript m hs s.token
    have hdatas : ((m.subscript s.token).find s.token).getD [] = sampleDatasOf m s.token :=
      congrFun hview s.token
    have hinner : ∀ (l : List SampleDataInfo) (c0 : StdMap Token),
        walkSampleDatas sceneToken l c0 =
          emplaceAll (l.map (fun d => (d.egoPoseToken, sceneToken))) c0 := by
      intro l
      induction l with
      | nil => intro c0; rfl
      | cons d ds ihd => intro c0; exact ihd _
    simp only [walkSamples]
    rw [hdatas, ih _ _ (StdMap.sorted_subscript m hs s.token), hview, hinner]
    simp only [List.flatMap_cons, List.map_cons, emplaceAll, subscriptAll, List.foldl_append,
      List.foldl_cons]

theorem walkScenes_eq (entries : List (Token × List SampleInfo)) (c : StdMap Token)
    (m : StdMap (List SampleDataInfo)) (hs : StdMap.Sorted m) :
    walkScenes entries (c, m) =
      (emplaceAll (closurePairs entries m) c,
        subscriptAll (entries.flatMap (fun e => e.2.map (fun s => s.token))) m) := by
  induction entries generalizing c m with
  | nil => rfl
  | cons e rest ih =>
    obtain ⟨sceneToken, ss⟩ := e
    simp only [walkScenes]
    rw [walkSamples_eq sceneToken ss c m hs, ih _ _ (sorted_subscriptAll _ m hs)]
    have hview := sampleDatasOf_subscriptAll (ss.map (fun s => s.token)) m hs
    have hcp : closurePairs rest (subscriptAll (ss.map (fun s => s.token)) m) =
        closurePairs rest m := by
      unfold closurePairs
      rw [hview]
    rw [hcp]
    simp only [closurePairs, List.flatMap_cons, emplaceAll, subscriptAll, List.foldl_append]

/-! ## Scene lookup -/

theorem find?_token_of_nodup (scenes : List SceneInfo)
    (hd : (scenes.map (fun s => s.token)).Nodup) (S : SceneInfo) (hS : S ∈ scenes) :
    scenes.find? (fun sceneInfo => decide (sceneInfo.token = S.token)) = some S := by
  induction scenes with
  | nil => cases hS
  | cons s rest ih =>
    have hc := List.nodup_cons.mp hd
    rcases List.mem_cons.mp hS with h | h
    · subst h
      simp [List.find?]
    · have hne : s.token ≠ S.token := by
        intro heq
        apply hc.1
        show s.token ∈ List.map (fun s => s.token) rest
        rw [heq]
        exact List.mem_map_of_mem (fun s => s.token) h
      simp only [List.find?, hne, decide_False]
      exact ih hc.2 h

theorem find?_token_eq_none (scenes : List SceneInfo) (t : Token) :
    scenes.find? (fun sceneInfo => decide (sceneInfo.token = t)) = none ↔
      ∀ S ∈ scenes, S.token ≠ t := by
  simp [List.find?_eq_none]

theorem loadFromDirectory_called (fsys : FileSystem) (dir : String) (r0 r : MetaDataReader)
    (h : loadFromDirectory fsys dir r0 = (Except.ok (), r)) :
    r.loadFromDirectoryCalled = true := by
  obtain ⟨_, _, _, _, _, _, _, _, hr⟩ := loadFromDirectory_ok fsys dir r0 r h
  rw [hr]

theorem loadFromDirectory_scenes (fsys : FileSystem) (dir : String) (r0 r : MetaDataReader)
    (h : loadFromDirectory fsys dir r0 = (Except.ok (), r)) :
    readScenes fsys (joinPath dir "scene.json") = Except.ok r.scenes := by
  obtain ⟨_, _, _, _, hs, _, _, _, hr⟩ := loadFromDirectory_ok fsys dir r0 r h
  rw [hr]
  exact hs

theorem getSceneInfo_called (ndebug : Bool) (r : MetaDataReader)
    (hc : r.loadFromDirectoryCalled = true) (t : Token) :
    getSceneInfo ndebug r t =
      Except.ok (r.scenes.find? (fun sceneInfo => decide (sceneInfo.token = t))) := by
  simp [getSceneInfo, cassert, hc, bind, Except.bind, pure, Except.pure]

/-! ## Claims -/

theorem childrenOf_byScene (samples : List SampleInfo) (k : Token) :
    childrenOf (samples.map byScene) k =
      samples.filter (fun s => decide (s.sceneToken = k)) := by
  induction samples with
  | nil => rfl
  | cons s rest ih =>
    rw [List.map_cons, childrenOf_cons, ih]
    by_cases h : s.sceneToken = k
    · simp [byScene, h, List.filter_cons]
    · simp [byScene, h, List.filter_cons]

theorem childrenOf_isEmpty_iff {α : Type} (recs : List (Token × α)) (k : Token) :
    (childrenOf recs k).isEmpty = true ↔ ¬ ∃ r ∈ recs, r.1 = k := by
  unfold childrenOf
  rw [List.isEmpty_iff, List.map_eq_nil_iff, List.filter_eq_nil_iff]
  constructor
  · rintro h ⟨r, hr, hk⟩
    exact h r hr (by simpa using hk)
  · intro h r hr hk
    exact h ⟨r, hr, by simpa using hk⟩

theorem groupInto_index {α : Type} (recs : List (Token × α)) (k : Token) :
    (StdMap.find (groupInto recs []) k).getD [] = childrenOf recs k ∧
    ((StdMap.find (groupInto recs []) k).isSome = true ↔ ∃ r ∈ recs, r.1 = k) ∧
    StdMap.find (groupInto recs []) k ≠ some [] := by
  refine ⟨getD_find_groupInto_nil recs k, ?_, ?_⟩
  · rw [find_groupInto_nil]
    by_cases h : (childrenOf recs k).isEmpty = true
    · have h2 := (childrenOf_isEmpty_iff recs k).mp h
      simp [h, h2]
    · have h2 : ∃ r ∈ recs, r.1 = k := by
        by_contra hc
        exact h ((childrenOf_isEmpty_iff recs k).mpr hc)
      simp [h, h2]
  · rw [find_groupInto_nil]
    by_cases h : (childrenOf recs k).isEmpty = true
    · simp [h]
    · simp only [h, Bool.false_eq_true, if_false, ne_eq, Option.some.injEq]
      intro h2
      exact h (List.isEmpty_iff.mpr h2)

/-- C5. Grouping index: when the sample collection decodes to `samples` and the sample-data
collection to `sds` (each record paired with its `sample_token`), `loadSampleInfos` and
`loadSampleDataInfos` return maps that send every parent token `k` to exactly the input
records referencing `k`, in input order; `k` is a key iff some input record references
it, and no key maps to an empty sequence. -/
theorem grouping_index (fsys : FileSystem) (sampleFile sampleDataFile : String)
    (samples : List SampleInfo) (sds : List (Token × SampleDataInfo))
    (h1 : readSamples fsys sampleFile = Except.ok samples)
    (h2 : readSampleDatas fsys sampleDataFile = Except.ok sds) :
    ∃ m1 m2, loadSampleInfos fsys sampleFile = Except.ok m1 ∧
      loadSampleDataInfos fsys sampleDataFile = Except.ok m2 ∧
      ∀ k : Token,
        ((m1.find k).getD [] = samples.filter (fun s => decide (s.sceneToken = k)) ∧
          ((m1.find k).isSome = true ↔ ∃ s ∈ samples, s.sceneToken = k) ∧
          m1.find k ≠ some []) ∧
        ((m2.find k).getD [] = (sds.filter (fun d => decide (d.1 = k))).map Prod.snd ∧
          ((m2.find k).isSome = true ↔ ∃ d ∈ sds, d.1 = k) ∧
          m2.find k ≠ some []) := by
  refine ⟨groupInto (samples.map byScene) [], groupInto sds [], ?_, ?_, ?_⟩
  · rw [loadSampleInfos_eq, h1]; rfl
  · rw [loadSampleDataInfos_eq, h2]; rfl
  · intro k
    obtain ⟨a1, a2, a3⟩ := groupInto_index (samples.map byScene) k
    refine ⟨⟨?_, ?_, a3⟩, groupInto_index sds k⟩
    · rw [a1, childrenOf_byScene]
    · rw [a2]
      constructor
      · rintro ⟨r, hr, hk⟩
        obtain ⟨s, hs, rfl⟩ := List.mem_map.mp hr
        exact ⟨s, hs, hk⟩
      · rintro ⟨s, hs, hk⟩
        exact ⟨byScene s, List.mem_map_of_mem byScene hs, hk⟩

/-- C5 at the directory `data`: the hypotheses hold there, and the two maps have the
entries of the conclusion. -/
theorem grouping_index_witness :
    readSamples (exampleFs examplePoses) "data/sample.json" = Except.ok exampleSamples ∧
      readSampleDatas (exampleFs examplePoses) "data/sample_data.json" =
        Except.ok exampleSampleDatas ∧
      ∃ m1 m2, loadSampleInfos (exampleFs examplePoses) "data/sample.json" = Except.ok m1 ∧
        loadSampleDataInfos (exampleFs examplePoses) "data/sample_data.json" = Except.ok m2 ∧
        ∀ k : Token,
          ((m1.find k).getD [] = exampleSamples.filter (fun s => decide (s.sceneToken = k)) ∧
            ((m1.find k).isSome = true ↔ ∃ s ∈ exampleSamples, s.sceneToken = k) ∧
            m1.find k ≠ some []) ∧
          ((m2.find k).getD [] =
              (exampleSampleDatas.filter (fun d => decide (d.1 = k))).map Prod.snd ∧
            ((m2.find k).isSome = true ↔ ∃ d ∈ exampleSampleDatas, d.1 = k) ∧
            m2.find k ≠ some []) :=
  ⟨rfl, rfl, grouping_index (exampleFs examplePoses) "data/sample.json" "data/sample_data.json"
    exampleSamples exampleSampleDatas rfl rfl⟩

/-- C6. After a successful construction whose scene tokens are pairwise distinct, for
every scene `S` of the loaded collection (the decoded scene file) `getSceneInfo S.token`
returns a present value equal to `S`. -/
theorem getSceneInfo_of_loaded (ndebug : Bool) (fsys : FileSystem) (dir : String)
    (r0 r : MetaDataReader)
    (hload : loadFromDirectory fsys dir r0 = (Except.ok (), r))
    (hd : (r.scenes.map (fun s => s.token)).Nodup) (S : SceneInfo) (hS : S ∈ r.scenes) :
    readScenes fsys (joinPath dir "scene.json") = Except.ok r.scenes ∧
      getSceneInfo ndebug r S.token = Except.ok (some S) := by
  refine ⟨loadFromDirectory_scenes fsys dir r0 r hload, ?_⟩
  rw [getSceneInfo_called ndebug r (loadFromDirectory_called fsys dir r0 r hload),
    find?_token_of_nodup r.scenes hd S hS]

/-- C6 at the directory `data`, scene `Y`. -/
theorem getSceneInfo_of_loaded_witness :
    loadFromDirectory (exampleFs examplePoses) "data" MetaDataReader.fresh =
        (Except.ok (), exampleReader) ∧
      (exampleReader.scenes.map (fun s => s.token)).Nodup ∧
      exampleScene "Y" "scene-0103" 103 ∈ exampleReader.scenes ∧
      readScenes (exampleFs examplePoses) (joinPath "data" "scene.json") =
        Except.ok exampleReader.scenes ∧
      getSceneInfo false exampleReader "Y" = Except.ok (some (exampleScene "Y" "scene-0103" 103)) :=
  ⟨rfl, by decide, by decide,
    getSceneInfo_of_loaded false (exampleFs examplePoses) "data" MetaDataReader.fresh
      exampleReader rfl (by decide) (exampleScene "Y" "scene-0103" 103) (by decide)⟩

/-- C8 (amended). For a scene token that is no key of `scene2Samples`, `getSceneSampleData`
returns the empty sequence in a build with `NDEBUG`; in a build with assertions the call
stops at `assert(false)` on line 190. -/
theorem getSceneSampleData_unknown (r : MetaDataReader) (t : Token)
    (h : r.scene2Samples.find t = none) :
    getSceneSampleData true r t = Except.ok [] ∧
      getSceneSampleData false r t = Except.error Failure.assertionFailed := by
  unfold getSceneSampleData
  rw [h]
  exact ⟨rfl, rfl⟩

/-- C8 (amended) at the directory `data` and the token `does-not-exist`. -/
theorem getSceneSampleData_unknown_witness :
    exampleReader.scene2Samples.find "does-not-exist" = none ∧
      getSceneSampleData true exampleReader "does-not-exist" = Except.ok [] ∧
      getSceneSampleData false exampleReader "does-not-exist" =
        Except.error Failure.assertionFailed :=
  ⟨rfl, getSceneSampleData_unknown exampleReader "does-not-exist" rfl⟩

/-- C8 as stated fails: with assertions enabled, the token `does-not-exist`, which is the
scene token of no sample, makes `getSceneSampleData` fail instead of returning. -/
theorem getSceneSampleData_unknown_not_graceful :
    (∀ X, X ∈ exampleReader.scene2Samples.map Prod.fst → X ≠ "does-not-exist") ∧
      getSceneSampleData false exampleReader "does-not-exist" =
        Except.error Failure.assertionFailed ∧
      getSceneSampleData false exampleReader "does-not-exist" ≠ Except.ok [] :=
  ⟨by decide, rfl, fun h => by
    have h2 : getSceneSampleData false exampleReader "does-not-exist" =
        Except.error Failure.assertionFailed := rfl
    rw [h2] at h
    cases h⟩

/-- C9. After a successful construction, `getSceneInfo t` returns none exactly when no
loaded scene has token `t`. -/
theorem getSceneInfo_none_iff (ndebug : Bool) (fsys : FileSystem) (dir : String)
    (r0 r : MetaDataReader)
    (hload : loadFromDirectory fsys dir r0 = (Except.ok (), r)) (t : Token) :
    getSceneInfo ndebug r t = Except.ok none ↔ ∀ S ∈ r.scenes, S.token ≠ t := by
  rw [getSceneInfo_called ndebug r (loadFromDirectory_called fsys dir r0 r hload)]
  rw [← find?_token_eq_none]
  constructor
  · intro h
    injection h
  · intro h
    rw [h]

/-- C9 at the directory `data` and the token `does-not-exist`. -/
theorem getSceneInfo_none_iff_witness :
    loadFromDirectory (exampleFs examplePoses) "data" MetaDataReader.fresh =
        (Except.ok (), exampleReader) ∧
      (∀ S ∈ exampleReader.scenes, S.token ≠ "does-not-exist") ∧
      getSceneInfo false exampleReader "does-not-exist" = Except.ok none :=
  ⟨rfl, by decide,
    (getSceneInfo_none_iff false (exampleFs examplePoses) "data" MetaDataReader.fresh
      exampleReader rfl "does-not-exist").mpr (by decide)⟩

/-- C10 fails on the code: scene `Z` is loaded (it is an element of `getAllSceneTokens`),
no ego pose resolves to it, so it is no key of `scene2EgoPose` and `getEgoPoseInfo`
dereferences `end()`. -/
theorem getEgoPoseInfo_loaded_scene_undefined :
    loadFromDirectory (exampleFs examplePoses) "data" MetaDataReader.fresh =
        (Except.ok (), exampleReader) ∧
      getAllSceneTokens false exampleReader = Except.ok ["X", "Y", "Z"] ∧
      getEgoPoseInfo exampleReader "Z" = Except.error Failure.endIteratorDeref :=
  ⟨rfl, rfl, rfl⟩

theorem foldl_push_back {α : Type} (l acc : List α) :
    l.foldl (fun acc x => acc ++ [x]) acc = acc ++ l := by
  induction l generalizing acc with
  | nil => simp
  | cons x rest ih => simp [ih]

theorem getSceneSampleDataLoop_eq (m : StdMap (List SampleDataInfo)) (ss : List SampleInfo)
    (acc : List SampleDataInfo) (h : ∀ s ∈ ss, (m.find s.token).isSome = true) :
    getSceneSampleDataLoop m ss acc = acc ++ ss.flatMap (fun s => sampleDatasOf m s.token) := by
  induction ss generalizing acc with
  | nil => simp [getSceneSampleDataLoop]
  | cons s rest ih =>
    obtain ⟨l, hl⟩ := Option.isSome_iff_exists.mp (h s (List.mem_cons_self _ _))
    simp only [getSceneSampleDataLoop, hl, foldl_push_back, List.flatMap_cons, sampleDatasOf,
      Option.getD_some]
    rw [ih _ (fun s hs => h s (List.mem_cons_of_mem _ hs))]
    simp [sampleDatasOf, List.append_assoc]

theorem sampleDatasOf_groupInto (sds : List (Token × SampleDataInfo)) (k : Token) :
    sampleDatasOf (groupInto sds []) k = (sds.filter (fun d => decide (d.1 = k))).map Prod.snd :=
  getD_find_groupInto_nil sds k

theorem samplesOf_groupInto (samples : List SampleInfo) (k : Token) :
    samplesOf (groupInto (samples.map byScene) []) k =
      samples.filter (fun s => decide (s.sceneToken = k)) := by
  unfold samplesOf
  rw [getD_find_groupInto_nil, childrenOf_byScene]

theorem find_scene2Samples_of_mem (samples : List SampleInfo) (X : Token)
    (hX : ∃ s ∈ samples, s.sceneToken = X) :
    StdMap.find (groupInto (samples.map byScene) []) X =
      some (samples.filter (fun s => decide (s.sceneToken = X))) := by
  obtain ⟨a1, a2, _⟩ := groupInto_index (samples.map byScene) X
  have hsome : (StdMap.find (groupInto (samples.map byScene) []) X).isSome = true := by
    rw [a2]
    obtain ⟨s, hs, hk⟩ := hX
    exact ⟨byScene s, List.mem_map_of_mem byScene hs, hk⟩
  obtain ⟨l, hl⟩ := Option.isSome_iff_exists.mp hsome
  rw [hl] at a1 ⊢
  rw [childrenOf_byScene] at a1
  exact congrArg some a1

theorem walked_find_isSome (s2s : StdMap (List SampleInfo)) (m : StdMap (List SampleDataInfo))
    (hs : StdMap.Sorted m) (X : Token) (ss : List SampleInfo) (hX : s2s.find X = some ss)
    (s : SampleInfo) (hmem : s ∈ ss) :
    (StdMap.find (walkScenes s2s ([], m)).2 s.token).isSome = true := by
  rw [walkScenes_eq s2s [] m hs]
  simp only
  rw [find_subscriptAll _ m hs]
  cases StdMap.find m s.token with
  | some l => rfl
  | none =>
    have hin : s.token ∈ s2s.flatMap (fun e => e.2.map (fun s => s.token)) :=
      List.mem_flatMap.mpr ⟨(X, ss), StdMap.mem_of_find s2s X ss hX,
        List.mem_map_of_mem (fun s => s.token) hmem⟩
    simp [hin]

theorem walked_sampleDatasOf (s2s : StdMap (List SampleInfo)) (m : StdMap (List SampleDataInfo))
    (hs : StdMap.Sorted m) :
    sampleDatasOf (walkScenes s2s ([], m)).2 = sampleDatasOf m := by
  rw [walkScenes_eq s2s [] m hs]
  exact sampleDatasOf_subscriptAll _ m hs

theorem getSceneSampleData_walked (ndebug : Bool) (scenes : List SceneInfo)
    (samples : List SampleInfo) (sds : List (Token × SampleDataInfo))
    (poses : StdMap (List EgoPoseInfo)) (called : Bool)
    (X : Token) (hX : ∃ s ∈ samples, s.sceneToken = X) :
    getSceneSampleData ndebug
        ⟨scenes, groupInto (samples.map byScene) [],
          (walkScenes (groupInto (samples.map byScene) []) ([], groupInto sds [])).2,
          poses, called⟩ X =
      Except.ok ((samples.filter (fun s => decide (s.sceneToken = X))).flatMap
        (fun s => (sds.filter (fun d => decide (d.1 = s.token))).map Prod.snd)) := by
  have hsorted : StdMap.Sorted (groupInto sds ([] : StdMap (List SampleDataInfo))) :=
    sorted_groupInto sds [] List.Pairwise.nil
  have hfind := find_scene2Samples_of_mem samples X hX
  simp only [getSceneSampleData, hfind]
  rw [getSceneSampleDataLoop_eq _ _ _
    (fun s hs => walked_find_isSome _ _ hsorted X _ hfind s hs)]
  rw [walked_sampleDatasOf _ _ hsorted, List.nil_append]
  congr 2
  funext s
  exact sampleDatasOf_groupInto sds s.token

/-- C1. After a successful construction, for every scene token `X` referenced by at least
one sample, `getSceneSampleData X` is the concatenation, over the samples of `X` in the
order of the sample collection, of the sample-data records referencing each sample, in the
order of the sample-data collection. -/
theorem getSceneSampleData_concat (ndebug : Bool) (fsys : FileSystem) (dir : String)
    (r0 r : MetaDataReader) (samples : List SampleInfo) (sds : List (Token × SampleDataInfo))
    (hload : loadFromDirectory fsys dir r0 = (Except.ok (), r))
    (h1 : readSamples fsys (joinPath dir "sample.json") = Except.ok samples)
    (h2 : readSampleDatas fsys (joinPath dir "sample_data.json") = Except.ok sds)
    (X : Token) (hX : ∃ s ∈ samples, s.sceneToken = X) :
    getSceneSampleData ndebug r X =
      Except.ok ((samples.filter (fun s => decide (s.sceneToken = X))).flatMap
        (fun s => (sds.filter (fun d => decide (d.1 = s.token))).map Prod.snd)) := by
  obtain ⟨scenes, samples0, sds0, poses, _, g1, g2, _, hr⟩ :=
    loadFromDirectory_ok fsys dir r0 r hload
  rw [h1] at g1
  rw [h2] at g2
  injection g1 with g1
  injection g2 with g2
  subst g1 g2
  rw [hr]
  exact getSceneSampleData_walked ndebug scenes samples sds poses true X hX

/-- C1 at the directory `data`: scene `X` has samples p1, p4, p2 (in that order) with
sample data a, b, none and c, and `getSceneSampleData` returns a, b, c. -/
theorem getSceneSampleData_concat_witness :
    loadFromDirectory (exampleFs examplePoses) "data" MetaDataReader.fresh =
        (Except.ok (), exampleReader) ∧
      readSamples (exampleFs examplePoses) (joinPath "data" "sample.json") =
        Except.ok exampleSamples ∧
      readSampleDatas (exampleFs examplePoses) (joinPath "data" "sample_data.json") =
        Except.ok exampleSampleDatas ∧
      (∃ s ∈ exampleSamples, s.sceneToken = "X") ∧
      getSceneSampleData false exampleReader "X" =
        Except.ok [exampleSampleData "a" "Ea" 11, exampleSampleData "b" "Eb" 12,
          exampleSampleData "c" "Ec" 21] :=
  ⟨rfl, rfl, rfl, ⟨⟨"X", "p1", ⟨10, 0⟩⟩, by decide, rfl⟩,
    getSceneSampleData_concat false (exampleFs examplePoses) "data" MetaDataReader.fresh
      exampleReader exampleSamples exampleSampleDatas rfl rfl rfl "X"
      ⟨⟨"X", "p1", ⟨10, 0⟩⟩, by decide, rfl⟩⟩

theorem closure_find (s2s : StdMap (List SampleInfo)) (m : StdMap (List SampleDataInfo))
    (hs : StdMap.Sorted m) (e : Token) :
    StdMap.find (egoPoseToken2sceneToken s2s m) e = StdMap.find (closurePairs s2s m) e := by
  unfold egoPoseToken2sceneToken
  rw [walkScenes_eq s2s [] m hs]
  exact find_emplaceAll_nil _ e

theorem mem_closurePairs (entries : List (Token × List SampleInfo))
    (m : StdMap (List SampleDataInfo)) (e X : Token) :
    (e, X) ∈ closurePairs entries m ↔
      ∃ ss, (X, ss) ∈ entries ∧ ∃ s ∈ ss, ∃ d ∈ sampleDatasOf m s.token, d.egoPoseToken = e := by
  unfold closurePairs
  simp only [List.mem_flatMap, List.mem_map, Prod.mk.injEq]
  constructor
  · rintro ⟨⟨X0, ss⟩, hmem, s, hs, d, hd, he, hX⟩
    simp only at hX
    subst hX
    exact ⟨ss, hmem, s, hs, d, hd, he⟩
  · rintro ⟨ss, hmem, s, hs, d, hd, he⟩
    exact ⟨(X, ss), hmem, s, hs, d, hd, he, rfl⟩

theorem mem_samplesOf_iff (s2s : StdMap (List SampleInfo)) (hs : StdMap.Sorted s2s) (X : Token)
    (s : SampleInfo) : s ∈ samplesOf s2s X ↔ ∃ ss, (X, ss) ∈ s2s ∧ s ∈ ss := by
  unfold samplesOf
  constructor
  · intro h
    cases hf : StdMap.find s2s X with
    | none => simp [hf] at h
    | some ss =>
      rw [hf] at h
      exact ⟨ss, StdMap.mem_of_find s2s X ss hf, h⟩
  · rintro ⟨ss, hmem, h⟩
    rw [StdMap.find_of_mem s2s hs X ss hmem]
    exact h

theorem closure_sound (s2s : StdMap (List SampleInfo)) (hs2s : StdMap.Sorted s2s)
    (m : StdMap (List SampleDataInfo)) (hs : StdMap.Sorted m) (e X : Token)
    (h : StdMap.find (egoPoseToken2sceneToken s2s m) e = some X) :
    ∃ s ∈ samplesOf s2s X, ∃ d ∈ sampleDatasOf m s.token, d.egoPoseToken = e := by
  rw [closure_find s2s m hs] at h
  obtain ⟨ss, hmem, s, hss, d, hd, he⟩ :=
    (mem_closurePairs s2s m e X).mp (StdMap.mem_of_find _ e X h)
  exact ⟨s, (mem_samplesOf_iff s2s hs2s X s).mpr ⟨ss, hmem, hss⟩, d, hd, he⟩

theorem closure_complete (s2s : StdMap (List SampleInfo)) (hs2s : StdMap.Sorted s2s)
    (m : StdMap (List SampleDataInfo)) (hs : StdMap.Sorted m) (X : Token) (s : SampleInfo)
    (d : SampleDataInfo) (h1 : s ∈ samplesOf s2s X) (h2 : d ∈ sampleDatasOf m s.token) :
    (StdMap.find (egoPoseToken2sceneToken s2s m) d.egoPoseToken).isSome = true := by
  rw [closure_find s2s m hs]
  obtain ⟨ss, hmem, hss⟩ := (mem_samplesOf_iff s2s hs2s X s).mp h1
  exact StdMap.find_isSome_of_mem _ d.egoPoseToken X
    ((mem_closurePairs s2s m d.egoPoseToken X).mpr ⟨ss, hmem, s, hss, d, h2, rfl⟩)

theorem loadSampleInfos_sorted (fsys : FileSystem) (p : String) (m : StdMap (List SampleInfo))
    (h : loadSampleInfos fsys p = Except.ok m) : StdMap.Sorted m := by
  rw [loadSampleInfos_eq] at h
  obtain ⟨recs, _, hm⟩ := Except.map_eq_ok _ _ _ h
  rw [hm]
  exact sorted_groupInto _ [] List.Pairwise.nil

theorem loadSampleDataInfos_sorted (fsys : FileSystem) (p : String)
    (m : StdMap (List SampleDataInfo)) (h : loadSampleDataInfos fsys p = Except.ok m) :
    StdMap.Sorted m := by
  rw [loadSampleDataInfos_eq] at h
  obtain ⟨recs, _, hm⟩ := Except.map_eq_ok _ _ _ h
  rw [hm]
  exact sorted_groupInto _ [] List.Pairwise.nil

/-- C3. Closure soundness and completeness: for the grouping indices returned by
`loadSampleInfos` and `loadSampleDataInfos`, the inverse map built by the walk of
`loadFromDirectory` maps a key `e` to a scene token `X` only if some sample grouped under
`X` has a sample-data record with `egoPoseToken = e`; and the `egoPoseToken` field of every
sample-data record grouped under a sample grouped under a scene token is a key. -/
theorem closure_sound_complete (fsys : FileSystem) (sampleFile sampleDataFile : String)
    (s2s : StdMap (List SampleInfo)) (s2sd : StdMap (List SampleDataInfo))
    (h1 : loadSampleInfos fsys sampleFile = Except.ok s2s)
    (h2 : loadSampleDataInfos fsys sampleDataFile = Except.ok s2sd) :
    (∀ e X : Token, (egoPoseToken2sceneToken s2s s2sd).find e = some X →
        ∃ s ∈ samplesOf s2s X, ∃ d ∈ sampleDatasOf s2sd s.token, d.egoPoseToken = e) ∧
      (∀ (X : Token) (s : SampleInfo) (d : SampleDataInfo), s ∈ samplesOf s2s X →
        d ∈ sampleDatasOf s2sd s.token →
        ((egoPoseToken2sceneToken s2s s2sd).find d.egoPoseToken).isSome = true) :=
  ⟨closure_sound s2s (loadSampleInfos_sorted fsys _ s2s h1) s2sd
      (loadSampleDataInfos_sorted fsys _ s2sd h2),
    closure_complete s2s (loadSampleInfos_sorted fsys _ s2s h1) s2sd
      (loadSampleDataInfos_sorted fsys _ s2sd h2)⟩

/-- C3 at the directory `data`: the inverse map has exactly the four ego-pose tokens as
keys (none of the sample-data tokens a, b, c, d), each mapped to the scene of its sample. -/
theorem closure_sound_complete_witness :
    loadSampleInfos (exampleFs examplePoses) "data/sample.json" =
        Except.ok exampleScene2Samples ∧
      loadSampleDataInfos (exampleFs examplePoses) "data/sample_data.json" =
        Except.ok exampleSample2SampleData ∧
      egoPoseToken2sceneToken exampleScene2Samples exampleSample2SampleData =
        [("Ea", "X"), ("Eb", "X"), ("Ec", "X"), ("Ed", "Y")] ∧
      ((∀ e X : Token,
          (egoPoseToken2sceneToken exampleScene2Samples exampleSample2SampleData).find e =
            some X →
          ∃ s ∈ samplesOf exampleScene2Samples X,
            ∃ d ∈ sampleDatasOf exampleSample2SampleData s.token, d.egoPoseToken = e) ∧
        (∀ (X : Token) (s : SampleInfo) (d : SampleDataInfo),
          s ∈ samplesOf exampleScene2Samples X →
          d ∈ sampleDatasOf exampleSample2SampleData s.token →
          ((egoPoseToken2sceneToken exampleScene2Samples exampleSample2SampleData).find
            d.egoPoseToken).isSome = true)) :=
  ⟨rfl, rfl, rfl,
    closure_sound_complete (exampleFs examplePoses) "data/sample.json" "data/sample_data.json"
      exampleScene2Samples exampleSample2SampleData rfl rfl⟩

/-! ## Ego-pose resolution -/

theorem decodeAll_cons_ok {α : Type} (f : Json → Except Failure α) (j : Json) (js : List Json)
    (rs : List α) (h : decodeAll f (j :: js) = Except.ok rs) :
    ∃ r rs0, f j = Except.ok r ∧ decodeAll f js = Except.ok rs0 ∧ rs = r :: rs0 := by
  simp only [decodeAll] at h
  obtain ⟨r, hr, h⟩ := Except.bind_eq_ok _ _ _ h
  obtain ⟨rs0, hrs, h⟩ := Except.bind_eq_ok _ _ _ h
  injection h with h
  exact ⟨r, rs0, hr, hrs, h.symm⟩

theorem decodeAll_cons_of_ok {α : Type} (f : Json → Except Failure α) (j : Json)
    (js : List Json) (r : α) (rs : List α) (h1 : f j = Except.ok r)
    (h2 : decodeAll f js = Except.ok rs) : decodeAll f (j :: js) = Except.ok (r :: rs) := by
  simp only [decodeAll, h1, h2]
  rfl

theorem resolveEgoPose_eq (c : StdMap Token) (j : Json) (t : Token)
    (ht : egoPoseTokenOf j = Except.ok t) :
    resolveEgoPose c j =
      match c.find t with
      | none => Except.ok none
      | some sceneToken =>
        (fun pose => some (sceneToken, pose)) <$> egoPoseJson2EgoPoseInfo j := by
  simp only [resolveEgoPose, ht]
  show (match c.find t with
    | none => pure none
    | some sceneToken => do
      let egoPoseInfo ← egoPoseJson2EgoPoseInfo j
      pure (some (sceneToken, egoPoseInfo))) = _
  cases c.find t with
  | none => rfl
  | some sceneToken => simp only [map_eq_pure_bind]

theorem resolveEgoPose_ok (c : StdMap Token) (j : Json) (r : Option (Token × EgoPoseInfo))
    (h : resolveEgoPose c j = Except.ok r) :
    ∃ t, egoPoseTokenOf j = Except.ok t ∧
      ((c.find t = none ∧ r = none) ∨
        ∃ X pose, c.find t = some X ∧ egoPoseJson2EgoPoseInfo j = Except.ok pose ∧
          r = some (X, pose)) := by
  cases ht : egoPoseTokenOf j with
  | error e =>
    simp only [resolveEgoPose, ht] at h
    cases h
  | ok t =>
    refine ⟨t, rfl, ?_⟩
    rw [resolveEgoPose_eq c j t ht] at h
    cases hf : c.find t with
    | none =>
      rw [hf] at h
      injection h with h
      exact Or.inl ⟨rfl, h.symm⟩
    | some X =>
      rw [hf] at h
      obtain ⟨pose, hp, hr⟩ := Except.map_eq_ok _ _ _ h
      exact Or.inr ⟨X, pose, rfl, hp, hr⟩

theorem resolved_children (c : StdMap Token) (X : Token) (js : List Json)
    (rs : List (Option (Token × EgoPoseInfo)))
    (h : decodeAll (resolveEgoPose c) js = Except.ok rs) :
    decodeAll egoPoseJson2EgoPoseInfo (js.filter (tokenMapsTo c X)) =
      Except.ok (childrenOf (rs.filterMap id) X) := by
  induction js generalizing rs with
  | nil =>
    injection h with h
    subst h
    rfl
  | cons j rest ih =>
    obtain ⟨r, rs0, hr, hrs, heq⟩ := decodeAll_cons_ok _ _ _ _ h
    subst heq
    obtain ⟨t, ht, hcase⟩ := resolveEgoPose_ok c j r hr
    rcases hcase with ⟨hf, hnone⟩ | ⟨Y, pose, hf, hp, hsome⟩
    · subst hnone
      have hm : tokenMapsTo c X j = false := by simp [tokenMapsTo, ht, hf]
      simp only [List.filter_cons, hm, List.filterMap_cons, id]
      exact ih rs0 hrs
    · subst hsome
      by_cases hY : Y = X
      · subst hY
        have hm : tokenMapsTo c Y j = true := by simp [tokenMapsTo, ht, hf]
        simp only [List.filter_cons, hm, List.filterMap_cons, id, if_true, childrenOf_cons]
        exact decodeAll_cons_of_ok _ _ _ _ _ hp (ih rs0 hrs)
      · have hm : tokenMapsTo c X j = false := by simp [tokenMapsTo, ht, hf, hY]
        simp only [List.filter_cons, hm, List.filterMap_cons, id, childrenOf_cons, hY, if_false]
        exact ih rs0 hrs

theorem resolved_keys (c : StdMap Token) (X : Token) (js : List Json)
    (rs : List (Option (Token × EgoPoseInfo)))
    (h : decodeAll (resolveEgoPose c) js = Except.ok rs) :
    (∃ r ∈ rs.filterMap id, r.1 = X) ↔ ∃ j ∈ js, tokenMapsTo c X j = true := by
  induction js generalizing rs with
  | nil =>
    injection h with h
    subst h
    simp
  | cons j rest ih =>
    obtain ⟨r, rs0, hr, hrs, heq⟩ := decodeAll_cons_ok _ _ _ _ h
    subst heq
    obtain ⟨t, ht, hcase⟩ := resolveEgoPose_ok c j r hr
    rcases hcase with ⟨hf, hnone⟩ | ⟨Y, pose, hf, hp, hsome⟩
    · subst hnone
      have hm : tokenMapsTo c X j = false := by simp [tokenMapsTo, ht, hf]
      simp only [List.filterMap_cons, id, List.mem_cons, exists_eq_or_imp, hm,
        Bool.false_eq_true, false_or]
      exact ih rs0 hrs
    · subst hsome
      by_cases hY : Y = X
      · have hm : tokenMapsTo c X j = true := by simp [tokenMapsTo, ht, hf, hY]
        simp only [List.filterMap_cons, id, List.mem_cons, exists_eq_or_imp, hm, hY, true_or]
      · have hm : tokenMapsTo c X j = false := by simp [tokenMapsTo, ht, hf, hY]
        simp only [List.filterMap_cons, id, List.mem_cons, exists_eq_or_imp, hm, hY,
          Bool.false_eq_true, false_or]
        exact ih rs0 hrs

theorem resolve_total (c : StdMap Token) (js : List Json)
    (htok : ∀ j ∈ js, ∃ t, egoPoseTokenOf j = Except.ok t)
    (hdec : ∀ j ∈ js, ∀ t X, egoPoseTokenOf j = Except.ok t → c.find t = some X →
      ∃ pose, egoPoseJson2EgoPoseInfo j = Except.ok pose) :
    ∃ rs, decodeAll (resolveEgoPose c) js = Except.ok rs := by
  induction js with
  | nil => exact ⟨[], rfl⟩
  | cons j rest ih =>
    obtain ⟨rs0, hrs⟩ := ih (fun j hj => htok j (List.mem_cons_of_mem _ hj))
      (fun j hj => hdec j (List.mem_cons_of_mem _ hj))
    obtain ⟨t, ht⟩ := htok j (List.mem_cons_self _ _)
    cases hf : c.find t with
    | none =>
      refine ⟨none :: rs0, decodeAll_cons_of_ok _ _ _ _ _ ?_ hrs⟩
      rw [resolveEgoPose_eq c j t ht, hf]
    | some X =>
      obtain ⟨pose, hp⟩ := hdec j (List.mem_cons_self _ _) t X ht hf
      refine ⟨some (X, pose) :: rs0, decodeAll_cons_of_ok _ _ _ _ _ ?_ hrs⟩
      rw [resolveEgoPose_eq c j t ht, hf]
      simp only [hp]
      rfl

/-- C2. Ego-pose resolution: for every closure map `c` and every ego-pose collection `js` in
which each record has a token and each record whose token is a key of `c` decodes,
`loadEgoPoseInfos` returns a map that sends each scene token `X` to exactly the decoded
subsequence of the records whose own token `c` maps to `X`, in input order; `X` is a key
iff there is such a record. -/
theorem egoPose_resolution (fsys : FileSystem) (egoPoseFile : String) (c : StdMap Token)
    (js : List Json)
    (hread : readEgoPoseJsons fsys egoPoseFile = Except.ok js)
    (htok : ∀ j ∈ js, ∃ t, egoPoseTokenOf j = Except.ok t)
    (hdec : ∀ j ∈ js, ∀ t X, egoPoseTokenOf j = Except.ok t → c.find t = some X →
      ∃ pose, egoPoseJson2EgoPoseInfo j = Except.ok pose) :
    ∃ m, loadEgoPoseInfos fsys egoPoseFile c = Except.ok m ∧
      ∀ X : Token,
        decodeAll egoPoseJson2EgoPoseInfo (js.filter (tokenMapsTo c X)) =
            Except.ok ((m.find X).getD []) ∧
          ((m.find X).isSome = true ↔ ∃ j ∈ js, tokenMapsTo c X j = true) := by
  obtain ⟨rs, hrs⟩ := resolve_total c js htok hdec
  refine ⟨groupInto (rs.filterMap id) [], ?_, ?_⟩
  · rw [loadEgoPoseInfos_eq, hread]
    show (fun rs => groupInto (rs.filterMap id) []) <$> decodeAll (resolveEgoPose c) js = _
    rw [hrs]
    rfl
  · intro X
    obtain ⟨a1, a2, _⟩ := groupInto_index (rs.filterMap id) X
    refine ⟨?_, ?_⟩
    · rw [a1]
      exact resolved_children c X js rs hrs
    · rw [a2]
      exact resolved_keys c X js rs hrs

theorem examplePoses_tokens :
    ∀ j ∈ examplePosesWithOrphans, ∃ t, egoPoseTokenOf j = Except.ok t := by
  intro j hj
  simp only [examplePosesWithOrphans, examplePoses, List.cons_append, List.nil_append,
    List.mem_cons, List.mem_singleton, List.not_mem_nil, or_false] at hj
  rcases hj with h | h | h | h | h | h <;> subst h <;> exact ⟨_, rfl⟩

theorem examplePoses_decode :
    ∀ j ∈ examplePosesWithOrphans, ∀ t X, egoPoseTokenOf j = Except.ok t →
      exampleClosure.find t = some X → ∃ pose, egoPoseJson2EgoPoseInfo j = Except.ok pose := by
  intro j hj t X ht hf
  simp only [examplePosesWithOrphans, examplePoses, List.cons_append, List.nil_append,
    List.mem_cons, List.mem_singleton, List.not_mem_nil, or_false] at hj
  rcases hj with h | h | h | h | h | h <;> subst h
  · exact ⟨_, rfl⟩
  · exact ⟨_, rfl⟩
  · exact ⟨_, rfl⟩
  · exact ⟨_, rfl⟩
  · exact ⟨_, rfl⟩
  · have ht2 : t = "E3" := by
      have h0 : egoPoseTokenOf (Json.object [("token", jstr "E3")]) = Except.ok "E3" := rfl
      rw [h0] at ht
      injection ht with ht
      exact ht.symm
    subst ht2
    have hf2 : exampleClosure.find "E3" = none := rfl
    rw [hf2] at hf
    cases hf

/-- C2 at the directory `data` with two orphaned records added: the records resolve to
scenes X and Y in input order, the orphans to none. -/
theorem egoPose_resolution_witness :
    readEgoPoseJsons (exampleFs examplePosesWithOrphans) "data/ego_pose.json" =
        Except.ok examplePosesWithOrphans ∧
      (∃ m, loadEgoPoseInfos (exampleFs examplePosesWithOrphans) "data/ego_pose.json"
            exampleClosure = Except.ok m ∧
        ∀ X : Token,
          decodeAll egoPoseJson2EgoPoseInfo
              (examplePosesWithOrphans.filter (tokenMapsTo exampleClosure X)) =
              Except.ok ((m.find X).getD []) ∧
            ((m.find X).isSome = true ↔
              ∃ j ∈ examplePosesWithOrphans, tokenMapsTo exampleClosure X j = true)) ∧
      loadEgoPoseInfos (exampleFs examplePosesWithOrphans) "data/ego_pose.json" exampleClosure =
        Except.ok [("X", [examplePose 21, examplePose 11, examplePose 12]),
          ("Y", [examplePose 31])] :=
  ⟨rfl,
    egoPose_resolution (exampleFs examplePosesWithOrphans) "data/ego_pose.json" exampleClosure
      examplePosesWithOrphans rfl examplePoses_tokens examplePoses_decode,
    rfl⟩

/-! ## Orphaned ego poses -/

theorem loadEgoPoseInfosLoop_cons (c : StdMap Token) (j : Json) (rest : List Json)
    (m : StdMap (List EgoPoseInfo)) :
    loadEgoPoseInfosLoop c (j :: rest) m =
      (egoPoseTokenOf j >>= fun sampleDataToken =>
        match c.find sampleDataToken with
        | none => loadEgoPoseInfosLoop c rest m
        | some sceneToken =>
          egoPoseJson2EgoPoseInfo j >>= fun egoPoseInfo =>
            loadEgoPoseInfosLoop c rest
              ((getExistingOrDefault m sceneToken).modify sceneToken
                (fun egoPoses => egoPoses ++ [egoPoseInfo]))) := by
  simp only [loadEgoPoseInfosLoop, egoPoseTokenOf, bind_assoc]

theorem loadEgoPoseInfosLoop_orphan (c : StdMap Token) (pre post : List Json) (j : Json)
    (t : Token) (htok : egoPoseTokenOf j = Except.ok t) (horph : c.find t = none)
    (m : StdMap (List EgoPoseInfo)) :
    loadEgoPoseInfosLoop c (pre ++ j :: post) m = loadEgoPoseInfosLoop c (pre ++ post) m := by
  induction pre generalizing m with
  | nil =>
    rw [List.nil_append, List.nil_append, loadEgoPoseInfosLoop_cons, htok]
    show (match c.find t with
      | none => loadEgoPoseInfosLoop c post m
      | some sceneToken => _) = _
    rw [horph]
  | cons x pre ih =>
    rw [List.cons_append, List.cons_append, loadEgoPoseInfosLoop_cons,
      loadEgoPoseInfosLoop_cons]
    refine bind_congr (fun tok => ?_)
    cases c.find tok with
    | none => exact ih m
    | some sceneToken => exact bind_congr (fun pose => ih _)

theorem joinPath_injective (dir a b : String) (h : joinPath dir a = joinPath dir b) : a = b := by
  unfold joinPath at h
  have h2 := congrArg String.data h
  simp only [String.data_append] at h2
  have h3 := List.append_cancel_left h2
  cases a; cases b; simp_all

theorem slurpJsonFile_withFile_ne (fsys : FileSystem) (path p : String) (content : FileContent)
    (h : p ≠ path) : slurpJsonFile (withFile fsys path content) p = slurpJsonFile fsys p := by
  simp [slurpJsonFile, withFile, h]

theorem slurpJsonFile_withFile_eq (fsys : FileSystem) (path : String) (j : Json) :
    slurpJsonFile (withFile fsys path (FileContent.parsed j)) path = Except.ok j := by
  simp [slurpJsonFile, withFile]

/-- C7. An orphaned ego pose is skipped: when the ego-pose file holds a record `j` whose
token `t` is no key of the closure built from the sample and sample-data files,
`loadFromDirectory` has the same outcome and leaves the same state (hence the same
scene-to-ego-pose map and the same `getEgoPoseInfo` results) as on the input in which
`j` is removed; in particular it completes whenever it completes without `j`. -/
theorem orphan_egoPose_skipped (fsys : FileSystem) (dir : String) (r0 : MetaDataReader)
    (pre post : List Json) (j : Json) (t : Token)
    (s2s : StdMap (List SampleInfo)) (s2sd : StdMap (List SampleDataInfo))
    (hfile : fsys (joinPath dir "ego_pose.json") = FileContent.parsed (Json.array (pre ++ j :: post)))
    (htok : egoPoseTokenOf j = Except.ok t)
    (h1 : loadSampleInfos fsys (joinPath dir "sample.json") = Except.ok s2s)
    (h2 : loadSampleDataInfos fsys (joinPath dir "sample_data.json") = Except.ok s2sd)
    (horph : (egoPoseToken2sceneToken s2s s2sd).find t = none) :
    loadFromDirectory fsys dir r0 =
        loadFromDirectory
          (withFile fsys (joinPath dir "ego_pose.json") (FileContent.parsed (Json.array (pre ++ post))))
          dir r0 ∧
      ((loadFromDirectory
          (withFile fsys (joinPath dir "ego_pose.json") (FileContent.parsed (Json.array (pre ++ post))))
          dir r0).1 = Except.ok () → (loadFromDirectory fsys dir r0).1 = Except.ok ()) ∧
      ∀ X : Token, getEgoPoseInfo (loadFromDirectory fsys dir r0).2 X =
        getEgoPoseInfo (loadFromDirectory
          (withFile fsys (joinPath dir "ego_pose.json") (FileContent.parsed (Json.array (pre ++ post))))
          dir r0).2 X := by
  have hne : ∀ name : String, name ≠ "ego_pose.json" →
      joinPath dir name ≠ joinPath dir "ego_pose.json" :=
    fun name hn h => hn (joinPath_injective dir _ _ h)
  have key : loadFromDirectory fsys dir r0 =
      loadFromDirectory
        (withFile fsys (joinPath dir "ego_pose.json") (FileContent.parsed (Json.array (pre ++ post))))
        dir r0 := by
    have e1 : loadScenesFromFile (withFile fsys (joinPath dir "ego_pose.json")
        (FileContent.parsed (Json.array (pre ++ post)))) (joinPath dir "scene.json") =
        loadScenesFromFile fsys (joinPath dir "scene.json") := by
      simp only [loadScenesFromFile, slurpJsonFile_withFile_ne _ _ _ _ (hne "scene.json" (by decide))]
    have e2 : loadSampleInfos (withFile fsys (joinPath dir "ego_pose.json")
        (FileContent.parsed (Json.array (pre ++ post)))) (joinPath dir "sample.json") =
        loadSampleInfos fsys (joinPath dir "sample.json") := by
      simp only [loadSampleInfos, slurpJsonFile_withFile_ne _ _ _ _ (hne "sample.json" (by decide))]
    have e3 : loadSampleDataInfos (withFile fsys (joinPath dir "ego_pose.json")
        (FileContent.parsed (Json.array (pre ++ post)))) (joinPath dir "sample_data.json") =
        loadSampleDataInfos fsys (joinPath dir "sample_data.json") := by
      simp only [loadSampleDataInfos,
        slurpJsonFile_withFile_ne _ _ _ _ (hne "sample_data.json" (by decide))]
    have e4 : loadEgoPoseInfos (withFile fsys (joinPath dir "ego_pose.json")
        (FileContent.parsed (Json.array (pre ++ post)))) (joinPath dir "ego_pose.json")
          (egoPoseToken2sceneToken s2s s2sd) =
        loadEgoPoseInfos fsys (joinPath dir "ego_pose.json") (egoPoseToken2sceneToken s2s s2sd) := by
      have hs : slurpJsonFile fsys (joinPath dir "ego_pose.json") =
          Except.ok (Json.array (pre ++ j :: post)) := by
        simp [slurpJsonFile, hfile]
      simp only [loadEgoPoseInfos, slurpJsonFile_withFile_eq, hs]
      exact (loadEgoPoseInfosLoop_orphan _ pre post j t htok horph []).symm
    unfold loadFromDirectory
    simp only [e1, e2, e3, h1, h2]
    cases loadScenesFromFile fsys (joinPath dir "scene.json") with
    | error e => rfl
    | ok scenes =>
      simp only
      have e5 : (walkScenes s2s ([], s2sd)).1 = egoPoseToken2sceneToken s2s s2sd := rfl
      rw [e5, e4]
  exact ⟨key, fun h => by rw [key]; exact h, fun X => by rw [key]⟩

/-! ## End-to-end count -/

theorem egoPose_timestamp (j : Json) (pose : EgoPoseInfo)
    (h : egoPoseJson2EgoPoseInfo j = Except.ok pose) :
    egoPoseTimestampOf j = Except.ok pose.timeStamp := by
  simp only [egoPoseJson2EgoPoseInfo, bind_assoc] at h
  obtain ⟨_, _, h⟩ := Except.bind_eq_ok _ _ _ h
  obtain ⟨_, _, h⟩ := Except.bind_eq_ok _ _ _ h
  obtain ⟨t0, _, h⟩ := Except.bind_eq_ok _ _ _ h
  obtain ⟨_, _, h⟩ := Except.bind_eq_ok _ _ _ h
  obtain ⟨_, _, h⟩ := Except.bind_eq_ok _ _ _ h
  obtain ⟨t1, _, h⟩ := Except.bind_eq_ok _ _ _ h
  obtain ⟨_, _, h⟩ := Except.bind_eq_ok _ _ _ h
  obtain ⟨_, _, h⟩ := Except.bind_eq_ok _ _ _ h
  obtain ⟨t2, _, h⟩ := Except.bind_eq_ok _ _ _ h
  obtain ⟨_, _, h⟩ := Except.bind_eq_ok _ _ _ h
  obtain ⟨_, _, h⟩ := Except.bind_eq_ok _ _ _ h
  obtain ⟨r0, _, h⟩ := Except.bind_eq_ok _ _ _ h
  obtain ⟨_, _, h⟩ := Except.bind_eq_ok _ _ _ h
  obtain ⟨_, _, h⟩ := Except.bind_eq_ok _ _ _ h
  obtain ⟨r1, _, h⟩ := Except.bind_eq_ok _ _ _ h
  obtain ⟨_, _, h⟩ := Except.bind_eq_ok _ _ _ h
  obtain ⟨_, _, h⟩ := Except.bind_eq_ok _ _ _ h
  obtain ⟨r2, _, h⟩ := Except.bind_eq_ok _ _ _ h
  obtain ⟨_, _, h⟩ := Except.bind_eq_ok _ _ _ h
  obtain ⟨_, _, h⟩ := Except.bind_eq_ok _ _ _ h
  obtain ⟨r3, _, h⟩ := Except.bind_eq_ok _ _ _ h
  obtain ⟨v, hv, h⟩ := Except.bind_eq_ok _ _ _ h
  obtain ⟨ts, hts, h⟩ := Except.bind_eq_ok _ _ _ h
  injection h with h
  subst h
  simp only [egoPoseTimestampOf, hv]
  exact hts

theorem mem_childrenOf {α : Type} (recs : List (Token × α)) (k : Token) (x : α) :
    x ∈ childrenOf recs k ↔ (k, x) ∈ recs := by
  unfold childrenOf
  rw [List.mem_map]
  constructor
  · rintro ⟨⟨k0, x0⟩, hmem, hx⟩
    obtain ⟨hin, hk⟩ := List.mem_filter.mp hmem
    simp only [decide_eq_true_eq] at hk
    simp only at hx
    subst hk hx
    exact hin
  · intro h
    exact ⟨(k, x), List.mem_filter.mpr ⟨h, by simp⟩, rfl⟩

theorem decodeAll_length {α : Type} (f : Json → Except Failure α) (js : List Json)
    (rs : List α) (h : decodeAll f js = Except.ok rs) : rs.length = js.length := by
  induction js generalizing rs with
  | nil =>
    injection h with h
    subst h
    rfl
  | cons j rest ih =>
    obtain ⟨r, rs0, _, hrs, heq⟩ := decodeAll_cons_ok _ _ _ _ h
    subst heq
    simp [ih rs0 hrs]

theorem decodeAll_forall₂ {α : Type} (f : Json → Except Failure α) (js : List Json)
    (rs : List α) (h : decodeAll f js = Except.ok rs) :
    List.Forall₂ (fun j r => f j = Except.ok r) js rs := by
  induction js generalizing rs with
  | nil =>
    injection h with h
    subst h
    exact List.Forall₂.nil
  | cons j rest ih =>
    obtain ⟨r, rs0, hr, hrs, heq⟩ := decodeAll_cons_ok _ _ _ _ h
    subst heq
    exact List.Forall₂.cons hr (ih rs0 hrs)

theorem decodeAll_mem {α : Type} (f : Json → Except Failure α) (js : List Json)
    (rs : List α) (h : decodeAll f js = Except.ok rs) (r : α) (hr : r ∈ rs) :
    ∃ j ∈ js, f j = Except.ok r := by
  induction js generalizing rs with
  | nil =>
    injection h with h
    subst h
    cases hr
  | cons j rest ih =>
    obtain ⟨r0, rs0, hr0, hrs, heq⟩ := decodeAll_cons_ok _ _ _ _ h
    subst heq
    rcases List.mem_cons.mp hr with h1 | h1
    · subst h1
      exact ⟨j, List.mem_cons_self _ _, hr0⟩
    · obtain ⟨j0, hj0, hf⟩ := ih rs0 hrs h1
      exact ⟨j0, List.mem_cons_of_mem _ hj0, hf⟩

theorem filter_tokenMapsTo_length (c : StdMap Token) (X : Token) (js : List Json)
    (toks : List Token) (h : decodeAll egoPoseTokenOf js = Except.ok toks) :
    (js.filter (tokenMapsTo c X)).length =
      (toks.filter (fun t => decide (c.find t = some X))).length := by
  induction js generalizing toks with
  | nil =>
    injection h with h
    subst h
    rfl
  | cons j rest ih =>
    obtain ⟨t, toks0, ht, htoks, heq⟩ := decodeAll_cons_ok _ _ _ _ h
    subst heq
    have hm : tokenMapsTo c X j = decide (c.find t = some X) := by
      simp only [tokenMapsTo, ht]
    simp only [List.filter_cons, hm]
    by_cases hc : c.find t = some X
    · simp [hc, ih toks0 htoks]
    · simp [hc, ih toks0 htoks]

/-- The sample-data records of a scene: those of its samples, sample by sample. -/
theorem mem_sceneDatas (samples : List SampleInfo) (sds : List (Token × SampleDataInfo))
    (X : Token) (d : SampleDataInfo) :
    d ∈ (samples.filter (fun s => decide (s.sceneToken = X))).flatMap
        (fun s => (sds.filter (fun d => decide (d.1 = s.token))).map Prod.snd) ↔
      ∃ s ∈ samples, s.sceneToken = X ∧ (s.token, d) ∈ sds := by
  rw [List.mem_flatMap]
  constructor
  · rintro ⟨s, hs, hd⟩
    obtain ⟨hin, hk⟩ := List.mem_filter.mp hs
    exact ⟨s, hin, by simpa using hk, (mem_childrenOf sds s.token d).mp hd⟩
  · rintro ⟨s, hin, hk, hd⟩
    exact ⟨s, List.mem_filter.mpr ⟨hin, by simpa using hk⟩, (mem_childrenOf sds s.token d).mpr hd⟩

theorem closure_find_iff (samples : List SampleInfo) (sds : List (Token × SampleDataInfo))
    (uSample : (samples.map (fun s => s.token)).Nodup)
    (egoDistinct : (sds.map (fun d => d.2.egoPoseToken)).Nodup) (X t : Token) :
    (egoPoseToken2sceneToken (groupInto (samples.map byScene) []) (groupInto sds [])).find t
        = some X ↔
      ∃ s ∈ samples, s.sceneToken = X ∧ ∃ d, (s.token, d) ∈ sds ∧ d.egoPoseToken = t := by
  have hs1 : StdMap.Sorted (groupInto (samples.map byScene) ([] : StdMap (List SampleInfo))) :=
    sorted_groupInto _ [] List.Pairwise.nil
  have hs2 : StdMap.Sorted (groupInto sds ([] : StdMap (List SampleDataInfo))) :=
    sorted_groupInto _ [] List.Pairwise.nil
  have sound : ∀ Y, (egoPoseToken2sceneToken (groupInto (samples.map byScene) [])
      (groupInto sds [])).find t = some Y →
      ∃ s ∈ samples, s.sceneToken = Y ∧ ∃ d, (s.token, d) ∈ sds ∧ d.egoPoseToken = t := by
    intro Y h
    obtain ⟨s, hs, d, hd, he⟩ := closure_sound _ hs1 _ hs2 t Y h
    rw [samplesOf_groupInto] at hs
    rw [sampleDatasOf_groupInto] at hd
    obtain ⟨hin, hk⟩ := List.mem_filter.mp hs
    exact ⟨s, hin, by simpa using hk, d, (mem_childrenOf sds s.token d).mp hd, he⟩
  constructor
  · exact sound X
  · rintro ⟨s, hin, hk, d, hd, he⟩
    have hs : s ∈ samplesOf (groupInto (samples.map byScene) []) X := by
      rw [samplesOf_groupInto]
      exact List.mem_filter.mpr ⟨hin, by simpa using hk⟩
    have hd2 : d ∈ sampleDatasOf (groupInto sds []) s.token := by
      rw [sampleDatasOf_groupInto]
      exact (mem_childrenOf sds s.token d).mpr hd
    have hsome := closure_complete _ hs1 _ hs2 X s d hs hd2
    rw [he] at hsome
    obtain ⟨Y, hY⟩ := Option.isSome_iff_exists.mp hsome
    obtain ⟨s0, hin0, hk0, d0, hd0, he0⟩ := sound Y hY
    have hrec : (s.token, d) = (s0.token, d0) :=
      List.inj_on_of_nodup_map egoDistinct hd hd0 (he.trans he0.symm)
    have htok : s.token = s0.token := congrArg Prod.fst hrec
    have hsame : s = s0 := List.inj_on_of_nodup_map uSample hin hin0 htok
    rw [hY, ← hk0, ← hsame, hk]

theorem sceneDatas_ego_nodup (samples : List SampleInfo) (sds : List (Token × SampleDataInfo))
    (uSample : (samples.map (fun s => s.token)).Nodup)
    (egoDistinct : (sds.map (fun d => d.2.egoPoseToken)).Nodup) (X : Token) :
    (((samples.filter (fun s => decide (s.sceneToken = X))).flatMap
        (fun s => (sds.filter (fun d => decide (d.1 = s.token))).map Prod.snd)).map
      (fun d => d.egoPoseToken)).Nodup := by
  rw [List.map_flatMap, List.nodup_flatMap]
  constructor
  · intro s _
    rw [List.map_map]
    exact List.Nodup.sublist ((List.filter_sublist sds).map _) egoDistinct
  · have hp : samples.Pairwise (fun a b => a.token ≠ b.token) := List.pairwise_map.mp uSample
    refine List.Pairwise.imp ?_ (List.Pairwise.sublist (List.filter_sublist samples) hp)
    intro a b hab t ha hb
    obtain ⟨d, hd, hdt⟩ := List.mem_map.mp ha
    obtain ⟨d0, hd0, hdt0⟩ := List.mem_map.mp hb
    have m1 : (a.token, d) ∈ sds := (mem_childrenOf sds a.token d).mp hd
    have m2 : (b.token, d0) ∈ sds := (mem_childrenOf sds b.token d0).mp hd0
    have hrec : (a.token, d) = (b.token, d0) :=
      List.inj_on_of_nodup_map egoDistinct m1 m2 (hdt.trans hdt0.symm)
    exact hab (congrArg Prod.fst hrec)

theorem resolved_count (samples : List SampleInfo) (sds : List (Token × SampleDataInfo))
    (toks : List Token)
    (uSample : (samples.map (fun s => s.token)).Nodup)
    (uEgo : toks.Nodup)
    (egoDistinct : (sds.map (fun d => d.2.egoPoseToken)).Nodup)
    (egoOne : ∀ d ∈ sds, toks.count d.2.egoPoseToken = 1) (X : Token) :
    (toks.filter (fun t => decide
        ((egoPoseToken2sceneToken (groupInto (samples.map byScene) [])
          (groupInto sds [])).find t = some X))).length =
      ((samples.filter (fun s => decide (s.sceneToken = X))).flatMap
        (fun s => (sds.filter (fun d => decide (d.1 = s.token))).map Prod.snd)).length := by
  rw [← List.length_map _ (fun d : SampleDataInfo => d.egoPoseToken)]
  apply List.Perm.length_eq
  rw [List.perm_ext_iff_of_nodup (uEgo.filter _)
    (sceneDatas_ego_nodup samples sds uSample egoDistinct X)]
  intro t
  rw [List.mem_filter, decide_eq_true_eq, closure_find_iff samples sds uSample egoDistinct,
    List.mem_map]
  constructor
  · rintro ⟨_, s, hin, hk, d, hd, he⟩
    exact ⟨d, (mem_sceneDatas samples sds X d).mpr ⟨s, hin, hk, hd⟩, he⟩
  · rintro ⟨d, hd, he⟩
    obtain ⟨s, hin, hk, hmem⟩ := (mem_sceneDatas samples sds X d).mp hd
    refine ⟨?_, s, hin, hk, d, hmem, he⟩
    have hc := egoOne (s.token, d) hmem
    have hpos : 0 < toks.count d.egoPoseToken := by
      simp only at hc
      omega
    rw [← he]
    exact List.count_pos_iff.mp hpos

/-- C4. End-to-end count: on well-formed input (tokens unique within each collection, every
sample referencing a loaded scene, every sample data referencing a loaded sample,
sample-data `egoPoseToken`s pairwise distinct, exactly one ego-pose record with the token
of each sample data), for every scene `S` with at least one sample data the sequence
returned by `getEgoPoseInfo S.token` has the length of the one returned by
`getSceneSampleData S.token`, and each returned pose is decoded from a record of the
ego-pose collection and carries that record's timestamp. -/
theorem end_to_end_count (ndebug : Bool) (fsys : FileSystem) (dir : String)
    (r0 r : MetaDataReader) (scenes : List SceneInfo) (samples : List SampleInfo)
    (sds : List (Token × SampleDataInfo)) (js : List Json) (toks : List Token)
    (hload : loadFromDirectory fsys dir r0 = (Except.ok (), r))
    (_hscenes : readScenes fsys (joinPath dir "scene.json") = Except.ok scenes)
    (hsamples : readSamples fsys (joinPath dir "sample.json") = Except.ok samples)
    (hsds : readSampleDatas fsys (joinPath dir "sample_data.json") = Except.ok sds)
    (hego : readEgoPoseJsons fsys (joinPath dir "ego_pose.json") = Except.ok js)
    (htoks : decodeAll egoPoseTokenOf js = Except.ok toks)
    (_uScene : (scenes.map (fun s => s.token)).Nodup)
    (uSample : (samples.map (fun s => s.token)).Nodup)
    (_uData : (sds.map (fun d => d.2.token)).Nodup)
    (uEgo : toks.Nodup)
    (_refScene : ∀ s ∈ samples, ∃ S ∈ scenes, S.token = s.sceneToken)
    (_refSample : ∀ d ∈ sds, ∃ s ∈ samples, s.token = d.1)
    (egoDistinct : (sds.map (fun d => d.2.egoPoseToken)).Nodup)
    (egoOne : ∀ d ∈ sds, toks.count d.2.egoPoseToken = 1)
    (S : SceneInfo) (_hS : S ∈ scenes)
    (hdata : ∃ s ∈ samples, s.sceneToken = S.token ∧ ∃ d ∈ sds, d.1 = s.token) :
    ∃ poses datas sources,
      getEgoPoseInfo r S.token = Except.ok poses ∧
      getSceneSampleData ndebug r S.token = Except.ok datas ∧
      poses.length = datas.length ∧
      sources.Sublist js ∧
      List.Forall₂ (fun j pose => egoPoseJson2EgoPoseInfo j = Except.ok pose ∧
        egoPoseTimestampOf j = Except.ok pose.timeStamp) sources poses := by
  obtain ⟨s, hs, hk, d, hd, hds⟩ := hdata
  obtain ⟨scenes0, samples0, sds0, posesMap, _, g1, g2, g3, hr⟩ :=
    loadFromDirectory_ok fsys dir r0 r hload
  rw [hsamples] at g1
  rw [hsds] at g2
  injection g1 with g1
  injection g2 with g2
  subst g1 g2
  have hdatas : getSceneSampleData ndebug r S.token =
      Except.ok ((samples.filter (fun s => decide (s.sceneToken = S.token))).flatMap
        (fun s => (sds.filter (fun d => decide (d.1 = s.token))).map Prod.snd)) := by
    rw [hr]
    exact getSceneSampleData_walked ndebug scenes0 samples sds posesMap true S.token
      ⟨s, hs, hk⟩
  rw [loadEgoPoseInfos_eq, hego] at g3
  obtain ⟨rs, hrs, hm⟩ := Except.map_eq_ok _ _ _
    (show (fun rs => groupInto (rs.filterMap id) []) <$>
      decodeAll (resolveEgoPose (egoPoseToken2sceneToken (groupInto (samples.map byScene) [])
        (groupInto sds []))) js = Except.ok posesMap from g3)
  obtain ⟨a1, a2, _⟩ := groupInto_index (rs.filterMap id) S.token
  have hchildren := resolved_children _ S.token js rs hrs
  have hkeys := resolved_keys _ S.token js rs hrs
  have hmemd : (s.token, d.2) ∈ sds := by
    rw [← hds]
    exact hd
  have hfind : (egoPoseToken2sceneToken (groupInto (samples.map byScene) [])
      (groupInto sds [])).find d.2.egoPoseToken = some S.token :=
    (closure_find_iff samples sds uSample egoDistinct S.token d.2.egoPoseToken).mpr
      ⟨s, hs, hk, d.2, hmemd, rfl⟩
  have hin : d.2.egoPoseToken ∈ toks := by
    have hc := egoOne d hd
    exact List.count_pos_iff.mp (by omega)
  obtain ⟨j, hj, hjt⟩ := decodeAll_mem _ js toks htoks _ hin
  have hsome : (StdMap.find posesMap S.token).isSome = true := by
    rw [hm, a2, hkeys]
    exact ⟨j, hj, by simp [tokenMapsTo, hjt, hfind]⟩
  obtain ⟨poses, hposes⟩ := Option.isSome_iff_exists.mp hsome
  have hposes2 : poses = childrenOf (rs.filterMap id) S.token := by
    rw [← a1, ← hm, hposes]
    rfl
  refine ⟨poses, _, js.filter (tokenMapsTo (egoPoseToken2sceneToken
    (groupInto (samples.map byScene) []) (groupInto sds [])) S.token),
    ?_, hdatas, ?_, List.filter_sublist js, ?_⟩
  · rw [hr]
    simp only [getEgoPoseInfo, hposes]
  · rw [hposes2, decodeAll_length _ _ _ hchildren, filter_tokenMapsTo_length _ _ js toks htoks]
    exact resolved_count samples sds toks uSample uEgo egoDistinct egoOne S.token
  · rw [hposes2]
    exact List.Forall₂.imp (fun j pose h => ⟨h, egoPose_timestamp j pose h⟩)
      (decodeAll_forall₂ _ _ _ hchildren)

/-- C4 at the directory `data`, scene `X`: three sample-data records, three poses. -/
theorem end_to_end_count_witness :
    loadFromDirectory (exampleFs examplePoses) "data" MetaDataReader.fresh =
        (Except.ok (), exampleReader) ∧
      readScenes (exampleFs examplePoses) (joinPath "data" "scene.json") =
        Except.ok exampleScenes ∧
      readSamples (exampleFs examplePoses) (joinPath "data" "sample.json") =
        Except.ok exampleSamples ∧
      readSampleDatas (exampleFs examplePoses) (joinPath "data" "sample_data.json") =
        Except.ok exampleSampleDatas ∧
      readEgoPoseJsons (exampleFs examplePoses) (joinPath "data" "ego_pose.json") =
        Except.ok examplePoses ∧
      decodeAll egoPoseTokenOf examplePoses = Except.ok examplePoseTokens ∧
      (exampleScenes.map (fun s => s.token)).Nodup ∧
      (exampleSamples.map (fun s => s.token)).Nodup ∧
      (exampleSampleDatas.map (fun d => d.2.token)).Nodup ∧
      examplePoseTokens.Nodup ∧
      (∀ s ∈ exampleSamples, ∃ S ∈ exampleScenes, S.token = s.sceneToken) ∧
      (∀ d ∈ exampleSampleDatas, ∃ s ∈ exampleSamples, s.token = d.1) ∧
      (exampleSampleDatas.map (fun d => d.2.egoPoseToken)).Nodup ∧
      (∀ d ∈ exampleSampleDatas, examplePoseTokens.count d.2.egoPoseToken = 1) ∧
      exampleScene "X" "scene-0061" 61 ∈ exampleScenes ∧
      (∃ s ∈ exampleSamples, s.sceneToken = "X" ∧ ∃ d ∈ exampleSampleDatas, d.1 = s.token) ∧
      getEgoPoseInfo exampleReader "X" =
        Except.ok [examplePose 21, examplePose 11, examplePose 12] ∧
      ∃ poses datas sources,
        getEgoPoseInfo exampleReader "X" = Except.ok poses ∧
        getSceneSampleData false exampleReader "X" = Except.ok datas ∧
        poses.length = datas.length ∧
        sources.Sublist examplePoses ∧
        List.Forall₂ (fun j pose => egoPoseJson2EgoPoseInfo j = Except.ok pose ∧
          egoPoseTimestampOf j = Except.ok pose.timeStamp) sources poses :=
  ⟨rfl, rfl, rfl, rfl, rfl, rfl, by decide, by decide, by decide, by decide, by decide,
    by decide, by decide, by decide, by decide, by decide, rfl,
    end_to_end_count false (exampleFs examplePoses) "data" MetaDataReader.fresh exampleReader
      exampleScenes exampleSamples exampleSampleDatas examplePoses examplePoseTokens
      rfl rfl rfl rfl rfl rfl (by decide) (by decide) (by decide) (by decide) (by decide)
      (by decide) (by decide) (by decide) (exampleScene "X" "scene-0061" 61) (by decide)
      (by decide)⟩

/-- C7 at the directory `data` with the orphaned record `E2` in front: construction
completes, with the same state as without the record, and scene `X` has the poses of its
three sample-data records only. -/
theorem orphan_egoPose_skipped_witness :
    exampleFs examplePosesWithOrphans (joinPath "data" "ego_pose.json") =
        FileContent.parsed (Json.array ([] ++ egoPoseRecord "E2" 99 ::
          (examplePoses ++ [Json.object [("token", jstr "E3")]]))) ∧
      egoPoseTokenOf (egoPoseRecord "E2" 99) = Except.ok "E2" ∧
      loadSampleInfos (exampleFs examplePosesWithOrphans) (joinPath "data" "sample.json") =
        Except.ok exampleScene2Samples ∧
      loadSampleDataInfos (exampleFs examplePosesWithOrphans)
        (joinPath "data" "sample_data.json") = Except.ok exampleSample2SampleData ∧
      (egoPoseToken2sceneToken exampleScene2Samples exampleSample2SampleData).find "E2" = none ∧
      (loadFromDirectory (exampleFs examplePosesWithOrphans) "data" MetaDataReader.fresh).1 =
        Except.ok () ∧
      getEgoPoseInfo
          (loadFromDirectory (exampleFs examplePosesWithOrphans) "data" MetaDataReader.fresh).2
          "X" = Except.ok [examplePose 21, examplePose 11, examplePose 12] ∧
      (loadFromDirectory (exampleFs examplePosesWithOrphans) "data" MetaDataReader.fresh =
          loadFromDirectory
            (withFile (exampleFs examplePosesWithOrphans) (joinPath "data" "ego_pose.json")
              (FileContent.parsed (Json.array ([] ++
                (examplePoses ++ [Json.object [("token", jstr "E3")]])))))
            "data" MetaDataReader.fresh ∧
        ((loadFromDirectory
            (withFile (exampleFs examplePosesWithOrphans) (joinPath "data" "ego_pose.json")
              (FileContent.parsed (Json.array ([] ++
                (examplePoses ++ [Json.object [("token", jstr "E3")]])))))
            "data" MetaDataReader.fresh).1 = Except.ok () →
          (loadFromDirectory (exampleFs examplePosesWithOrphans) "data"
            MetaDataReader.fresh).1 = Except.ok ()) ∧
        ∀ X : Token,
          getEgoPoseInfo
            (loadFromDirectory (exampleFs examplePosesWithOrphans) "data"
              MetaDataReader.fresh).2 X =
          getEgoPoseInfo
            (loadFromDirectory
              (withFile (exampleFs examplePosesWithOrphans) (joinPath "data" "ego_pose.json")
                (FileContent.parsed (Json.array ([] ++
                  (examplePoses ++ [Json.object [("token", jstr "E3")]])))))
              "data" MetaDataReader.fresh).2 X) :=
  ⟨rfl, rfl, rfl, rfl, rfl, rfl, rfl,
    orphan_egoPose_skipped (exampleFs examplePosesWithOrphans) "data" MetaDataReader.fresh
      [] (examplePoses ++ [Json.object [("token", jstr "E3")]]) (egoPoseRecord "E2" 99) "E2"
      exampleScene2Samples exampleSample2SampleData rfl rfl rfl rfl rfl⟩

/-! ## Duplicate closure keys -/

theorem StdMap.find_append {ν : Type} (l1 l2 : StdMap ν) (q : Token) :
    StdMap.find (l1 ++ l2) q =
      match StdMap.find l1 q with
      | some v => some v
      | none => StdMap.find l2 q := by
  induction l1 with
  | nil => rfl
  | cons e rest ih =>
    obtain ⟨k, v⟩ := e
    simp only [List.cons_append, StdMap.find]
    by_cases hk : k = q
    · simp [hk]
    · simp only [hk, if_false]
      exact ih

theorem find_first_pair {ν : Type} (pre post : StdMap ν) (e : Token) (X : ν)
    (hfirst : ∀ p ∈ pre, p.1 ≠ e) : StdMap.find (pre ++ (e, X) :: post) e = some X := by
  rw [StdMap.find_append, StdMap.find_eq_none_of_forall_ne pre e hfirst]
  simp [StdMap.find]

/-- C11 (amended). Duplicate closure keys: the first write wins. For the grouping indices
returned by the loaders, when `(e, X)` is the first pair with key `e` among the pairs
`(sampleData.egoPoseToken, sceneToken)` in the order in which the walk of lines 28-35
reaches them, the inverse map holds `X` under `e`, whatever pairs with key `e` follow. -/
theorem closure_first_write_wins (fsys : FileSystem) (sampleFile sampleDataFile : String)
    (s2s : StdMap (List SampleInfo)) (s2sd : StdMap (List SampleDataInfo))
    (h1 : loadSampleInfos fsys sampleFile = Except.ok s2s)
    (h2 : loadSampleDataInfos fsys sampleDataFile = Except.ok s2sd)
    (pre post : List (Token × Token)) (e X : Token)
    (hsplit : closurePairs s2s s2sd = pre ++ (e, X) :: post)
    (hfirst : ∀ p ∈ pre, p.1 ≠ e) :
    (walkScenes s2s ([], s2sd)).1 = emplaceAll (closurePairs s2s s2sd) [] ∧
      (egoPoseToken2sceneToken s2s s2sd).find e = some X := by
  have hs := loadSampleDataInfos_sorted fsys _ s2sd h2
  have _hs1 := loadSampleInfos_sorted fsys _ s2s h1
  refine ⟨?_, ?_⟩
  · rw [walkScenes_eq s2s [] s2sd hs]
  · rw [closure_find s2s s2sd hs, hsplit]
    exact find_first_pair pre post e X hfirst

/-- C11 (amended) at the directory `dup`: the walk writes (E, A) and then (E, B), and the
inverse map holds A under E. -/
theorem closure_first_write_wins_witness :
    loadSampleInfos duplicateFs "dup/sample.json" = Except.ok duplicateScene2Samples ∧
      loadSampleDataInfos duplicateFs "dup/sample_data.json" =
        Except.ok duplicateSample2SampleData ∧
      closurePairs duplicateScene2Samples duplicateSample2SampleData =
        [] ++ ("E", "A") :: [("E", "B")] ∧
      (∀ p ∈ ([] : List (Token × Token)), p.1 ≠ "E") ∧
      (walkScenes duplicateScene2Samples ([], duplicateSample2SampleData)).1 =
        emplaceAll (closurePairs duplicateScene2Samples duplicateSample2SampleData) [] ∧
      (egoPoseToken2sceneToken duplicateScene2Samples duplicateSample2SampleData).find "E" =
        some "A" :=
  ⟨rfl, rfl, rfl, fun _ hp => absurd hp (List.not_mem_nil _),
    closure_first_write_wins duplicateFs "dup/sample.json" "dup/sample_data.json"
      duplicateScene2Samples duplicateSample2SampleData rfl rfl [] [("E", "B")] "E" "A" rfl
      (fun _ hp => absurd hp (List.not_mem_nil _))⟩

/-- C11 as stated fails: in the directory `dup` the token E is carried by sample data
under scenes A and B, the last pair written during the walk (and the last record of the
sample-data file) belongs to B, and the inverse map holds A. -/
theorem closure_last_write_loses :
    loadSampleInfos duplicateFs "dup/sample.json" = Except.ok duplicateScene2Samples ∧
      loadSampleDataInfos duplicateFs "dup/sample_data.json" =
        Except.ok duplicateSample2SampleData ∧
      closurePairs duplicateScene2Samples duplicateSample2SampleData =
        [("E", "A"), ("E", "B")] ∧
      (egoPoseToken2sceneToken duplicateScene2Samples duplicateSample2SampleData).find "E" =
        some "A" ∧
      (egoPoseToken2sceneToken duplicateScene2Samples duplicateSample2SampleData).find "E" ≠
        some "B" :=
  ⟨rfl, rfl, rfl, rfl, by decide⟩

theorem closurePairs_cons (X : Token) (ss : List SampleInfo)
    (rest : List (Token × List SampleInfo)) (m : StdMap (List SampleDataInfo)) :
    closurePairs ((X, ss) :: rest) m =
      ss.flatMap (fun s => (sampleDatasOf m s.token).map (fun d => (d.egoPoseToken, X))) ++
        closurePairs rest m := by
  simp only [closurePairs, List.flatMap_cons]

theorem closurePairs_minimal (entries : List (Token × List SampleInfo))
    (hs : StdMap.Sorted entries) (m : StdMap (List SampleDataInfo)) (e X : Token)
    (h : StdMap.find (closurePairs entries m) e = some X) (Y : Token) (ss : List SampleInfo)
    (hY : (Y, ss) ∈ entries)
    (hc : ∃ s ∈ ss, ∃ d ∈ sampleDatasOf m s.token, d.egoPoseToken = e) :
    X = Y ∨ Token.lt X Y = true := by
  induction entries with
  | nil => cases hY
  | cons entry rest ih =>
    obtain ⟨X0, ss0⟩ := entry
    have hsorted := List.pairwise_cons.mp hs
    rw [closurePairs_cons, StdMap.find_append] at h
    cases hf : StdMap.find (ss0.flatMap (fun s =>
        (sampleDatasOf m s.token).map (fun d => (d.egoPoseToken, X0)))) e with
    | some v =>
      rw [hf] at h
      injection h with h
      subst h
      have hmem := StdMap.mem_of_find _ e v hf
      obtain ⟨s, _, hmem2⟩ := List.mem_flatMap.mp hmem
      obtain ⟨d, _, hd⟩ := List.mem_map.mp hmem2
      have hv : X0 = v := congrArg Prod.snd hd
      subst hv
      rcases List.mem_cons.mp hY with h0 | h0
      · exact Or.inl (congrArg Prod.fst h0).symm
      · exact Or.inr (hsorted.1 (Y, ss) h0)
    | none =>
      rw [hf] at h
      rcases List.mem_cons.mp hY with h0 | h0
      · injection h0 with hy hss
        subst hy hss
        obtain ⟨s, hs0, d, hd, he⟩ := hc
        have hmem : (e, Y) ∈ ss.flatMap (fun s =>
            (sampleDatasOf m s.token).map (fun d => (d.egoPoseToken, Y))) :=
          List.mem_flatMap.mpr ⟨s, hs0, List.mem_map.mpr ⟨d, hd, by rw [he]⟩⟩
        have hsome := StdMap.find_isSome_of_mem _ e Y hmem
        rw [hf] at hsome
        cases hsome
      · exact ih hsorted.2 h h0

theorem carriedUnder_iff (samples : List SampleInfo) (sds : List (Token × SampleDataInfo))
    (e X : Token) :
    carriedUnder samples sds e X ↔
      ∃ s ∈ samplesOf (groupInto (samples.map byScene) []) X,
        ∃ d ∈ sampleDatasOf (groupInto sds []) s.token, d.egoPoseToken = e := by
  unfold carriedUnder
  constructor
  · rintro ⟨s, hs, hk, d, hd, he⟩
    refine ⟨s, ?_, d, ?_, he⟩
    · rw [samplesOf_groupInto]
      exact List.mem_filter.mpr ⟨hs, by simpa using hk⟩
    · rw [sampleDatasOf_groupInto]
      exact (mem_childrenOf sds s.token d).mpr hd
  · rintro ⟨s, hs, d, hd, he⟩
    rw [samplesOf_groupInto] at hs
    rw [sampleDatasOf_groupInto] at hd
    obtain ⟨hin, hk⟩ := List.mem_filter.mp hs
    exact ⟨s, hin, by simpa using hk, d, (mem_childrenOf sds s.token d).mp hd, he⟩

theorem closureOf_minimal (samples : List SampleInfo) (sds : List (Token × SampleDataInfo))
    (e : Token) :
    (∀ X, (closureOf samples sds).find e = some X →
        carriedUnder samples sds e X ∧
          ∀ Y, carriedUnder samples sds e Y → X = Y ∨ Token.lt X Y = true) ∧
      ((∃ Y, carriedUnder samples sds e Y) → ((closureOf samples sds).find e).isSome = true) := by
  have hs1 : StdMap.Sorted (groupInto (samples.map byScene) ([] : StdMap (List SampleInfo))) :=
    sorted_groupInto _ [] List.Pairwise.nil
  have hs2 : StdMap.Sorted (groupInto sds ([] : StdMap (List SampleDataInfo))) :=
    sorted_groupInto _ [] List.Pairwise.nil
  refine ⟨?_, ?_⟩
  · intro X hX
    refine ⟨(carriedUnder_iff samples sds e X).mpr (closure_sound _ hs1 _ hs2 e X hX), ?_⟩
    intro Y hY
    obtain ⟨s, hs, d, hd, he⟩ := (carriedUnder_iff samples sds e Y).mp hY
    obtain ⟨ss, hmem, hss⟩ := (mem_samplesOf_iff _ hs1 Y s).mp hs
    have hfind : StdMap.find (closurePairs (groupInto (samples.map byScene) [])
        (groupInto sds [])) e = some X := by
      rw [← closure_find _ _ hs2]
      exact hX
    exact closurePairs_minimal _ hs1 _ e X hfind Y ss hmem ⟨s, hss, d, hd, he⟩
  · rintro ⟨Y, hY⟩
    obtain ⟨s, hs, d, hd, he⟩ := (carriedUnder_iff samples sds e Y).mp hY
    have h := closure_complete _ hs1 _ hs2 Y s d hs hd
    rw [he] at h
    exact h

theorem Token.lt_asymm {a b : Token} (h1 : Token.lt a b = true) (h2 : Token.lt b a = true) :
    False := by
  have h := Token.lt_trans h1 h2
  rw [Token.lt_irrefl] at h
  exact Bool.false_ne_true h

theorem carriedUnder_perm (samples samples0 : List SampleInfo)
    (sds sds0 : List (Token × SampleDataInfo)) (hp1 : samples.Perm samples0)
    (hp2 : sds.Perm sds0) (e X : Token) (h : carriedUnder samples sds e X) :
    carriedUnder samples0 sds0 e X := by
  obtain ⟨s, hs, hk, d, hd, he⟩ := h
  exact ⟨s, hp1.mem_iff.mp hs, hk, d, hp2.mem_iff.mp hd, he⟩

theorem closureOf_perm (samples samples0 : List SampleInfo)
    (sds sds0 : List (Token × SampleDataInfo)) (hp1 : samples.Perm samples0)
    (hp2 : sds.Perm sds0) (e : Token) :
    (closureOf samples sds).find e = (closureOf samples0 sds0).find e := by
  obtain ⟨a1, a2⟩ := closureOf_minimal samples sds e
  obtain ⟨b1, b2⟩ := closureOf_minimal samples0 sds0 e
  cases hA : (closureOf samples sds).find e with
  | none =>
    cases hB : (closureOf samples0 sds0).find e with
    | none => rfl
    | some Y =>
      have hc := carriedUnder_perm samples0 samples sds0 sds hp1.symm hp2.symm e Y (b1 Y hB).1
      have h := a2 ⟨Y, hc⟩
      rw [hA] at h
      cases h
  | some X =>
    obtain ⟨hcX, hminX⟩ := a1 X hA
    have hcX0 := carriedUnder_perm samples samples0 sds sds0 hp1 hp2 e X hcX
    obtain ⟨Y, hB⟩ := Option.isSome_iff_exists.mp (b2 ⟨X, hcX0⟩)
    obtain ⟨hcY0, hminY⟩ := b1 Y hB
    have hcY := carriedUnder_perm samples0 samples sds0 sds hp1.symm hp2.symm e Y hcY0
    rw [hB]
    rcases hminX Y hcY with h | h
    · rw [h]
    · rcases hminY X hcX0 with h0 | h0
      · rw [h0]
      · exact absurd (Token.lt_asymm h h0) id

/-- C19. When an ego-pose token `e` is carried by sample-data records grouped under samples
of one or several scene tokens, the inverse map built by the walk of `loadFromDirectory`
maps `e` to the smallest of those scene tokens in the order of `std::map` (code-wise
lexical order), and the same holds for every reordering of the sample and sample-data
collections. -/
theorem closure_smallest_scene_wins (fsys : FileSystem) (sampleFile sampleDataFile : String)
    (samples : List SampleInfo) (sds : List (Token × SampleDataInfo))
    (hsamples : readSamples fsys sampleFile = Except.ok samples)
    (hsds : readSampleDatas fsys sampleDataFile = Except.ok sds)
    (e : Token) (hcar : ∃ Y, carriedUnder samples sds e Y) :
    ∃ s2s s2sd X,
      loadSampleInfos fsys sampleFile = Except.ok s2s ∧
      loadSampleDataInfos fsys sampleDataFile = Except.ok s2sd ∧
      (egoPoseToken2sceneToken s2s s2sd).find e = some X ∧
      carriedUnder samples sds e X ∧
      (∀ Y, carriedUnder samples sds e Y → X = Y ∨ Token.lt X Y = true) ∧
      ∀ samples0 sds0, samples.Perm samples0 → sds.Perm sds0 →
        (closureOf samples0 sds0).find e = some X := by
  obtain ⟨a1, a2⟩ := closureOf_minimal samples sds e
  obtain ⟨X, hX⟩ := Option.isSome_iff_exists.mp (a2 hcar)
  refine ⟨groupInto (samples.map byScene) [], groupInto sds [], X, ?_, ?_, hX, (a1 X hX).1,
    (a1 X hX).2, ?_⟩
  · rw [loadSampleInfos_eq, hsamples]
    rfl
  · rw [loadSampleDataInfos_eq, hsds]
    rfl
  · intro samples0 sds0 hp1 hp2
    rw [← closureOf_perm samples samples0 sds sds0 hp1 hp2 e]
    exact hX

/-- C19 at the directory `dup`: E is carried under A and under B, and the inverse map holds
A, although B comes first in the sample file and last in the sample-data file. -/
theorem closure_smallest_scene_wins_witness :
    readSamples duplicateFs "dup/sample.json" = Except.ok duplicateSamples ∧
      readSampleDatas duplicateFs "dup/sample_data.json" = Except.ok duplicateSampleDatas ∧
      carriedUnder duplicateSamples duplicateSampleDatas "E" "A" ∧
      carriedUnder duplicateSamples duplicateSampleDatas "E" "B" ∧
      (egoPoseToken2sceneToken duplicateScene2Samples duplicateSample2SampleData).find "E" =
        some "A" ∧
      ∃ s2s s2sd X,
        loadSampleInfos duplicateFs "dup/sample.json" = Except.ok s2s ∧
        loadSampleDataInfos duplicateFs "dup/sample_data.json" = Except.ok s2sd ∧
        (egoPoseToken2sceneToken s2s s2sd).find "E" = some X ∧
        carriedUnder duplicateSamples duplicateSampleDatas "E" X ∧
        (∀ Y, carriedUnder duplicateSamples duplicateSampleDatas "E" Y →
          X = Y ∨ Token.lt X Y = true) ∧
        ∀ samples0 sds0, duplicateSamples.Perm samples0 → duplicateSampleDatas.Perm sds0 →
          (closureOf samples0 sds0).find "E" = some X :=
  ⟨rfl, rfl,
    ⟨⟨"A", "q1", ⟨1, 0⟩⟩, by decide, rfl, exampleSampleData "y" "E" 1, by decide, rfl⟩,
    ⟨⟨"B", "q2", ⟨2, 0⟩⟩, by decide, rfl, exampleSampleData "x" "E" 2, by decide, rfl⟩,
    rfl,
    closure_smallest_scene_wins duplicateFs "dup/sample.json" "dup/sample_data.json"
      duplicateSamples duplicateSampleDatas rfl rfl "E"
      ⟨"A", ⟨"A", "q1", ⟨1, 0⟩⟩, by decide, rfl, exampleSampleData "y" "E" 1, by decide, rfl⟩⟩

/-! ## Failed construction -/

/-- C12 (amended). A failed `loadFromDirectory` leaves `scene2EgoPose` and
`loadFromDirectoryCalled` as they were, and leaves assigned every index whose loading step
precedes the failing one: a failure in the scene file leaves the whole state unchanged; a
failure in the sample file leaves `scenes` replaced; a failure in the sample-data file
leaves `scenes` and `scene2Samples` replaced; a failure in the ego-pose file leaves
`scenes`, `scene2Samples` and `sample2SampleData` (as extended by the walk) replaced. -/
theorem failed_load_state (fsys : FileSystem) (dir : String) (r0 r : MetaDataReader)
    (e : Failure) (h : loadFromDirectory fsys dir r0 = (Except.error e, r)) :
    r.scene2EgoPose = r0.scene2EgoPose ∧
      r.loadFromDirectoryCalled = r0.loadFromDirectoryCalled ∧
      ((loadScenesFromFile fsys (joinPath dir "scene.json") = Except.error e ∧ r = r0) ∨
        ∃ scenes, loadScenesFromFile fsys (joinPath dir "scene.json") = Except.ok scenes ∧
          r.scenes = scenes ∧
          ((loadSampleInfos fsys (joinPath dir "sample.json") = Except.error e ∧
              r.scene2Samples = r0.scene2Samples ∧
              r.sample2SampleData = r0.sample2SampleData) ∨
            ∃ s2s, loadSampleInfos fsys (joinPath dir "sample.json") = Except.ok s2s ∧
              r.scene2Samples = s2s ∧
              ((loadSampleDataInfos fsys (joinPath dir "sample_data.json") = Except.error e ∧
                  r.sample2SampleData = r0.sample2SampleData) ∨
                ∃ s2sd,
                  loadSampleDataInfos fsys (joinPath dir "sample_data.json") = Except.ok s2sd ∧
                  r.sample2SampleData = (walkScenes s2s ([], s2sd)).2 ∧
                  loadEgoPoseInfos fsys (joinPath dir "ego_pose.json")
                    (egoPoseToken2sceneToken s2s s2sd) = Except.error e))) := by
  unfold loadFromDirectory at h
  cases h1 : loadScenesFromFile fsys (joinPath dir "scene.json") with
  | error e1 =>
    simp only [h1, Prod.mk.injEq, Except.error.injEq] at h
    obtain ⟨he, hr⟩ := h
    subst he hr
    exact ⟨rfl, rfl, Or.inl ⟨rfl, rfl⟩⟩
  | ok scenes =>
    cases h2 : loadSampleInfos fsys (joinPath dir "sample.json") with
    | error e2 =>
      simp only [h1, h2, Prod.mk.injEq, Except.error.injEq] at h
      obtain ⟨he, hr⟩ := h
      subst he hr
      exact ⟨rfl, rfl, Or.inr ⟨scenes, rfl, rfl, Or.inl ⟨rfl, rfl, rfl⟩⟩⟩
    | ok s2s =>
      cases h3 : loadSampleDataInfos fsys (joinPath dir "sample_data.json") with
      | error e3 =>
        simp only [h1, h2, h3, Prod.mk.injEq, Except.error.injEq] at h
        obtain ⟨he, hr⟩ := h
        subst he hr
        exact ⟨rfl, rfl, Or.inr ⟨scenes, rfl, rfl, Or.inr ⟨s2s, rfl, rfl, Or.inl ⟨rfl, rfl⟩⟩⟩⟩
      | ok s2sd =>
        cases h4 : loadEgoPoseInfos fsys (joinPath dir "ego_pose.json")
            (walkScenes s2s ([], s2sd)).1 with
        | error e4 =>
          simp only [h1, h2, h3, h4, Prod.mk.injEq, Except.error.injEq] at h
          obtain ⟨he, hr⟩ := h
          subst he hr
          exact ⟨rfl, rfl, Or.inr ⟨scenes, rfl, rfl, Or.inr ⟨s2s, rfl, rfl,
            Or.inr ⟨s2sd, rfl, rfl, h4⟩⟩⟩⟩
        | ok poses =>
          simp only [h1, h2, h3, h4, Prod.mk.injEq] at h
          exact absurd h.1 (by simp)

/-- C12 (amended) at the directory `data` without its sample file, on a fresh reader. -/
theorem failed_load_state_witness :
    loadFromDirectory noSampleFs "data" MetaDataReader.fresh =
        (Except.error Failure.unableToOpen, noSampleReader) ∧
      noSampleReader.scene2EgoPose = MetaDataReader.fresh.scene2EgoPose ∧
      noSampleReader.loadFromDirectoryCalled = MetaDataReader.fresh.loadFromDirectoryCalled ∧
      ((loadScenesFromFile noSampleFs (joinPath "data" "scene.json") =
            Except.error Failure.unableToOpen ∧ noSampleReader = MetaDataReader.fresh) ∨
        ∃ scenes, loadScenesFromFile noSampleFs (joinPath "data" "scene.json") =
            Except.ok scenes ∧
          noSampleReader.scenes = scenes ∧
          ((loadSampleInfos noSampleFs (joinPath "data" "sample.json") =
                Except.error Failure.unableToOpen ∧
              noSampleReader.scene2Samples = MetaDataReader.fresh.scene2Samples ∧
              noSampleReader.sample2SampleData = MetaDataReader.fresh.sample2SampleData) ∨
            ∃ s2s, loadSampleInfos noSampleFs (joinPath "data" "sample.json") = Except.ok s2s ∧
              noSampleReader.scene2Samples = s2s ∧
              ((loadSampleDataInfos noSampleFs (joinPath "data" "sample_data.json") =
                    Except.error Failure.unableToOpen ∧
                  noSampleReader.sample2SampleData =
                    MetaDataReader.fresh.sample2SampleData) ∨
                ∃ s2sd,
                  loadSampleDataInfos noSampleFs (joinPath "data" "sample_data.json") =
                    Except.ok s2sd ∧
                  noSampleReader.sample2SampleData = (walkScenes s2s ([], s2sd)).2 ∧
                  loadEgoPoseInfos noSampleFs (joinPath "data" "ego_pose.json")
                    (egoPoseToken2sceneToken s2s s2sd) =
                      Except.error Failure.unableToOpen))) :=
  ⟨rfl, failed_load_state noSampleFs "data" MetaDataReader.fresh noSampleReader
    Failure.unableToOpen rfl⟩

/-- C12 as stated fails: in the directory `data` without its sample file construction
fails (the sample collection cannot be opened), and the failed call has populated
`scenes` of the fresh reader with the three decoded scenes. -/
theorem failed_load_leaves_scenes :
    (loadFromDirectory noSampleFs "data" MetaDataReader.fresh).1 =
        Except.error Failure.unableToOpen ∧
      MetaDataReader.fresh.scenes = [] ∧
      (loadFromDirectory noSampleFs "data" MetaDataReader.fresh).2.scenes = exampleScenes ∧
      (loadFromDirectory noSampleFs "data" MetaDataReader.fresh).2.scenes ≠
        MetaDataReader.fresh.scenes :=
  ⟨rfl, rfl, rfl, by decide⟩

/-! ## Scene names -/

theorem dropLiteral_eq_some (lit cs rest : List Char) :
    dropLiteral lit cs = some rest ↔ cs = lit ++ rest := by
  induction lit generalizing cs with
  | nil =>
    simp only [dropLiteral, Option.some.injEq, List.nil_append]
  | cons l ls ih =>
    cases cs with
    | nil => simp [dropLiteral]
    | cons c cs =>
      simp only [dropLiteral, List.cons_append, List.cons.injEq]
      by_cases h : l = c
      · simp only [h, if_true, true_and]
        exact ih cs
      · simp only [h, if_false, false_and]
        constructor
        · intro hc
          cases hc
        · intro hc
          exact absurd hc.1.symm h

theorem leadingDigits_eq_nil_iff (cs : List Char) :
    leadingDigits cs = [] ↔ ¬ ∃ d tl, cs = d :: tl ∧ d.isDigit = true := by
  cases cs with
  | nil => simp [leadingDigits]
  | cons c cs =>
    by_cases h : c.isDigit = true
    · simp [leadingDigits, h]
    · simp [leadingDigits, h]

theorem matchSceneIdHere_eq_none_iff (cs : List Char) :
    matchSceneIdHere cs = none ↔
      ¬ ∃ d tl, cs = "scene-".data ++ d :: tl ∧ d.isDigit = true := by
  unfold matchSceneIdHere
  cases hd : dropLiteral "scene-".data cs with
  | none =>
    simp only [true_iff]
    rintro ⟨d, tl, hcs, _⟩
    have := (dropLiteral_eq_some "scene-".data cs (d :: tl)).mpr hcs
    rw [hd] at this
    cases this
  | some rest =>
    have hcs := (dropLiteral_eq_some "scene-".data cs rest).mp hd
    simp only
    cases hl : leadingDigits rest with
    | nil =>
      simp only [true_iff]
      rintro ⟨d, tl, hcs2, hdig⟩
      rw [hcs] at hcs2
      have hrest : rest = d :: tl := List.append_cancel_left hcs2
      exact (leadingDigits_eq_nil_iff rest).mp hl ⟨d, tl, hrest, hdig⟩
    | cons g gs =>
      have hne : ¬ leadingDigits rest = [] := by
        rw [hl]
        exact List.cons_ne_nil _ _
      rw [leadingDigits_eq_nil_iff, not_not] at hne
      obtain ⟨d, tl, hrest, hdig⟩ := hne
      constructor
      · intro hc
        cases hc
      · intro hc
        exact absurd ⟨d, tl, by rw [hcs, hrest], hdig⟩ hc

theorem regexSearchSceneId_eq_none_iff (cs : List Char) :
    regexSearchSceneId cs = none ↔ ¬ containsSceneId cs := by
  induction cs with
  | nil =>
    simp only [regexSearchSceneId, true_iff]
    rintro ⟨pre, d, rest, h, _⟩
    have hlen := congrArg List.length h
    simp only [List.length_nil, List.length_append, List.length_cons] at hlen
    omega
  | cons c cs ih =>
    simp only [regexSearchSceneId]
    cases hm : matchSceneIdHere (c :: cs) with
    | some g =>
      have hne : ¬ matchSceneIdHere (c :: cs) = none := by
        rw [hm]
        exact Option.some_ne_none g
      rw [matchSceneIdHere_eq_none_iff, not_not] at hne
      obtain ⟨d, tl, hcs, hdig⟩ := hne
      constructor
      · intro hc
        cases hc
      · intro hc
        exact absurd ⟨[], d, tl, hcs, hdig⟩ hc
    | none =>
      simp only
      rw [ih]
      have hnone := (matchSceneIdHere_eq_none_iff (c :: cs)).mp hm
      constructor
      · rintro hno ⟨pre, d, rest, h, hdig⟩
        cases pre with
        | nil => exact hnone ⟨d, rest, h, hdig⟩
        | cons p pre =>
          rw [List.cons_append] at h
          injection h with _ h
          exact hno ⟨pre, d, rest, h, hdig⟩
      · rintro hno ⟨pre, d, rest, h, hdig⟩
        exact hno ⟨c :: pre, d, rest, by rw [h]; rfl, hdig⟩

theorem decodeAll_ok_of_mem {α : Type} (f : Json → Except Failure α) (js : List Json)
    (rs : List α) (h : decodeAll f js = Except.ok rs) (j : Json) (hj : j ∈ js) :
    ∃ r, f j = Except.ok r := by
  induction js generalizing rs with
  | nil => cases hj
  | cons j0 rest ih =>
    obtain ⟨r0, rs0, hr0, hrs, _⟩ := decodeAll_cons_ok _ _ _ _ h
    rcases List.mem_cons.mp hj with h1 | h1
    · subst h1
      exact ⟨r0, hr0⟩
    · exact ih rs0 hrs h1

theorem sceneJson2SceneInfo_of_name (j : Json) (name : String)
    (hname : sceneNameOf j = Except.ok name) :
    sceneJson2SceneInfo j =
      (stoi ((regexSearchSceneId name.data).getD []) >>= fun sceneId =>
        (j.key "token" >>= Json.toStr) >>= fun token =>
        (j.key "nbr_samples" >>= Json.toNum) >>= fun sampleNumber =>
        (j.key "name" >>= Json.toStr) >>= fun name0 =>
        (j.key "description" >>= Json.toStr) >>= fun description =>
        (j.key "first_sample_token" >>= Json.toStr) >>= fun firstSampleToken =>
        pure ⟨token, sampleNumber, sceneId, name0, description, firstSampleToken⟩) := by
  have h : sceneJson2SceneInfo j = (sceneNameOf j >>= fun sceneIdStr =>
      stoi ((regexSearchSceneId sceneIdStr.data).getD []) >>= fun sceneId =>
        (j.key "token" >>= Json.toStr) >>= fun token =>
        (j.key "nbr_samples" >>= Json.toNum) >>= fun sampleNumber =>
        (j.key "name" >>= Json.toStr) >>= fun name0 =>
        (j.key "description" >>= Json.toStr) >>= fun description =>
        (j.key "first_sample_token" >>= Json.toStr) >>= fun firstSampleToken =>
        pure ⟨token, sampleNumber, sceneId, name0, description, firstSampleToken⟩) := by
    simp only [sceneJson2SceneInfo, sceneNameOf, bind_assoc]
  rw [h, hname]
  rfl

theorem sceneJson2SceneInfo_no_id (j : Json) (name : String)
    (hname : sceneNameOf j = Except.ok name) (hno : ¬ containsSceneId name.data) :
    sceneJson2SceneInfo j = Except.error Failure.invalidArgument := by
  rw [sceneJson2SceneInfo_of_name j name hname,
    (regexSearchSceneId_eq_none_iff name.data).mpr hno]
  rfl

/-- C13 (amended). A scene name in which `scene-` immediately followed by a decimal digit
occurs nowhere is a decode-time failure: `loadScenesFromFile` fails on every scene
collection that contains a record with such a name. -/
theorem scene_name_without_id_fails (fsys : FileSystem) (filePath : String) (sceneJsons : Json)
    (j : Json) (name : String)
    (hfile : fsys filePath = FileContent.parsed sceneJsons)
    (hj : j ∈ sceneJsons.items)
    (hname : sceneNameOf j = Except.ok name)
    (hno : ¬ containsSceneId name.data) :
    ∃ e, loadScenesFromFile fsys filePath = Except.error e := by
  have hslurp : slurpJsonFile fsys filePath = Except.ok sceneJsons := by
    simp only [slurpJsonFile, hfile]
  have hread : loadScenesFromFile fsys filePath =
      decodeAll sceneJson2SceneInfo sceneJsons.items := by
    rw [loadScenesFromFile_eq]
    simp only [readScenes, hslurp]
    rfl
  rw [hread]
  cases hd : decodeAll sceneJson2SceneInfo sceneJsons.items with
  | error e => exact ⟨e, rfl⟩
  | ok rs =>
    obtain ⟨r, hr⟩ := decodeAll_ok_of_mem _ _ rs hd j hj
    rw [sceneJson2SceneInfo_no_id j name hname hno] at hr
    cases hr

theorem not_containsSceneId_example : ¬ containsSceneId "scene-x1".data := by
  rw [← regexSearchSceneId_eq_none_iff]
  rfl

/-- C13 (amended) at the directory `bad`, whose scene is named `scene-x1`. -/
theorem scene_name_without_id_fails_witness :
    oddNameFs "bad/scene.json" =
        FileContent.parsed (Json.array [sceneRecord "U" "scene-x1"]) ∧
      sceneRecord "U" "scene-x1" ∈ (Json.array [sceneRecord "U" "scene-x1"]).items ∧
      sceneNameOf (sceneRecord "U" "scene-x1") = Except.ok "scene-x1" ∧
      ¬ containsSceneId "scene-x1".data ∧
      loadScenesFromFile oddNameFs "bad/scene.json" = Except.error Failure.invalidArgument ∧
      ∃ e, loadScenesFromFile oddNameFs "bad/scene.json" = Except.error e :=
  ⟨rfl, List.mem_cons_self _ _, rfl, not_containsSceneId_example, rfl,
    scene_name_without_id_fails oddNameFs "bad/scene.json"
      (Json.array [sceneRecord "U" "scene-x1"]) (sceneRecord "U" "scene-x1") "scene-x1" rfl
      (List.mem_cons_self _ _) rfl not_containsSceneId_example⟩

/-- C13 as stated fails: the name `subscene-12x` is not `scene-` followed by digits (it
does not start with `scene-` and does not end with the digits), and `loadScenesFromFile`
produces a `SceneInfo` with scene id 12 for it. -/
theorem scene_name_unanchored_decodes :
    (¬ ∃ d, "subscene-12x".data = "scene-".data ++ d) ∧
      loadScenesFromFile oddNameFs "odd/scene.json" =
        Except.ok [exampleScene "T" "subscene-12x" 12] :=
  ⟨by
    rintro ⟨d, h⟩
    injection h with _ h
    injection h with h _
    exact absurd h (by decide), rfl⟩

theorem leadingDigits_of_all (d : List Char) (hdig : ∀ c ∈ d, c.isDigit = true) :
    leadingDigits d = d := by
  induction d with
  | nil => rfl
  | cons c cs ih =>
    have hc : c.isDigit = true := hdig c (List.mem_cons_self _ _)
    simp only [leadingDigits, hc, if_true]
    rw [ih (fun x hx => hdig x (List.mem_cons_of_mem _ hx))]

theorem regexSearchSceneId_of_form (d : List Char) (hne : d ≠ [])
    (hdig : ∀ c ∈ d, c.isDigit = true) :
    regexSearchSceneId ("scene-".data ++ d) = some d := by
  have hmatch : matchSceneIdHere ("scene-".data ++ d) = some d := by
    unfold matchSceneIdHere
    rw [(dropLiteral_eq_some "scene-".data ("scene-".data ++ d) d).mpr rfl]
    simp only
    rw [leadingDigits_of_all d hdig]
    cases d with
    | nil => exact absurd rfl hne
    | cons c cs => rfl
  have hcons : "scene-".data ++ d = 's' :: ("cene-".data ++ d) := rfl
  rw [hcons]
  simp only [regexSearchSceneId]
  rw [← hcons, hmatch]

theorem digitsValue_append (ds : List Char) (c : Char) :
    digitsValue (ds ++ [c]) = 10 * digitsValue ds + (c.toNat - 48) := by
  simp only [digitsValue, List.foldl_append, List.foldl_cons, List.foldl_nil]

theorem digitsValue_eq_decimalValue (d : List Char) : digitsValue d = decimalValue d := by
  induction d using List.reverseRecOn with
  | nil => rfl
  | append_singleton ds c ih =>
    rw [digitsValue_append, ih]
    simp only [decimalValue, List.reverse_append, List.reverse_cons, List.reverse_nil,
      List.nil_append, List.singleton_append, List.map_cons, Nat.ofDigits_cons]
    have h48 : '0'.toNat = 48 := rfl
    rw [h48]
    omega

theorem stoi_of_digits (d : List Char) (hne : d ≠ []) (hdig : ∀ c ∈ d, c.isDigit = true)
    (hfit : digitsValue d ≤ 2147483647) : stoi d = Except.ok (digitsValue d : Int) := by
  cases d with
  | nil => exact absurd rfl hne
  | cons c cs =>
    have hc : c.isDigit = true := hdig c (List.mem_cons_self _ _)
    have hspace : isSpace c = false := by
      cases hs : isSpace c with
      | false => rfl
      | true =>
        simp only [isSpace, Bool.or_eq_true, decide_eq_true_eq] at hs
        rcases hs with ((((h | h) | h) | h) | h) | h <;> subst h <;> exact absurd hc (by decide)
    have hminus : c ≠ '-' := fun h => by subst h; exact absurd hc (by decide)
    have hplus : c ≠ '+' := fun h => by subst h; exact absurd hc (by decide)
    have hdrop : List.dropWhile isSpace (c :: cs) = c :: cs := by
      simp only [List.dropWhile, hspace]
    have hlead := leadingDigits_of_all (c :: cs) hdig
    have hsign : (match c :: cs with
        | '-' :: r => (true, r)
        | '+' :: r => (false, r)
        | r => (false, r)) = (false, c :: cs) := by
      split
      · rename_i r heq
        injection heq with h1 _
        exact absurd h1 hminus
      · rename_i r heq
        injection heq with h1 _
        exact absurd h1 hplus
      · rfl
    unfold stoi
    simp only [hdrop, hsign, hlead]
    have hfit2 : ¬ ((digitsValue (c :: cs) : Int) < -2147483648 ∨
        2147483647 < (digitsValue (c :: cs) : Int)) := by
      omega
    simp only [Bool.false_eq_true, if_false, hfit2]

/-- C14. Scene-name parsing: for a scene record whose name is `scene-` followed by a
non-empty string `d` of decimal digits whose decimal value fits the 32-bit `int`, and whose
other fields decode, the decoded `SceneInfo` has the decimal value of `d` as scene id
(leading zeros contribute nothing) and the unmodified name as name. -/
theorem scene_name_parsing (j : Json) (name : String) (d : List Char) (token : Token)
    (sampleNumber : JsonNumber) (description : String) (firstSampleToken : Token)
    (hname : sceneNameOf j = Except.ok name)
    (hform : name.data = "scene-".data ++ d)
    (hne : d ≠ [])
    (hdig : ∀ c ∈ d, c.isDigit = true)
    (hfit : decimalValue d ≤ 2147483647)
    (htoken : (j.key "token" >>= Json.toStr) = Except.ok token)
    (hnumber : (j.key "nbr_samples" >>= Json.toNum) = Except.ok sampleNumber)
    (hdescription : (j.key "description" >>= Json.toStr) = Except.ok description)
    (hfirst : (j.key "first_sample_token" >>= Json.toStr) = Except.ok firstSampleToken) :
    sceneJson2SceneInfo j =
      Except.ok ⟨token, sampleNumber, (decimalValue d : Int), name, description,
        firstSampleToken⟩ := by
  have hname2 : (j.key "name" >>= Json.toStr) = Except.ok name := hname
  rw [sceneJson2SceneInfo_of_name j name hname, hform, regexSearchSceneId_of_form d hne hdig,
    Option.getD_some, stoi_of_digits d hne hdig (by rw [digitsValue_eq_decimalValue]; exact hfit),
    htoken, hnumber, hname2, hdescription, hfirst, digitsValue_eq_decimalValue]
  rfl

/-- C14 at the scene record named `scene-0061`: scene id 61. -/
theorem scene_name_parsing_witness :
    sceneNameOf (sceneRecord "X" "scene-0061") = Except.ok "scene-0061" ∧
      "scene-0061".data = "scene-".data ++ ['0', '0', '6', '1'] ∧
      decimalValue ['0', '0', '6', '1'] = 61 ∧
      sceneJson2SceneInfo (sceneRecord "X" "scene-0061") =
        Except.ok ⟨"X", ⟨2, 0⟩, (decimalValue ['0', '0', '6', '1'] : Int), "scene-0061",
          "drive", "p1"⟩ ∧
      sceneJson2SceneInfo (sceneRecord "X" "scene-0061") =
        Except.ok (exampleScene "X" "scene-0061" 61) :=
  ⟨rfl, rfl, by decide,
    scene_name_parsing (sceneRecord "X" "scene-0061") "scene-0061" ['0', '0', '6', '1'] "X"
      ⟨2, 0⟩ "drive" "p1" rfl rfl (by decide) (by decide) (by decide) rfl rfl rfl rfl,
    rfl⟩

/-! ## The events a construction can stop at -/

theorem errs_bind {α β : Type} (P : Failure → Prop) (x : Except Failure α)
    (f : α → Except Failure β) (hx : ∀ e, x = Except.error e → P e)
    (hf : ∀ a e, f a = Except.error e → P e) :
    ∀ e, (x >>= f) = Except.error e → P e := by
  intro e h
  cases x with
  | error e0 =>
    injection h with h
    exact h ▸ hx e0 rfl
  | ok a => exact hf a e h

theorem errs_pure {α : Type} (P : Failure → Prop) (a : α) :
    ∀ e, (pure a : Except Failure α) = Except.error e → P e := by
  intro e h
  cases h

theorem errs_map {α β : Type} (P : Failure → Prop) (g : α → β) (x : Except Failure α)
    (hx : ∀ e, x = Except.error e → P e) :
    ∀ e, (g <$> x) = Except.error e → P e := by
  intro e h
  cases x with
  | error e0 =>
    injection h with h
    exact h ▸ hx e0 rfl
  | ok a => cases h

theorem errs_key (j : Json) (f : String) :
    ∀ e, j.key f = Except.error e → e ≠ Failure.endIteratorDeref := by
  intro e h
  cases j with
  | object members =>
    simp only [Json.key] at h
    split at h
    · cases h
    · injection h with h
      subst h
      decide
  | _ =>
    simp only [Json.key] at h
    injection h with h
    subst h
    decide

theorem errs_idx (j : Json) (i : Nat) :
    ∀ e, j.idx i = Except.error e → e ≠ Failure.endIteratorDeref := by
  intro e h
  cases j with
  | array elems =>
    simp only [Json.idx] at h
    split at h
    · cases h
    · injection h with h
      subst h
      decide
  | _ =>
    simp only [Json.idx] at h
    injection h with h
    subst h
    decide

theorem errs_toStr (j : Json) :
    ∀ e, j.toStr = Except.error e → e ≠ Failure.endIteratorDeref := by
  intro e h
  cases j <;> simp only [Json.toStr] at h <;> first | (injection h with h; subst h; decide) | cases h

theorem errs_toNum (j : Json) :
    ∀ e, j.toNum = Except.error e → e ≠ Failure.endIteratorDeref := by
  intro e h
  cases j <;> simp only [Json.toNum] at h <;> first | (injection h with h; subst h; decide) | cases h

theorem errs_toBool (j : Json) :
    ∀ e, j.toBool = Except.error e → e ≠ Failure.endIteratorDeref := by
  intro e h
  cases j <;> simp only [Json.toBool] at h <;> first | (injection h with h; subst h; decide) | cases h

theorem errs_stoi (s : List Char) :
    ∀ e, stoi s = Except.error e → e ≠ Failure.endIteratorDeref := by
  intro e h
  unfold stoi at h
  simp only at h
  split at h
  · injection h with h
    subst h
    decide
  · rename_i d ds _
    split at h <;> (split at h <;> first | (injection h with h; subst h; decide) | injection h)

theorem errs_slurpJsonFile (fsys : FileSystem) (p : String) :
    ∀ e, slurpJsonFile fsys p = Except.error e → e ≠ Failure.endIteratorDeref := by
  intro e h
  unfold slurpJsonFile at h
  split at h
  · injection h with h
    subst h
    decide
  · injection h with h
    subst h
    decide
  · cases h

theorem errs_decodeAll {α : Type} (P : Failure → Prop) (f : Json → Except Failure α)
    (hf : ∀ j e, f j = Except.error e → P e) (js : List Json) :
    ∀ e, decodeAll f js = Except.error e → P e := by
  induction js with
  | nil =>
    intro e h
    cases h
  | cons j rest ih =>
    simp only [decodeAll]
    exact errs_bind P _ _ (hf j) (fun a => errs_bind P _ _ ih (fun as => errs_pure P _))

theorem errs_sceneJson2SceneInfo (j : Json) :
    ∀ e, sceneJson2SceneInfo j = Except.error e → e ≠ Failure.endIteratorDeref := by
  unfold sceneJson2SceneInfo
  repeat first
    | exact errs_pure _ _
    | refine errs_bind _ _ _ (errs_key _ _) (fun _ => ?_)
    | refine errs_bind _ _ _ (errs_toStr _) (fun _ => ?_)
    | refine errs_bind _ _ _ (errs_toNum _) (fun _ => ?_)
    | refine errs_bind _ _ _ (errs_stoi _) (fun _ => ?_)

theorem errs_decodeSample (j : Json) :
    ∀ e, decodeSample j = Except.error e → e ≠ Failure.endIteratorDeref := by
  unfold decodeSample
  repeat first
    | exact errs_pure _ _
    | refine errs_bind _ _ _ (errs_key _ _) (fun _ => ?_)
    | refine errs_bind _ _ _ (errs_toStr _) (fun _ => ?_)
    | refine errs_bind _ _ _ (errs_toNum _) (fun _ => ?_)

theorem errs_decodeSampleData (j : Json) :
    ∀ e, decodeSampleData j = Except.error e → e ≠ Failure.endIteratorDeref := by
  unfold decodeSampleData
  repeat first
    | exact errs_pure _ _
    | refine errs_bind _ _ _ (errs_key _ _) (fun _ => ?_)
    | refine errs_bind _ _ _ (errs_toStr _) (fun _ => ?_)
    | refine errs_bind _ _ _ (errs_toNum _) (fun _ => ?_)
    | refine errs_bind _ _ _ (errs_toBool _) (fun _ => ?_)

theorem errs_egoPoseJson2EgoPoseInfo (j : Json) :
    ∀ e, egoPoseJson2EgoPoseInfo j = Except.error e → e ≠ Failure.endIteratorDeref := by
  unfold egoPoseJson2EgoPoseInfo
  repeat first
    | exact errs_pure _ _
    | refine errs_bind _ _ _ (errs_key _ _) (fun _ => ?_)
    | refine errs_bind _ _ _ (errs_idx _ _) (fun _ => ?_)
    | refine errs_bind _ _ _ (errs_toNum _) (fun _ => ?_)

theorem errs_resolveEgoPose (c : StdMap Token) (j : Json) :
    ∀ e, resolveEgoPose c j = Except.error e → e ≠ Failure.endIteratorDeref := by
  unfold resolveEgoPose egoPoseTokenOf
  simp only [bind_assoc]
  refine errs_bind _ _ _ (errs_key _ _) (fun _ => ?_)
  refine errs_bind _ _ _ (errs_toStr _) (fun t => ?_)
  cases c.find t with
  | none => exact errs_pure _ _
  | some s =>
    exact errs_bind _ _ _ (errs_egoPoseJson2EgoPoseInfo j) (fun _ => errs_pure _ _)

theorem errs_loadScenesFromFile (fsys : FileSystem) (p : String) :
    ∀ e, loadScenesFromFile fsys p = Except.error e → e ≠ Failure.endIteratorDeref := by
  rw [loadScenesFromFile_eq]
  unfold readScenes
  exact errs_bind _ _ _ (errs_slurpJsonFile fsys p)
    (fun J => errs_decodeAll _ _ errs_sceneJson2SceneInfo J.items)

theorem errs_loadSampleInfos (fsys : FileSystem) (p : String) :
    ∀ e, loadSampleInfos fsys p = Except.error e → e ≠ Failure.endIteratorDeref := by
  rw [loadSampleInfos_eq]
  unfold readSamples
  exact errs_map _ _ _ (errs_bind _ _ _ (errs_slurpJsonFile fsys p)
    (fun J => errs_decodeAll _ _ errs_decodeSample J.items))

theorem errs_loadSampleDataInfos (fsys : FileSystem) (p : String) :
    ∀ e, loadSampleDataInfos fsys p = Except.error e → e ≠ Failure.endIteratorDeref := by
  rw [loadSampleDataInfos_eq]
  unfold readSampleDatas
  exact errs_map _ _ _ (errs_bind _ _ _ (errs_slurpJsonFile fsys p)
    (fun J => errs_decodeAll _ _ errs_decodeSampleData J.items))

theorem errs_loadEgoPoseInfos (fsys : FileSystem) (p : String) (c : StdMap Token) :
    ∀ e, loadEgoPoseInfos fsys p c = Except.error e → e ≠ Failure.endIteratorDeref := by
  rw [loadEgoPoseInfos_eq]
  unfold readEgoPoseJsons
  refine errs_bind _ _ _ (errs_bind _ _ _ (errs_slurpJsonFile fsys p) (fun _ => errs_pure _ _))
    (fun js => errs_map _ _ _ (errs_decodeAll _ _ (errs_resolveEgoPose c) js))

/-- The event at which a construction stops is raised by the file access or by the
decoding of a record. -/
theorem errs_loadFromDirectory (fsys : FileSystem) (dir : String) (r0 : MetaDataReader)
    (e : Failure) (h : (loadFromDirectory fsys dir r0).1 = Except.error e) :
    e ≠ Failure.endIteratorDeref := by
  unfold loadFromDirectory at h
  simp only at h
  split at h
  · rename_i e1 h1
    injection h with h
    exact h ▸ errs_loadScenesFromFile _ _ e1 h1
  · split at h
    · rename_i e1 h1
      injection h with h
      exact h ▸ errs_loadSampleInfos _ _ e1 h1
    · split at h
      · rename_i e1 h1
        injection h with h
        exact h ▸ errs_loadSampleDataInfos _ _ e1 h1
      · split at h
        · rename_i e1 h1
          injection h with h
          exact h ▸ errs_loadEgoPoseInfos _ _ _ e1 h1
        · cases h

theorem fails_of_event (ndebug : Bool) (fsys : FileSystem) (dir : String)
    (r0 : MetaDataReader) (e : Failure)
    (h : (loadFromDirectory fsys dir r0).1 = Except.error e)
    (hm : e.manifestation ndebug ≠ Manifestation.undefined) :
    (constructionOutcome ndebug fsys dir r0).fails = true := by
  unfold constructionOutcome
  cases hl : loadFromDirectory fsys dir r0 with
  | mk res state =>
    rw [hl] at h
    simp only at h
    subst h
    simp only
    cases hk : e.manifestation ndebug with
    | exception => rfl
    | abort => rfl
    | undefined => exact absurd hk hm

/-! ## Required fields -/

theorem sceneJson2SceneInfo_fields (j : Json) (r : SceneInfo)
    (h : sceneJson2SceneInfo j = Except.ok r) :
    ∀ f ∈ sceneFields, ∃ v, j.key f = Except.ok v := by
  simp only [sceneJson2SceneInfo, bind_assoc] at h
  obtain ⟨v1, k1, h⟩ := Except.bind_eq_ok _ _ _ h
  obtain ⟨_, _, h⟩ := Except.bind_eq_ok _ _ _ h
  obtain ⟨_, _, h⟩ := Except.bind_eq_ok _ _ _ h
  obtain ⟨v2, k2, h⟩ := Except.bind_eq_ok _ _ _ h
  obtain ⟨_, _, h⟩ := Except.bind_eq_ok _ _ _ h
  obtain ⟨v3, k3, h⟩ := Except.bind_eq_ok _ _ _ h
  obtain ⟨_, _, h⟩ := Except.bind_eq_ok _ _ _ h
  obtain ⟨_, _, h⟩ := Except.bind_eq_ok _ _ _ h
  obtain ⟨_, _, h⟩ := Except.bind_eq_ok _ _ _ h
  obtain ⟨v4, k4, h⟩ := Except.bind_eq_ok _ _ _ h
  obtain ⟨_, _, h⟩ := Except.bind_eq_ok _ _ _ h
  obtain ⟨v5, k5, h⟩ := Except.bind_eq_ok _ _ _ h
  intro f hf
  simp only [sceneFields, List.mem_cons, List.mem_singleton, List.not_mem_nil, or_false] at hf
  rcases hf with hf | hf | hf | hf | hf <;> subst hf
  · exact ⟨v1, k1⟩
  · exact ⟨v2, k2⟩
  · exact ⟨v3, k3⟩
  · exact ⟨v4, k4⟩
  · exact ⟨v5, k5⟩

theorem decodeSample_fields (j : Json) (r : SampleInfo) (h : decodeSample j = Except.ok r) :
    ∀ f ∈ sampleFields, ∃ v, j.key f = Except.ok v := by
  simp only [decodeSample, bind_assoc] at h
  obtain ⟨v1, k1, h⟩ := Except.bind_eq_ok _ _ _ h
  obtain ⟨_, _, h⟩ := Except.bind_eq_ok _ _ _ h
  obtain ⟨v2, k2, h⟩ := Except.bind_eq_ok _ _ _ h
  obtain ⟨_, _, h⟩ := Except.bind_eq_ok _ _ _ h
  obtain ⟨v3, k3, h⟩ := Except.bind_eq_ok _ _ _ h
  intro f hf
  simp only [sampleFields, List.mem_cons, List.mem_singleton, List.not_mem_nil, or_false] at hf
  rcases hf with hf | hf | hf <;> subst hf
  · exact ⟨v1, k1⟩
  · exact ⟨v2, k2⟩
  · exact ⟨v3, k3⟩

theorem decodeSampleData_fields (j : Json) (r : Token × SampleDataInfo)
    (h : decodeSampleData j = Except.ok r) :
    ∀ f ∈ sampleDataFields, ∃ v, j.key f = Except.ok v := by
  simp only [decodeSampleData, bind_assoc] at h
  obtain ⟨v1, k1, h⟩ := Except.bind_eq_ok _ _ _ h
  obtain ⟨_, _, h⟩ := Except.bind_eq_ok _ _ _ h
  obtain ⟨v2, k2, h⟩ := Except.bind_eq_ok _ _ _ h
  obtain ⟨_, _, h⟩ := Except.bind_eq_ok _ _ _ h
  obtain ⟨v3, k3, h⟩ := Except.bind_eq_ok _ _ _ h
  obtain ⟨_, _, h⟩ := Except.bind_eq_ok _ _ _ h
  obtain ⟨v4, k4, h⟩ := Except.bind_eq_ok _ _ _ h
  obtain ⟨_, _, h⟩ := Except.bind_eq_ok _ _ _ h
  obtain ⟨v5, k5, h⟩ := Except.bind_eq_ok _ _ _ h
  obtain ⟨_, _, h⟩ := Except.bind_eq_ok _ _ _ h
  obtain ⟨v6, k6, h⟩ := Except.bind_eq_ok _ _ _ h
  obtain ⟨_, _, h⟩ := Except.bind_eq_ok _ _ _ h
  obtain ⟨v7, k7, h⟩ := Except.bind_eq_ok _ _ _ h
  obtain ⟨_, _, h⟩ := Except.bind_eq_ok _ _ _ h
  obtain ⟨v8, k8, h⟩ := Except.bind_eq_ok _ _ _ h
  intro f hf
  simp only [sampleDataFields, List.mem_cons, List.mem_singleton, List.not_mem_nil,
    or_false] at hf
  rcases hf with hf | hf | hf | hf | hf | hf | hf | hf <;> subst hf
  · exact ⟨v1, k1⟩
  · exact ⟨v2, k2⟩
  · exact ⟨v3, k3⟩
  · exact ⟨v4, k4⟩
  · exact ⟨v5, k5⟩
  · exact ⟨v6, k6⟩
  · exact ⟨v7, k7⟩
  · exact ⟨v8, k8⟩

theorem egoPoseTokenOf_field (j : Json) (t : Token) (h : egoPoseTokenOf j = Except.ok t) :
    ∃ v, j.key "token" = Except.ok v := by
  simp only [egoPoseTokenOf] at h
  obtain ⟨v, k, _⟩ := Except.bind_eq_ok _ _ _ h
  exact ⟨v, k⟩

theorem egoPoseJson2EgoPoseInfo_fields (j : Json) (pose : EgoPoseInfo)
    (h : egoPoseJson2EgoPoseInfo j = Except.ok pose) :
    ∀ f ∈ egoPoseFields, ∃ v, j.key f = Except.ok v := by
  simp only [egoPoseJson2EgoPoseInfo, bind_assoc] at h
  obtain ⟨v1, k1, h⟩ := Except.bind_eq_ok _ _ _ h
  obtain ⟨_, _, h⟩ := Except.bind_eq_ok _ _ _ h
  obtain ⟨_, _, h⟩ := Except.bind_eq_ok _ _ _ h
  obtain ⟨_, _, h⟩ := Except.bind_eq_ok _ _ _ h
  obtain ⟨_, _, h⟩ := Except.bind_eq_ok _ _ _ h
  obtain ⟨_, _, h⟩ := Except.bind_eq_ok _ _ _ h
  obtain ⟨_, _, h⟩ := Except.bind_eq_ok _ _ _ h
  obtain ⟨_, _, h⟩ := Except.bind_eq_ok _ _ _ h
  obtain ⟨_, _, h⟩ := Except.bind_eq_ok _ _ _ h
  obtain ⟨v2, k2, h⟩ := Except.bind_eq_ok _ _ _ h
  obtain ⟨_, _, h⟩ := Except.bind_eq_ok _ _ _ h
  obtain ⟨_, _, h⟩ := Except.bind_eq_ok _ _ _ h
  obtain ⟨_, _, h⟩ := Except.bind_eq_ok _ _ _ h
  obtain ⟨_, _, h⟩ := Except.bind_eq_ok _ _ _ h
  obtain ⟨_, _, h⟩ := Except.bind_eq_ok _ _ _ h
  obtain ⟨_, _, h⟩ := Except.bind_eq_ok _ _ _ h
  obtain ⟨_, _, h⟩ := Except.bind_eq_ok _ _ _ h
  obtain ⟨_, _, h⟩ := Except.bind_eq_ok _ _ _ h
  obtain ⟨_, _, h⟩ := Except.bind_eq_ok _ _ _ h
  obtain ⟨_, _, h⟩ := Except.bind_eq_ok _ _ _ h
  obtain ⟨_, _, h⟩ := Except.bind_eq_ok _ _ _ h
  obtain ⟨v3, k3, h⟩ := Except.bind_eq_ok _ _ _ h
  intro f hf
  simp only [egoPoseFields, List.mem_cons, List.mem_singleton, List.not_mem_nil, or_false] at hf
  rcases hf with hf | hf | hf <;> subst hf
  · exact ⟨v1, k1⟩
  · exact ⟨v2, k2⟩
  · exact ⟨v3, k3⟩

theorem records_decode {α : Type} (f : Json → Except Failure α) (fsys : FileSystem)
    (p : String) (rs : List α)
    (h : (slurpJsonFile fsys p >>= fun j => decodeAll f j.items) = Except.ok rs) :
    ∀ j ∈ recordsOf fsys p, ∃ r, f j = Except.ok r := by
  obtain ⟨J, hJ, hd⟩ := Except.bind_eq_ok _ _ _ h
  intro j hj
  simp only [recordsOf, hJ] at hj
  exact decodeAll_ok_of_mem f J.items rs hd j hj

theorem loadFromDirectory_fields (fsys : FileSystem) (dir : String) (r0 : MetaDataReader)
    (hok : (loadFromDirectory fsys dir r0).1 = Except.ok ()) :
    (∀ j ∈ recordsOf fsys (joinPath dir "scene.json"), ∀ f ∈ sceneFields,
        ∃ v, j.key f = Except.ok v) ∧
      (∀ j ∈ recordsOf fsys (joinPath dir "sample.json"), ∀ f ∈ sampleFields,
        ∃ v, j.key f = Except.ok v) ∧
      (∀ j ∈ recordsOf fsys (joinPath dir "sample_data.json"), ∀ f ∈ sampleDataFields,
        ∃ v, j.key f = Except.ok v) ∧
      (∀ j ∈ recordsOf fsys (joinPath dir "ego_pose.json"), ∃ v, j.key "token" = Except.ok v) ∧
      (∀ j ∈ recordsOf fsys (joinPath dir "ego_pose.json"), ∀ samples sds t,
        readSamples fsys (joinPath dir "sample.json") = Except.ok samples →
        readSampleDatas fsys (joinPath dir "sample_data.json") = Except.ok sds →
        egoPoseTokenOf j = Except.ok t →
        ((closureOf samples sds).find t).isSome = true →
        ∀ f ∈ egoPoseFields, ∃ v, j.key f = Except.ok v) := by
  have hload : loadFromDirectory fsys dir r0 =
      (Except.ok (), (loadFromDirectory fsys dir r0).2) := Prod.ext hok rfl
  obtain ⟨scenes, samples, sds, poses, g0, g1, g2, g3, _⟩ :=
    loadFromDirectory_ok fsys dir r0 _ hload
  rw [loadEgoPoseInfos_eq] at g3
  obtain ⟨js, hjs, g3⟩ := Except.bind_eq_ok _ _ _ g3
  obtain ⟨rs, hrs, _⟩ := Except.map_eq_ok _ _ _ g3
  have hego : ∀ j ∈ recordsOf fsys (joinPath dir "ego_pose.json"),
      ∃ r, resolveEgoPose (closureOf samples sds) j = Except.ok r := by
    intro j hj
    obtain ⟨J, hJ, hitems⟩ := Except.bind_eq_ok _ _ _ hjs
    injection hitems with hitems
    simp only [recordsOf, hJ] at hj
    rw [hitems] at hj
    exact decodeAll_ok_of_mem _ js rs hrs j hj
  refine ⟨?_, ?_, ?_, ?_, ?_⟩
  · intro j hj
    obtain ⟨r, hr⟩ := records_decode sceneJson2SceneInfo fsys _ scenes g0 j hj
    exact sceneJson2SceneInfo_fields j r hr
  · intro j hj
    obtain ⟨r, hr⟩ := records_decode decodeSample fsys _ samples g1 j hj
    exact decodeSample_fields j r hr
  · intro j hj
    obtain ⟨r, hr⟩ := records_decode decodeSampleData fsys _ sds g2 j hj
    exact decodeSampleData_fields j r hr
  · intro j hj
    obtain ⟨r, hr⟩ := hego j hj
    obtain ⟨t, ht, _⟩ := resolveEgoPose_ok _ j r hr
    exact egoPoseTokenOf_field j t ht
  · intro j hj samples0 sds0 t h1 h2 ht hfound
    rw [g1] at h1
    rw [g2] at h2
    injection h1 with h1
    injection h2 with h2
    subst h1 h2
    obtain ⟨r, hr⟩ := hego j hj
    obtain ⟨t0, ht0, hcase⟩ := resolveEgoPose_ok _ j r hr
    rw [ht] at ht0
    injection ht0 with ht0
    subst ht0
    rcases hcase with ⟨hnone, _⟩ | ⟨X, pose, _, hpose, _⟩
    · rw [hnone] at hfound
      cases hfound
    · exact egoPoseJson2EgoPoseInfo_fields j pose hpose

/-- C15 (amended). Absent required field, in a build with assertions (`NDEBUG` not defined):
when a scene, sample or sample-data record lacks one of the fields read from it, when an
ego-pose record lacks its token, or when an ego-pose record whose token is a key of the
closure lacks translation, rotation or timestamp, the constructor does not complete: it
ends with an exception or with an abort at the assertion of the JSON library, unless the
run stops first at an array read past its end, which is undefined behaviour. (The pose
fields of an ego-pose record whose token is no key of the closure are never read. With
`NDEBUG` the read of an absent key is undefined behaviour, and nothing is stated for that
build.) -/
theorem missing_field_fails (fsys : FileSystem) (dir : String) (r0 : MetaDataReader)
    (hmissing :
      (∃ j ∈ recordsOf fsys (joinPath dir "scene.json"), ∃ f ∈ sceneFields, lacksField j f) ∨
      (∃ j ∈ recordsOf fsys (joinPath dir "sample.json"), ∃ f ∈ sampleFields,
        lacksField j f) ∨
      (∃ j ∈ recordsOf fsys (joinPath dir "sample_data.json"), ∃ f ∈ sampleDataFields,
        lacksField j f) ∨
      (∃ j ∈ recordsOf fsys (joinPath dir "ego_pose.json"), lacksField j "token") ∨
      (∃ j ∈ recordsOf fsys (joinPath dir "ego_pose.json"), ∃ samples sds t,
        readSamples fsys (joinPath dir "sample.json") = Except.ok samples ∧
        readSampleDatas fsys (joinPath dir "sample_data.json") = Except.ok sds ∧
        egoPoseTokenOf j = Except.ok t ∧
        ((closureOf samples sds).find t).isSome = true ∧
        ∃ f ∈ egoPoseFields, lacksField j f)) :
    (constructionOutcome false fsys dir r0).fails = true ∨
      (loadFromDirectory fsys dir r0).1 = Except.error Failure.outOfBounds := by
  cases hres : (loadFromDirectory fsys dir r0).1 with
  | error e =>
    by_cases hb : e = Failure.outOfBounds
    · exact Or.inr (congrArg Except.error hb)
    · refine Or.inl (fails_of_event false fsys dir r0 e hres ?_)
      have hne := errs_loadFromDirectory fsys dir r0 e hres
      cases e with
      | outOfBounds => exact absurd rfl hb
      | endIteratorDeref => exact absurd rfl hne
      | _ => decide
  | ok u =>
    obtain ⟨a1, a2, a3, a4, a5⟩ := loadFromDirectory_fields fsys dir r0 hres
    rcases hmissing with ⟨j, hj, f, hf, hl⟩ | ⟨j, hj, f, hf, hl⟩ | ⟨j, hj, f, hf, hl⟩ |
      ⟨j, hj, hl⟩ | ⟨j, hj, samples, sds, t, h1, h2, ht, hfound, f, hf, hl⟩
    · obtain ⟨v, hv⟩ := a1 j hj f hf
      exact absurd hv (hl v)
    · obtain ⟨v, hv⟩ := a2 j hj f hf
      exact absurd hv (hl v)
    · obtain ⟨v, hv⟩ := a3 j hj f hf
      exact absurd hv (hl v)
    · obtain ⟨v, hv⟩ := a4 j hj
      exact absurd hv (hl v)
    · obtain ⟨v, hv⟩ := a5 j hj samples sds t h1 h2 ht hfound f hf
      exact absurd hv (hl v)

theorem tokenOnlyRecord_lacks (token field : String) (hf : field ≠ "token") :
    lacksField (tokenOnlyRecord token) field := by
  intro v h
  have hne : ¬ "token" = field := fun h0 => hf h0.symm
  simp [tokenOnlyRecord, Json.key, lookupMember, hne] at h

/-- C15 (amended) at the directory `data` whose ego-pose file holds one record with the
token Ea, a key of the closure, and no pose fields: the run stops at the read of the absent
key `translation`; in a build with assertions the constructor aborts. (With `NDEBUG` the
same run is undefined behaviour.) -/
theorem missing_field_fails_witness :
    tokenOnlyRecord "Ea" ∈ recordsOf (exampleFs [tokenOnlyRecord "Ea"])
        (joinPath "data" "ego_pose.json") ∧
      readSamples (exampleFs [tokenOnlyRecord "Ea"]) (joinPath "data" "sample.json") =
        Except.ok exampleSamples ∧
      readSampleDatas (exampleFs [tokenOnlyRecord "Ea"]) (joinPath "data" "sample_data.json") =
        Except.ok exampleSampleDatas ∧
      egoPoseTokenOf (tokenOnlyRecord "Ea") = Except.ok "Ea" ∧
      ((closureOf exampleSamples exampleSampleDatas).find "Ea").isSome = true ∧
      "translation" ∈ egoPoseFields ∧
      lacksField (tokenOnlyRecord "Ea") "translation" ∧
      (loadFromDirectory (exampleFs [tokenOnlyRecord "Ea"]) "data" MetaDataReader.fresh).1 =
        Except.error Failure.missingKey ∧
      constructionOutcome false (exampleFs [tokenOnlyRecord "Ea"]) "data" MetaDataReader.fresh =
        RunOutcome.aborted ∧
      constructionOutcome true (exampleFs [tokenOnlyRecord "Ea"]) "data" MetaDataReader.fresh =
        RunOutcome.undefined ∧
      ((constructionOutcome false (exampleFs [tokenOnlyRecord "Ea"]) "data"
          MetaDataReader.fresh).fails = true ∨
        (loadFromDirectory (exampleFs [tokenOnlyRecord "Ea"]) "data" MetaDataReader.fresh).1 =
          Except.error Failure.outOfBounds) :=
  ⟨List.mem_cons_self _ _, rfl, rfl, rfl, rfl, by decide,
    tokenOnlyRecord_lacks "Ea" "translation" (by decide), rfl, rfl, rfl,
    missing_field_fails (exampleFs [tokenOnlyRecord "Ea"]) "data" MetaDataReader.fresh
      (Or.inr (Or.inr (Or.inr (Or.inr
        ⟨tokenOnlyRecord "Ea", List.mem_cons_self _ _, exampleSamples, exampleSampleDatas,
          "Ea", rfl, rfl, rfl, rfl, "translation", by decide,
          tokenOnlyRecord_lacks "Ea" "translation" (by decide)⟩))))⟩

/-- C15 as stated fails: the ego-pose file of `examplePosesWithOrphans` holds the record
with token E3, which lacks translation, rotation and timestamp; its token is no key of the
closure, no field of it other than the token is read, and construction completes, in a
build with assertions as well as with `NDEBUG`. -/
theorem missing_pose_fields_of_orphan_ignored :
    tokenOnlyRecord "E3" ∈ recordsOf (exampleFs examplePosesWithOrphans)
        (joinPath "data" "ego_pose.json") ∧
      lacksField (tokenOnlyRecord "E3") "translation" ∧
      lacksField (tokenOnlyRecord "E3") "rotation" ∧
      lacksField (tokenOnlyRecord "E3") "timestamp" ∧
      (loadFromDirectory (exampleFs examplePosesWithOrphans) "data" MetaDataReader.fresh).1 =
        Except.ok () ∧
      ∀ ndebug, ∃ state, constructionOutcome ndebug (exampleFs examplePosesWithOrphans) "data"
        MetaDataReader.fresh = RunOutcome.completed state :=
  ⟨by
      show tokenOnlyRecord "E3" ∈ examplePosesWithOrphans
      simp [examplePosesWithOrphans, tokenOnlyRecord],
    tokenOnlyRecord_lacks "E3" "translation" (by decide),
    tokenOnlyRecord_lacks "E3" "rotation" (by decide),
    tokenOnlyRecord_lacks "E3" "timestamp" (by decide), rfl, fun _ => ⟨_, rfl⟩⟩

/-! ## Idempotence -/

theorem loadFromDirectory_ok_loaders (fsys : FileSystem) (dir : String) (r0 r : MetaDataReader)
    (h : loadFromDirectory fsys dir r0 = (Except.ok (), r)) :
    ∃ scenes s2s s2sd poses,
      loadScenesFromFile fsys (joinPath dir "scene.json") = Except.ok scenes ∧
      loadSampleInfos fsys (joinPath dir "sample.json") = Except.ok s2s ∧
      loadSampleDataInfos fsys (joinPath dir "sample_data.json") = Except.ok s2sd ∧
      loadEgoPoseInfos fsys (joinPath dir "ego_pose.json") (walkScenes s2s ([], s2sd)).1 =
        Except.ok poses ∧
      r = ⟨scenes, s2s, (walkScenes s2s ([], s2sd)).2, poses, true⟩ := by
  unfold loadFromDirectory at h
  cases h1 : loadScenesFromFile fsys (joinPath dir "scene.json") with
  | error e => simp [h1] at h
  | ok scenes =>
    cases h2 : loadSampleInfos fsys (joinPath dir "sample.json") with
    | error e => simp [h1, h2] at h
    | ok s2s =>
      cases h3 : loadSampleDataInfos fsys (joinPath dir "sample_data.json") with
      | error e => simp [h1, h2, h3] at h
      | ok s2sd =>
        cases h4 : loadEgoPoseInfos fsys (joinPath dir "ego_pose.json")
            (walkScenes s2s ([], s2sd)).1 with
        | error e => simp [h1, h2, h3, h4] at h
        | ok poses =>
          simp only [h1, h2, h3, h4] at h
          exact ⟨scenes, s2s, s2sd, poses, rfl, rfl, rfl, h4, (congrArg Prod.snd h).symm⟩

theorem loadFromDirectory_of_loaders (fsys : FileSystem) (dir : String) (r1 : MetaDataReader)
    (scenes : List SceneInfo) (s2s : StdMap (List SampleInfo))
    (s2sd : StdMap (List SampleDataInfo)) (poses : StdMap (List EgoPoseInfo))
    (h1 : loadScenesFromFile fsys (joinPath dir "scene.json") = Except.ok scenes)
    (h2 : loadSampleInfos fsys (joinPath dir "sample.json") = Except.ok s2s)
    (h3 : loadSampleDataInfos fsys (joinPath dir "sample_data.json") = Except.ok s2sd)
    (h4 : loadEgoPoseInfos fsys (joinPath dir "ego_pose.json") (walkScenes s2s ([], s2sd)).1 =
      Except.ok poses) :
    loadFromDirectory fsys dir r1 =
      (Except.ok (), ⟨scenes, s2s, (walkScenes s2s ([], s2sd)).2, poses, true⟩) := by
  unfold loadFromDirectory
  simp only [h1, h2, h3, h4]

theorem slurpJsonFile_congr (fsys fsys0 : FileSystem) (p : String) (h : fsys0 p = fsys p) :
    slurpJsonFile fsys0 p = slurpJsonFile fsys p := by
  simp only [slurpJsonFile, h]

theorem loadFromDirectory_fail_scenes (fsys : FileSystem) (dir : String) (r1 : MetaDataReader)
    (e : Failure)
    (h1 : loadScenesFromFile fsys (joinPath dir "scene.json") = Except.error e) :
    loadFromDirectory fsys dir r1 = (Except.error e, r1) := by
  unfold loadFromDirectory
  simp only [h1]

theorem loadFromDirectory_fail_samples (fsys : FileSystem) (dir : String)
    (r1 : MetaDataReader) (e : Failure) (scenes : List SceneInfo)
    (h1 : loadScenesFromFile fsys (joinPath dir "scene.json") = Except.ok scenes)
    (h2 : loadSampleInfos fsys (joinPath dir "sample.json") = Except.error e) :
    loadFromDirectory fsys dir r1 =
      (Except.error e, ⟨scenes, r1.scene2Samples, r1.sample2SampleData, r1.scene2EgoPose,
        r1.loadFromDirectoryCalled⟩) := by
  unfold loadFromDirectory
  simp only [h1, h2]

theorem loadFromDirectory_fail_sampleDatas (fsys : FileSystem) (dir : String)
    (r1 : MetaDataReader) (e : Failure) (scenes : List SceneInfo)
    (s2s : StdMap (List SampleInfo))
    (h1 : loadScenesFromFile fsys (joinPath dir "scene.json") = Except.ok scenes)
    (h2 : loadSampleInfos fsys (joinPath dir "sample.json") = Except.ok s2s)
    (h3 : loadSampleDataInfos fsys (joinPath dir "sample_data.json") = Except.error e) :
    loadFromDirectory fsys dir r1 =
      (Except.error e, ⟨scenes, s2s, r1.sample2SampleData, r1.scene2EgoPose,
        r1.loadFromDirectoryCalled⟩) := by
  unfold loadFromDirectory
  simp only [h1, h2, h3]

theorem loadFromDirectory_fail_egoPoses (fsys : FileSystem) (dir : String)
    (r1 : MetaDataReader) (e : Failure) (scenes : List SceneInfo)
    (s2s : StdMap (List SampleInfo)) (s2sd : StdMap (List SampleDataInfo))
    (h1 : loadScenesFromFile fsys (joinPath dir "scene.json") = Except.ok scenes)
    (h2 : loadSampleInfos fsys (joinPath dir "sample.json") = Except.ok s2s)
    (h3 : loadSampleDataInfos fsys (joinPath dir "sample_data.json") = Except.ok s2sd)
    (h4 : loadEgoPoseInfos fsys (joinPath dir "ego_pose.json") (walkScenes s2s ([], s2sd)).1 =
      Except.error e) :
    loadFromDirectory fsys dir r1 =
      (Except.error e, ⟨scenes, s2s, (walkScenes s2s ([], s2sd)).2, r1.scene2EgoPose,
        r1.loadFromDirectoryCalled⟩) := by
  unfold loadFromDirectory
  simp only [h1, h2, h3, h4]

/-- C16. Idempotence of construction: for file systems that agree on the four files,
(1) the outcome of `loadFromDirectory` does not depend on the prior state of the reader,
(2) when construction completes, the state it produces does not depend on the prior state
either: it is determined by the four collections, and (3) running construction a second
time on the reader left by the first run yields the same outcome and the same state. -/
theorem construction_idempotent (fsys fsys0 : FileSystem) (dir : String)
    (r0 r1 : MetaDataReader)
    (hagree : ∀ name ∈ inputFiles, fsys0 (joinPath dir name) = fsys (joinPath dir name)) :
    (loadFromDirectory fsys0 dir r1).1 = (loadFromDirectory fsys dir r0).1 ∧
      ((loadFromDirectory fsys dir r0).1 = Except.ok () →
        (loadFromDirectory fsys0 dir r1).2 = (loadFromDirectory fsys dir r0).2) ∧
      loadFromDirectory fsys0 dir (loadFromDirectory fsys dir r0).2 =
        loadFromDirectory fsys dir r0 := by
  have e1 := slurpJsonFile_congr fsys fsys0 _ (hagree "scene.json" (by decide))
  have e2 := slurpJsonFile_congr fsys fsys0 _ (hagree "sample.json" (by decide))
  have e3 := slurpJsonFile_congr fsys fsys0 _ (hagree "sample_data.json" (by decide))
  have e4 := slurpJsonFile_congr fsys fsys0 _ (hagree "ego_pose.json" (by decide))
  have g1 : loadScenesFromFile fsys0 (joinPath dir "scene.json") =
      loadScenesFromFile fsys (joinPath dir "scene.json") := by
    simp only [loadScenesFromFile, e1]
  have g2 : loadSampleInfos fsys0 (joinPath dir "sample.json") =
      loadSampleInfos fsys (joinPath dir "sample.json") := by
    simp only [loadSampleInfos, e2]
  have g3 : loadSampleDataInfos fsys0 (joinPath dir "sample_data.json") =
      loadSampleDataInfos fsys (joinPath dir "sample_data.json") := by
    simp only [loadSampleDataInfos, e3]
  have g4 : ∀ c, loadEgoPoseInfos fsys0 (joinPath dir "ego_pose.json") c =
      loadEgoPoseInfos fsys (joinPath dir "ego_pose.json") c := by
    intro c
    simp only [loadEgoPoseInfos, e4]
  cases h1 : loadScenesFromFile fsys (joinPath dir "scene.json") with
  | error e =>
    rw [loadFromDirectory_fail_scenes fsys dir r0 e h1,
      loadFromDirectory_fail_scenes fsys0 dir r1 e (g1.trans h1),
      loadFromDirectory_fail_scenes fsys0 dir r0 e (g1.trans h1)]
    exact ⟨rfl, (fun h => by cases h), rfl⟩
  | ok scenes =>
    cases h2 : loadSampleInfos fsys (joinPath dir "sample.json") with
    | error e =>
      rw [loadFromDirectory_fail_samples fsys dir r0 e scenes h1 h2,
        loadFromDirectory_fail_samples fsys0 dir r1 e scenes (g1.trans h1) (g2.trans h2),
        loadFromDirectory_fail_samples fsys0 dir _ e scenes (g1.trans h1) (g2.trans h2)]
      exact ⟨rfl, (fun h => by cases h), rfl⟩
    | ok s2s =>
      cases h3 : loadSampleDataInfos fsys (joinPath dir "sample_data.json") with
      | error e =>
        rw [loadFromDirectory_fail_sampleDatas fsys dir r0 e scenes s2s h1 h2 h3,
          loadFromDirectory_fail_sampleDatas fsys0 dir r1 e scenes s2s (g1.trans h1)
            (g2.trans h2) (g3.trans h3),
          loadFromDirectory_fail_sampleDatas fsys0 dir _ e scenes s2s (g1.trans h1)
            (g2.trans h2) (g3.trans h3)]
        exact ⟨rfl, (fun h => by cases h), rfl⟩
      | ok s2sd =>
        cases h4 : loadEgoPoseInfos fsys (joinPath dir "ego_pose.json")
            (walkScenes s2s ([], s2sd)).1 with
        | error e =>
          rw [loadFromDirectory_fail_egoPoses fsys dir r0 e scenes s2s s2sd h1 h2 h3 h4,
            loadFromDirectory_fail_egoPoses fsys0 dir r1 e scenes s2s s2sd (g1.trans h1)
              (g2.trans h2) (g3.trans h3) ((g4 _).trans h4),
            loadFromDirectory_fail_egoPoses fsys0 dir _ e scenes s2s s2sd (g1.trans h1)
              (g2.trans h2) (g3.trans h3) ((g4 _).trans h4)]
          exact ⟨rfl, (fun h => by cases h), rfl⟩
        | ok poses =>
          rw [loadFromDirectory_of_loaders fsys dir r0 scenes s2s s2sd poses h1 h2 h3 h4,
            loadFromDirectory_of_loaders fsys0 dir r1 scenes s2s s2sd poses (g1.trans h1)
              (g2.trans h2) (g3.trans h3) ((g4 _).trans h4),
            loadFromDirectory_of_loaders fsys0 dir _ scenes s2s s2sd poses (g1.trans h1)
              (g2.trans h2) (g3.trans h3) ((g4 _).trans h4)]
          exact ⟨rfl, fun _ => rfl, rfl⟩

theorem example_files_agree :
    ∀ name ∈ inputFiles,
      withFile (exampleFs examplePoses) "elsewhere/scene.json" FileContent.malformed
        (joinPath "data" name) = exampleFs examplePoses (joinPath "data" name) := by
  intro name hn
  simp only [inputFiles, List.mem_cons, List.mem_singleton, List.not_mem_nil, or_false] at hn
  rcases hn with h | h | h | h <;> subst h <;> rfl

/-- C16 at the directory `data`: a construction on the reader left by a failed
construction from other files, with an unrelated file changed, and a second construction
on the loaded reader both give `exampleReader`. -/
theorem construction_idempotent_witness :
    (∀ name ∈ inputFiles,
        withFile (exampleFs examplePoses) "elsewhere/scene.json" FileContent.malformed
          (joinPath "data" name) = exampleFs examplePoses (joinPath "data" name)) ∧
      loadFromDirectory (exampleFs examplePoses) "data" MetaDataReader.fresh =
        (Except.ok (), exampleReader) ∧
      loadFromDirectory (exampleFs examplePoses) "data" exampleReader =
        (Except.ok (), exampleReader) ∧
      ((loadFromDirectory
            (withFile (exampleFs examplePoses) "elsewhere/scene.json" FileContent.malformed)
            "data" noSampleReader).1 =
          (loadFromDirectory (exampleFs examplePoses) "data" MetaDataReader.fresh).1 ∧
        ((loadFromDirectory (exampleFs examplePoses) "data" MetaDataReader.fresh).1 =
            Except.ok () →
          (loadFromDirectory
            (withFile (exampleFs examplePoses) "elsewhere/scene.json" FileContent.malformed)
            "data" noSampleReader).2 =
          (loadFromDirectory (exampleFs examplePoses) "data" MetaDataReader.fresh).2) ∧
        loadFromDirectory
            (withFile (exampleFs examplePoses) "elsewhere/scene.json" FileContent.malformed)
            "data" (loadFromDirectory (exampleFs examplePoses) "data" MetaDataReader.fresh).2 =
          loadFromDirectory (exampleFs examplePoses) "data" MetaDataReader.fresh) :=
  ⟨example_files_agree, rfl, rfl,
    construction_idempotent (exampleFs examplePoses)
      (withFile (exampleFs examplePoses) "elsewhere/scene.json" FileContent.malformed)
      "data" MetaDataReader.fresh noSampleReader example_files_agree⟩

/-! ## Scene tokens and sample keys after construction -/

theorem count_scene_tokens (scenes : List SceneInfo) (t : Token) :
    (scenes.map (fun s => s.token)).count t =
      (scenes.filter (fun s => decide (s.token = t))).length := by
  induction scenes with
  | nil => rfl
  | cons s rest ih =>
    by_cases h : s.token = t
    · simp only [List.map_cons, List.count_cons, List.filter_cons, h, decide_True, if_true,
        List.length_cons, beq_self_eq_true, ih]
    · have h2 : (s.token == t) = false := by simpa using h
      simp only [List.map_cons, List.count_cons, List.filter_cons, h, decide_False, h2, ih,
        Bool.false_eq_true, if_false, Nat.add_zero]

theorem get?_scene_tokens (scenes : List SceneInfo) (i : Nat) :
    (scenes.map (fun s => s.token)).get? i = (scenes.get? i).map (fun s => s.token) := by
  simp only [List.get?_eq_getElem?, List.getElem?_map]

/-- C17. After a successful construction `getAllSceneTokens` returns the token of each
scene of the decoded scene collection, in the order of the collection: the result has the
length of the collection and its i-th element is the token of the i-th scene; a token
that occurs several times is returned as many times. -/
theorem getAllSceneTokens_load_order (ndebug : Bool) (fsys : FileSystem) (dir : String)
    (r0 r : MetaDataReader) (scenes : List SceneInfo)
    (hload : loadFromDirectory fsys dir r0 = (Except.ok (), r))
    (hscenes : readScenes fsys (joinPath dir "scene.json") = Except.ok scenes) :
    ∃ tokens, getAllSceneTokens ndebug r = Except.ok tokens ∧
      tokens = scenes.map (fun s => s.token) ∧
      tokens.length = scenes.length ∧
      (∀ i, tokens.get? i = (scenes.get? i).map (fun s => s.token)) ∧
      ∀ t, tokens.count t = (scenes.filter (fun s => decide (s.token = t))).length := by
  have hcalled := loadFromDirectory_called fsys dir r0 r hload
  have hsc := loadFromDirectory_scenes fsys dir r0 r hload
  rw [hscenes] at hsc
  injection hsc with hsc
  refine ⟨scenes.map (fun s => s.token), ?_, rfl, List.length_map _ _, ?_, ?_⟩
  · simp only [getAllSceneTokens, cassert, hcalled, Bool.or_true, if_true, ← hsc]
    rfl
  · exact get?_scene_tokens scenes
  · exact count_scene_tokens scenes

/-- C17 at the directory `twin`, whose two scenes share the token X. -/
theorem getAllSceneTokens_load_order_witness :
    loadFromDirectory twinFs "twin" MetaDataReader.fresh = (Except.ok (), twinReader) ∧
      readScenes twinFs (joinPath "twin" "scene.json") = Except.ok twinScenes ∧
      getAllSceneTokens false twinReader = Except.ok ["X", "X"] ∧
      ∃ tokens, getAllSceneTokens false twinReader = Except.ok tokens ∧
        tokens = twinScenes.map (fun s => s.token) ∧
        tokens.length = twinScenes.length ∧
        (∀ i, tokens.get? i = (twinScenes.get? i).map (fun s => s.token)) ∧
        ∀ t, tokens.count t = (twinScenes.filter (fun s => decide (s.token = t))).length :=
  ⟨rfl, rfl, rfl,
    getAllSceneTokens_load_order false twinFs "twin" MetaDataReader.fresh twinReader twinScenes
      rfl rfl⟩

/-- C18. After `loadFromDirectory` completes, every sample stored under a key of
`scene2Samples` has its token among the keys of `sample2SampleData`, so the lookup on
line 196 never yields `end()`: the early return of line 198 is not taken, and
`getSceneSampleData` returns the sample data of all samples of the scene, none left out. -/
theorem samples_are_keys_after_load (ndebug : Bool) (fsys : FileSystem) (dir : String)
    (r0 r : MetaDataReader)
    (hload : loadFromDirectory fsys dir r0 = (Except.ok (), r))
    (X : Token) (ss : List SampleInfo) (hX : (X, ss) ∈ r.scene2Samples) :
    (∀ s ∈ ss, r.sample2SampleData.find s.token ≠ none) ∧
      (∀ acc, getSceneSampleDataLoop r.sample2SampleData ss acc =
        acc ++ ss.flatMap (fun s => sampleDatasOf r.sample2SampleData s.token)) ∧
      getSceneSampleData ndebug r X =
        Except.ok (ss.flatMap (fun s => sampleDatasOf r.sample2SampleData s.token)) := by
  obtain ⟨scenes, s2s, s2sd, poses, _, h2, h3, _, hr⟩ :=
    loadFromDirectory_ok_loaders fsys dir r0 r hload
  have hs2s := loadSampleInfos_sorted fsys _ s2s h2
  have hs2sd := loadSampleDataInfos_sorted fsys _ s2sd h3
  rw [hr] at hX ⊢
  simp only at hX ⊢
  have hfind : s2s.find X = some ss := StdMap.find_of_mem s2s hs2s X ss hX
  have hkeys : ∀ s ∈ ss, (StdMap.find (walkScenes s2s ([], s2sd)).2 s.token).isSome = true :=
    fun s hs => walked_find_isSome s2s s2sd hs2sd X ss hfind s hs
  refine ⟨?_, ?_, ?_⟩
  · intro s hs hnone
    have h := hkeys s hs
    rw [hnone] at h
    cases h
  · intro acc
    exact getSceneSampleDataLoop_eq _ ss acc hkeys
  · simp only [getSceneSampleData, hfind]
    rw [getSceneSampleDataLoop_eq _ ss [] hkeys, List.nil_append]

/-- C18 at the directory `data`, scene X: the sample p4, which no sample data references,
is a key of `sample2SampleData` (with an empty sequence) after construction. -/
theorem samples_are_keys_after_load_witness :
    loadFromDirectory (exampleFs examplePoses) "data" MetaDataReader.fresh =
        (Except.ok (), exampleReader) ∧
      ("X", [⟨"X", "p1", ⟨10, 0⟩⟩, ⟨"X", "p4", ⟨15, 0⟩⟩, ⟨"X", "p2", ⟨20, 0⟩⟩]) ∈
        exampleReader.scene2Samples ∧
      exampleSample2SampleData.find "p4" = none ∧
      exampleReader.sample2SampleData.find "p4" = some [] ∧
      ((∀ s ∈ ([⟨"X", "p1", ⟨10, 0⟩⟩, ⟨"X", "p4", ⟨15, 0⟩⟩, ⟨"X", "p2", ⟨20, 0⟩⟩] :
            List SampleInfo), exampleReader.sample2SampleData.find s.token ≠ none) ∧
        (∀ acc, getSceneSampleDataLoop exampleReader.sample2SampleData
            [⟨"X", "p1", ⟨10, 0⟩⟩, ⟨"X", "p4", ⟨15, 0⟩⟩, ⟨"X", "p2", ⟨20, 0⟩⟩] acc =
          acc ++ ([⟨"X", "p1", ⟨10, 0⟩⟩, ⟨"X", "p4", ⟨15, 0⟩⟩, ⟨"X", "p2", ⟨20, 0⟩⟩] :
            List SampleInfo).flatMap
              (fun s => sampleDatasOf exampleReader.sample2SampleData s.token)) ∧
        getSceneSampleData false exampleReader "X" =
          Except.ok (([⟨"X", "p1", ⟨10, 0⟩⟩, ⟨"X", "p4", ⟨15, 0⟩⟩, ⟨"X", "p2", ⟨20, 0⟩⟩] :
            List SampleInfo).flatMap
              (fun s => sampleDatasOf exampleReader.sample2SampleData s.token))) :=
  ⟨rfl, by decide, rfl, rfl,
    samples_are_keys_after_load false (exampleFs examplePoses) "data" MetaDataReader.fresh
      exampleReader rfl "X" _ (by decide)⟩

/-! ## The scene-to-ego-pose map as a partition -/

theorem totalLength_emplace_nil {α : Type} (m : StdMap (List α)) (k : Token) :
    totalLength (StdMap.emplace m k []) = totalLength m := by
  induction m with
  | nil => rfl
  | cons entry rest ih =>
    obtain ⟨k0, v0⟩ := entry
    simp only [StdMap.emplace]
    split
    · simp [totalLength]
    · split
      · rfl
      · simp only [totalLength, List.map_cons, List.sum_cons] at ih ⊢
        rw [ih]

theorem totalLength_modify_push {α : Type} (m : StdMap (List α)) (k : Token) (x : α)
    (hk : (StdMap.find m k).isSome = true) :
    totalLength (StdMap.modify m k (fun l => l ++ [x])) = totalLength m + 1 := by
  induction m with
  | nil => cases hk
  | cons entry rest ih =>
    obtain ⟨k0, v0⟩ := entry
    simp only [StdMap.modify]
    by_cases h : k0 = k
    · simp only [h, if_true, totalLength, List.map_cons, List.sum_cons, List.length_append,
        List.length_singleton]
      omega
    · simp only [StdMap.find, h, if_false] at hk
      simp only [h, if_false, totalLength, List.map_cons, List.sum_cons]
      have := ih hk
      simp only [totalLength] at this
      omega

theorem totalLength_pushRecord {α : Type} (m : StdMap (List α)) (hs : StdMap.Sorted m)
    (r : Token × α) : totalLength (pushRecord m r) = totalLength m + 1 := by
  unfold pushRecord getExistingOrDefault
  rw [totalLength_modify_push, show (default : List α) = [] from rfl, totalLength_emplace_nil]
  rw [StdMap.find_emplace m hs]
  simp

theorem totalLength_groupInto {α : Type} (recs : List (Token × α)) (m : StdMap (List α))
    (hs : StdMap.Sorted m) : totalLength (groupInto recs m) = totalLength m + recs.length := by
  induction recs generalizing m with
  | nil => rfl
  | cons r rest ih =>
    have hstep : groupInto (r :: rest) m = groupInto rest (pushRecord m r) := rfl
    rw [hstep, ih _ (sorted_pushRecord m hs r), totalLength_pushRecord m hs, List.length_cons]
    omega

theorem resolved_length (c : StdMap Token) (js : List Json)
    (rs : List (Option (Token × EgoPoseInfo)))
    (h : decodeAll (resolveEgoPose c) js = Except.ok rs) :
    (rs.filterMap id).length = (js.filter (tokenFound c)).length := by
  induction js generalizing rs with
  | nil =>
    injection h with h
    subst h
    rfl
  | cons j rest ih =>
    obtain ⟨r, rs0, hr, hrs, heq⟩ := decodeAll_cons_ok _ _ _ _ h
    subst heq
    obtain ⟨t, ht, hcase⟩ := resolveEgoPose_ok c j r hr
    rcases hcase with ⟨hf, hnone⟩ | ⟨Y, pose, hf, _, hsome⟩
    · subst hnone
      have hm : tokenFound c j = false := by simp [tokenFound, ht, hf]
      simp only [List.filter_cons, hm, List.filterMap_cons, id, Bool.false_eq_true, if_false]
      exact ih rs0 hrs
    · subst hsome
      have hm : tokenFound c j = true := by simp [tokenFound, ht, hf]
      simp only [List.filter_cons, hm, List.filterMap_cons, id, if_true, List.length_cons]
      rw [ih rs0 hrs]

theorem tokenMapsTo_unique (c : StdMap Token) (j : Json) (X Y : Token)
    (hX : tokenMapsTo c X j = true) (hY : tokenMapsTo c Y j = true) : X = Y := by
  unfold tokenMapsTo at hX hY
  cases ht : egoPoseTokenOf j with
  | error e =>
    rw [ht] at hX
    cases hX
  | ok t =>
    rw [ht] at hX hY
    simp only [decide_eq_true_eq] at hX hY
    rw [hX] at hY
    injection hY

theorem tokenMapsTo_find (c : StdMap Token) (j : Json) (X : Token)
    (hX : tokenMapsTo c X j = true) : ∃ t, c.find t = some X := by
  unfold tokenMapsTo at hX
  cases ht : egoPoseTokenOf j with
  | error e =>
    rw [ht] at hX
    cases hX
  | ok t =>
    rw [ht] at hX
    simp only [decide_eq_true_eq] at hX
    exact ⟨t, hX⟩

/-- C20. The scene-to-ego-pose map partitions the resolved poses: after a successful
construction every ego-pose record is mapped by the closure to at most one scene token,
the sequence of a scene token is the decoding of exactly the records mapped to it (each
occurrence once, in input order), the lengths of all sequences sum to the number of
records whose token is a key of the closure, no key maps to an empty sequence, and every
key of the map is a key of `scene2Samples`. -/
theorem egoPose_partition (fsys : FileSystem) (dir : String) (r0 r : MetaDataReader)
    (js : List Json) (s2s : StdMap (List SampleInfo)) (s2sd : StdMap (List SampleDataInfo))
    (hload : loadFromDirectory fsys dir r0 = (Except.ok (), r))
    (hego : readEgoPoseJsons fsys (joinPath dir "ego_pose.json") = Except.ok js)
    (h1 : loadSampleInfos fsys (joinPath dir "sample.json") = Except.ok s2s)
    (h2 : loadSampleDataInfos fsys (joinPath dir "sample_data.json") = Except.ok s2sd) :
    (∀ j ∈ js, ∀ X Y, tokenMapsTo (egoPoseToken2sceneToken s2s s2sd) X j = true →
        tokenMapsTo (egoPoseToken2sceneToken s2s s2sd) Y j = true → X = Y) ∧
      (∀ X, decodeAll egoPoseJson2EgoPoseInfo
          (js.filter (tokenMapsTo (egoPoseToken2sceneToken s2s s2sd) X)) =
        Except.ok ((r.scene2EgoPose.find X).getD [])) ∧
      totalLength r.scene2EgoPose =
        (js.filter (tokenFound (egoPoseToken2sceneToken s2s s2sd))).length ∧
      (∀ X l, (X, l) ∈ r.scene2EgoPose → l ≠ []) ∧
      (∀ X l, (X, l) ∈ r.scene2EgoPose → ∃ ss, (X, ss) ∈ r.scene2Samples) := by
  obtain ⟨scenes, s2s0, s2sd0, poses, _, g2, g3, g4, hr⟩ :=
    loadFromDirectory_ok_loaders fsys dir r0 r hload
  rw [h1] at g2
  rw [h2] at g3
  injection g2 with g2
  injection g3 with g3
  subst g2 g3
  have hs1 := loadSampleInfos_sorted fsys _ s2s h1
  have hs2 := loadSampleDataInfos_sorted fsys _ s2sd h2
  rw [loadEgoPoseInfos_eq, hego] at g4
  obtain ⟨rs, hrs, hm⟩ := Except.map_eq_ok _ _ _
    (show (fun rs => groupInto (rs.filterMap id) []) <$>
      decodeAll (resolveEgoPose (egoPoseToken2sceneToken s2s s2sd)) js = Except.ok poses
      from g4)
  have hsorted : StdMap.Sorted (groupInto (rs.filterMap id) ([] : StdMap (List EgoPoseInfo))) :=
    sorted_groupInto _ [] List.Pairwise.nil
  rw [hr]
  simp only
  rw [hm]
  refine ⟨?_, ?_, ?_, ?_, ?_⟩
  · intro j _ X Y hX hY
    exact tokenMapsTo_unique _ j X Y hX hY
  · intro X
    rw [(groupInto_index (rs.filterMap id) X).1]
    exact resolved_children _ X js rs hrs
  · rw [totalLength_groupInto _ [] List.Pairwise.nil, resolved_length _ js rs hrs]
    simp [totalLength]
  · intro X l hmem hnil
    have hfind := StdMap.find_of_mem _ hsorted X l hmem
    rw [hnil] at hfind
    exact (groupInto_index (rs.filterMap id) X).2.2 hfind
  · intro X l hmem
    have hsome : (StdMap.find (groupInto (rs.filterMap id) []) X).isSome = true := by
      rw [StdMap.find_of_mem _ hsorted X l hmem]
      rfl
    rw [(groupInto_index (rs.filterMap id) X).2.1, resolved_keys _ X js rs hrs] at hsome
    obtain ⟨j, _, hj⟩ := hsome
    obtain ⟨t, ht⟩ := tokenMapsTo_find _ j X hj
    obtain ⟨s, hs, _⟩ := closure_sound s2s hs1 s2sd hs2 t X ht
    obtain ⟨ss, hss, _⟩ := (mem_samplesOf_iff s2s hs1 X s).mp hs
    exact ⟨ss, hss⟩

/-- C20 at the directory `data` with the two orphaned records: six ego-pose records, four
of them with a token that is a key of the closure, three poses under X and one under Y. -/
theorem egoPose_partition_witness :
    loadFromDirectory (exampleFs examplePosesWithOrphans) "data" MetaDataReader.fresh =
        (Except.ok (), orphanReader) ∧
      readEgoPoseJsons (exampleFs examplePosesWithOrphans) (joinPath "data" "ego_pose.json") =
        Except.ok examplePosesWithOrphans ∧
      loadSampleInfos (exampleFs examplePosesWithOrphans) (joinPath "data" "sample.json") =
        Except.ok exampleScene2Samples ∧
      loadSampleDataInfos (exampleFs examplePosesWithOrphans)
        (joinPath "data" "sample_data.json") = Except.ok exampleSample2SampleData ∧
      orphanReader.scene2EgoPose =
        [("X", [examplePose 21, examplePose 11, examplePose 12]), ("Y", [examplePose 31])] ∧
      examplePosesWithOrphans.length = 6 ∧
      ((∀ j ∈ examplePosesWithOrphans, ∀ X Y,
          tokenMapsTo (egoPoseToken2sceneToken exampleScene2Samples exampleSample2SampleData)
            X j = true →
          tokenMapsTo (egoPoseToken2sceneToken exampleScene2Samples exampleSample2SampleData)
            Y j = true → X = Y) ∧
        (∀ X, decodeAll egoPoseJson2EgoPoseInfo
            (examplePosesWithOrphans.filter (tokenMapsTo
              (egoPoseToken2sceneToken exampleScene2Samples exampleSample2SampleData) X)) =
          Except.ok ((orphanReader.scene2EgoPose.find X).getD [])) ∧
        totalLength orphanReader.scene2EgoPose =
          (examplePosesWithOrphans.filter (tokenFound
            (egoPoseToken2sceneToken exampleScene2Samples exampleSample2SampleData))).length ∧
        (∀ X l, (X, l) ∈ orphanReader.scene2EgoPose → l ≠ []) ∧
        (∀ X l, (X, l) ∈ orphanReader.scene2EgoPose →
          ∃ ss, (X, ss) ∈ orphanReader.scene2Samples)) :=
  ⟨rfl, rfl, rfl, rfl, rfl, rfl,
    egoPose_partition (exampleFs examplePosesWithOrphans) "data" MetaDataReader.fresh
      orphanReader examplePosesWithOrphans exampleScene2Samples exampleSample2SampleData
      rfl rfl rfl rfl⟩

end Nuscenes2bag
